import Mathlib

/-!
MMC/SD card driver over SPI (port_fatfs.c)
===========================================

A shallow embedding of `src/external/fatfs/src/port_fatfs.c`.

* The driver globals `Stat`, `Timer1`, `Timer2`, `CardType` are the fields of `Drv`.
* Every call of `SPI_u8ExchangeByte` consumes one `Event` of the incoming stream: the byte
  the card shifts out and the number of 1 kHz timer interrupts (`disk_timerproc` calls)
  that fire while the byte is on the wire.
* `Drv.log` records, in order, every chip-select action and byte exchange.
* A driver function has the shape `Drv → List Event → Option (result × Drv × List Event)`;
  `none` means that the run has no result in the model: the recorded stream ended before the
  call returned, or C leaves the behaviour undefined (a negative shift count).
* Machine integers are natural numbers; `BYTE` is taken modulo 256, `WORD` modulo 65536,
  `DWORD` and `UINT` modulo 4294967296.
-/

namespace PortFatfs

/-! ## Constants -/

/-- GO_IDLE_STATE -/
abbrev CMD0 : Nat := 0
/-- SEND_OP_COND (MMC) -/
abbrev CMD1 : Nat := 1
/-- SEND_OP_COND (SDC) -/
abbrev ACMD41 : Nat := 0x80 + 41
/-- SEND_IF_COND -/
abbrev CMD8 : Nat := 8
/-- SEND_CSD -/
abbrev CMD9 : Nat := 9
/-- STOP_TRANSMISSION -/
abbrev CMD12 : Nat := 12
/-- SD_STATUS (SDC) -/
abbrev ACMD13 : Nat := 0x80 + 13
/-- SET_BLOCKLEN -/
abbrev CMD16 : Nat := 16
/-- READ_SINGLE_BLOCK -/
abbrev CMD17 : Nat := 17
/-- READ_MULTIPLE_BLOCK -/
abbrev CMD18 : Nat := 18
/-- SET_WR_BLK_ERASE_COUNT (SDC) -/
abbrev ACMD23 : Nat := 0x80 + 23
/-- WRITE_BLOCK -/
abbrev CMD24 : Nat := 24
/-- WRITE_MULTIPLE_BLOCK -/
abbrev CMD25 : Nat := 25
/-- ERASE_ER_BLK_START -/
abbrev CMD32 : Nat := 32
/-- ERASE_ER_BLK_END -/
abbrev CMD33 : Nat := 33
/-- ERASE -/
abbrev CMD38 : Nat := 38
/-- APP_CMD -/
abbrev CMD55 : Nat := 55
/-- READ_OCR -/
abbrev CMD58 : Nat := 58

/-- Card detect macro of the source: `#define MMC_CD 1`. -/
abbrev MMC_CD : Bool := true
/-- Write protect macro of the source: `#define MMC_WP 0`. -/
abbrev MMC_WP : Bool := false

/-- Modelled from the spec: the `NOT_INITIALIZED` flag of the DriveStatus bitmask. It is declared
in the FatFs header `diskio.h`, which is not among the sources; the value is the one of the
FatFs distribution. -/
abbrev STA_NOINIT : Nat := 0x01
/-- Modelled from the spec: the `NO_DISK` flag of the DriveStatus bitmask (header `diskio.h`,
not among the sources). -/
abbrev STA_NODISK : Nat := 0x02
/-- Modelled from the spec: the `WRITE_PROTECTED` flag of the DriveStatus bitmask (header
`diskio.h`, not among the sources). -/
abbrev STA_PROTECT : Nat := 0x04

/-- Modelled from the spec: card type flag `MMC` (header `diskio.h`, not among the sources). -/
abbrev CT_MMC : Nat := 0x01
/-- Modelled from the spec: card type flag `SD_v1` (header `diskio.h`, not among the sources). -/
abbrev CT_SD1 : Nat := 0x02
/-- Modelled from the spec: card type flag `SD_v2` (header `diskio.h`, not among the sources). -/
abbrev CT_SD2 : Nat := 0x04
/-- Modelled from the spec: the mask of the two SD flags, `CT_SD1 | CT_SD2` (header `diskio.h`,
not among the sources). -/
abbrev CT_SDC : Nat := 0x06
/-- Modelled from the spec: the `block_addressed` flag of the card type (header `diskio.h`, not
among the sources). -/
abbrev CT_BLOCK : Nat := 0x08

/-- Modelled from the spec: the result classification of §7 (`DRESULT` of the header `diskio.h`,
not among the sources). `RES_OK` is the member with value 0, the only one that tests false. -/
inductive DRESULT where
  | RES_OK
  | RES_ERROR
  | RES_WRPRT
  | RES_NOTRDY
  | RES_PARERR
deriving DecidableEq

open DRESULT

/-- Modelled from the spec: the control codes of `disk_ioctl`. They are macros of the header
`diskio.h`, which is not among the sources, so they are a parameter of the model. -/
structure IoctlCodes where
  CTRL_SYNC : Nat
  GET_SECTOR_COUNT : Nat
  GET_BLOCK_SIZE : Nat
  CTRL_TRIM : Nat
  MMC_GET_CSD : Nat
deriving DecidableEq

/-- The control codes of the FatFs distribution. -/
def fatfsCodes : IoctlCodes :=
  { CTRL_SYNC := 0, GET_SECTOR_COUNT := 1, GET_BLOCK_SIZE := 3, CTRL_TRIM := 4, MMC_GET_CSD := 11 }

/-- The `case` labels of one `switch` are pairwise different (C requires it), and `MMC_GET_CSD`
is a control code of its own. -/
def IoctlCodes.Distinct (c : IoctlCodes) : Prop :=
  c.CTRL_SYNC ≠ c.GET_SECTOR_COUNT ∧ c.CTRL_SYNC ≠ c.GET_BLOCK_SIZE ∧ c.CTRL_SYNC ≠ c.CTRL_TRIM ∧
  c.GET_SECTOR_COUNT ≠ c.GET_BLOCK_SIZE ∧ c.GET_SECTOR_COUNT ≠ c.CTRL_TRIM ∧
  c.GET_BLOCK_SIZE ≠ c.CTRL_TRIM ∧
  c.MMC_GET_CSD ≠ c.CTRL_SYNC ∧ c.MMC_GET_CSD ≠ c.GET_SECTOR_COUNT ∧
  c.MMC_GET_CSD ≠ c.GET_BLOCK_SIZE ∧ c.MMC_GET_CSD ≠ c.CTRL_TRIM

instance (c : IoctlCodes) : Decidable c.Distinct := by
  unfold IoctlCodes.Distinct
  infer_instance

/-! ## State and environment -/

/-- One byte exchange seen from the card: the byte shifted out by the card and the number of
timer interrupts that fire during the exchange. -/
structure Event where
  byte : Nat
  ticks : Nat
deriving DecidableEq

/-- What the driver does on the bus: `SPI_vSelect`, `SPI_vDeselect`, and `SPI_u8ExchangeByte`
with the byte sent and the byte received. -/
inductive Action where
  | sel
  | desel
  | xchg (out inb : Nat)
deriving DecidableEq

/-- The file-scope variables of the driver, and the trace of bus actions so far. -/
structure Drv where
  Stat : Nat
  Timer1 : Nat
  Timer2 : Nat
  CardType : Nat
  log : List Action
deriving DecidableEq

/-- The state at power-up: `Stat = STA_NOINIT`, everything else zero-initialised. -/
def Drv.init : Drv :=
  { Stat := STA_NOINIT, Timer1 := 0, Timer2 := 0, CardType := 0, log := [] }

/-! ## Device timer function -/

/-- Lines 484-507, with the two signal macros as arguments. `n` is a `WORD`: the timer value is
truncated to 16 bits when it is loaded. `s` is a `BYTE`. -/
def disk_timerproc (cd wp : Bool) (s : Drv) : Drv :=
  let n := s.Timer1 % 65536
  let t1 := if n ≠ 0 then n - 1 else s.Timer1
  let n := s.Timer2 % 65536
  let t2 := if n ≠ 0 then n - 1 else s.Timer2
  let st := s.Stat % 256
  let st := if wp then st ||| STA_PROTECT else st &&& (0xFF - STA_PROTECT)
  let st := if cd then st &&& (0xFF - STA_NODISK) else st ||| (STA_NODISK ||| STA_NOINIT)
  { s with Timer1 := t1, Timer2 := t2, Stat := st }

/-- The timer interrupt fires `n` times. -/
def ticks : Nat → Drv → Drv
  | 0, s => s
  | n + 1, s => ticks n (disk_timerproc MMC_CD MMC_WP s)

/-! ## SPI controls -/

/-- The effect on the driver of exchanging `out` against the event `e`. -/
def exch (out : Nat) (e : Event) (s : Drv) : Drv :=
  ticks e.ticks { s with log := s.log ++ [Action.xchg out (e.byte % 256)] }

/-- The external primitive `SPI_u8ExchangeByte(u8FATfsIndex, out)`. -/
def SPI_u8ExchangeByte (out : Nat) (s : Drv) : List Event → Option (Nat × Drv × List Event)
  | [] => none
  | e :: rest => some (e.byte % 256, exch out e s, rest)

/-- The external primitive `SPI_vSelect`: CS low. -/
def SPI_vSelect (s : Drv) : Drv := { s with log := s.log ++ [Action.sel] }

/-- The external primitive `SPI_vDeselect`: CS high. -/
def SPI_vDeselect (s : Drv) : Drv := { s with log := s.log ++ [Action.desel] }

/-- Lines 70-80: `do { two stores } while (btr -= 2)`, `btr` a `UINT`. The bytes go to
`buff[off]`, `buff[off+1]`, ... -/
def rcvr_spi_multi (buff : List Nat) (off btr : Nat) (s : Drv) :
    List Event → Option (List Nat × Drv × List Event)
  | e1 :: e2 :: rest =>
    let buff := buff.set off (e1.byte % 256)
    let s := exch 0xFF e1 s
    let buff := buff.set (off + 1) (e2.byte % 256)
    let s := exch 0xFF e2 s
    let btr := (btr + 4294967296 - 2) % 4294967296
    if btr ≠ 0 then rcvr_spi_multi buff (off + 2) btr s rest else some (buff, s, rest)
  | _ => none

/-- Lines 84-94: `do { two sends } while (btx -= 2)`, `btx` a `UINT`. The bytes come from
`buff[off]`, `buff[off+1]`, ... -/
def xmit_spi_multi (buff : List Nat) (off btx : Nat) (s : Drv) :
    List Event → Option (Drv × List Event)
  | e1 :: e2 :: rest =>
    let s := exch (buff.getD off 0 % 256) e1 s
    let s := exch (buff.getD (off + 1) 0 % 256) e2 s
    let btx := (btx + 4294967296 - 2) % 4294967296
    if btx ≠ 0 then xmit_spi_multi buff (off + 2) btx s rest else some (s, rest)
  | _ => none

/-- The loop of `wait_ready`, lines 109-112. Returns the last byte read. -/
def wait_ready_loop (s : Drv) : List Event → Option (Nat × Drv × List Event)
  | [] => none
  | e :: rest =>
    let d := e.byte % 256
    let s := exch 0xFF e s
    if d ≠ 0xFF ∧ s.Timer2 ≠ 0 then wait_ready_loop s rest else some (d, s, rest)

/-- Lines 100-115. `true` is 1 (ready), `false` is 0 (timeout). -/
def wait_ready (wt : Nat) (s : Drv) (inp : List Event) : Option (Bool × Drv × List Event) :=
  match wait_ready_loop { s with Timer2 := wt } inp with
  | none => none
  | some (d, s, inp) => some (decide (d = 0xFF), s, inp)

/-- Lines 121-127. -/
def deselect (s : Drv) (inp : List Event) : Option (Unit × Drv × List Event) :=
  match SPI_u8ExchangeByte 0xFF (SPI_vDeselect s) inp with
  | none => none
  | some (_, s, inp) => some ((), s, inp)

/-- Lines 133-142. `true` is 1 (OK), `false` is 0 (timeout). -/
def select (s : Drv) (inp : List Event) : Option (Bool × Drv × List Event) :=
  match SPI_u8ExchangeByte 0xFF (SPI_vSelect s) inp with
  | none => none
  | some (_, s, inp) =>
    match wait_ready 500 s inp with
    | none => none
    | some (true, s, inp) => some (true, s, inp)
    | some (false, s, inp) =>
      match deselect s inp with
      | none => none
      | some (_, s, inp) => some (false, s, inp)

/-! ## Data packets -/

/-- The token wait of `rcvr_datablock`, lines 158-161. Returns the last byte read. -/
def rcvr_token_loop (s : Drv) : List Event → Option (Nat × Drv × List Event)
  | [] => none
  | e :: rest =>
    let token := e.byte % 256
    let s := exch 0xFF e s
    if token = 0xFF ∧ s.Timer1 ≠ 0 then rcvr_token_loop s rest else some (token, s, rest)

/-- Lines 148-168. The data goes to `buff[off ..]`; `true` is 1 (OK), `false` is 0 (error). -/
def rcvr_datablock (buff : List Nat) (off btr : Nat) (s : Drv) (inp : List Event) :
    Option (Bool × List Nat × Drv × List Event) :=
  match rcvr_token_loop { s with Timer1 := 200 } inp with
  | none => none
  | some (token, s, inp) =>
    if token ≠ 0xFE then some (false, buff, s, inp) else
    match rcvr_spi_multi buff off btr s inp with
    | none => none
    | some (buff, s, inp) =>
      match SPI_u8ExchangeByte 0xFF s inp with
      | none => none
      | some (_, s, inp) =>
        match SPI_u8ExchangeByte 0xFF s inp with
        | none => none
        | some (_, s, inp) => some (true, buff, s, inp)

/-- Lines 175-193. The data comes from `buff[off ..]`; `true` is 1 (OK), `false` is 0
(failed). -/
def xmit_datablock (buff : List Nat) (off token : Nat) (s : Drv) (inp : List Event) :
    Option (Bool × Drv × List Event) :=
  match wait_ready 500 s inp with
  | none => none
  | some (false, s, inp) => some (false, s, inp)
  | some (true, s, inp) =>
    match SPI_u8ExchangeByte token s inp with
    | none => none
    | some (_, s, inp) =>
      if token ≠ 0xFD then
        match xmit_spi_multi buff off 512 s inp with
        | none => none
        | some (s, inp) =>
          match SPI_u8ExchangeByte 0xFF s inp with
          | none => none
          | some (_, s, inp) =>
            match SPI_u8ExchangeByte 0xFF s inp with
            | none => none
            | some (_, s, inp) =>
              match SPI_u8ExchangeByte 0xFF s inp with
              | none => none
              | some (resp, s, inp) =>
                if resp &&& 0x1F ≠ 0x05 then some (false, s, inp) else some (true, s, inp)
      else some (true, s, inp)

/-! ## Command packets -/

/-- The response wait of `send_cmd`, lines 235-237: `do { res = ... } while ((res & 0x80) && --n)`.
The first argument is the value of `n` when the loop body is entered; the source loads 10. -/
def send_cmd_resp : Nat → Drv → List Event → Option (Nat × Drv × List Event)
  | 0, _, _ => none
  | n + 1, s, inp =>
    match SPI_u8ExchangeByte 0xFF s inp with
    | none => none
    | some (res, s, inp) =>
      if res &&& 0x80 ≠ 0 ∧ n ≠ 0 then send_cmd_resp n s inp else some (res, s, inp)

/-- Lines 221-239 of `send_cmd`: the command packet and the response. -/
def send_cmd_packet (cmd arg : Nat) (s : Drv) (inp : List Event) :
    Option (Nat × Drv × List Event) :=
  match SPI_u8ExchangeByte (0x40 ||| cmd) s inp with
  | none => none
  | some (_, s, inp) =>
  match SPI_u8ExchangeByte ((arg >>> 24) % 256) s inp with
  | none => none
  | some (_, s, inp) =>
  match SPI_u8ExchangeByte ((arg >>> 16) % 256) s inp with
  | none => none
  | some (_, s, inp) =>
  match SPI_u8ExchangeByte ((arg >>> 8) % 256) s inp with
  | none => none
  | some (_, s, inp) =>
  match SPI_u8ExchangeByte (arg % 256) s inp with
  | none => none
  | some (_, s, inp) =>
  let n := 0x01
  let n := if cmd = CMD0 then 0x95 else n
  let n := if cmd = CMD8 then 0x87 else n
  match SPI_u8ExchangeByte n s inp with
  | none => none
  | some (_, s, inp) =>
  if cmd = CMD12 then
    match SPI_u8ExchangeByte 0xFF s inp with
    | none => none
    | some (_, s, inp) => send_cmd_resp 10 s inp
  else send_cmd_resp 10 s inp

/-- Lines 215-239 of `send_cmd`: what a call does once the application-command prefix of
lines 209-213 is dealt with. -/
def send_cmd_body (cmd arg : Nat) (s : Drv) (inp : List Event) :
    Option (Nat × Drv × List Event) :=
  if cmd ≠ CMD12 then
    match deselect s inp with
    | none => none
    | some (_, s, inp) =>
      match select s inp with
      | none => none
      | some (false, s, inp) => some (0xFF, s, inp)
      | some (true, s, inp) => send_cmd_packet cmd arg s inp
  else send_cmd_packet cmd arg s inp

/-- Lines 200-240. The recursive call `send_cmd(CMD55, 0)` has bit 7 of its command clear, so
it skips lines 209-213 and is `send_cmd_body CMD55 0`. -/
def send_cmd (cmd arg : Nat) (s : Drv) (inp : List Event) : Option (Nat × Drv × List Event) :=
  if cmd &&& 0x80 ≠ 0 then
    let cmd := cmd &&& 0x7F
    match send_cmd_body CMD55 0 s inp with
    | none => none
    | some (res, s, inp) =>
      if res > 1 then some (res, s, inp) else send_cmd_body cmd arg s inp
  else send_cmd_body cmd arg s inp

/-! ## Public functions -/

/-- Line 265: `for (n = 10; n; n--)` one dummy exchange each. -/
def dummy_clocks : Nat → Drv → List Event → Option (Unit × Drv × List Event)
  | 0, s, inp => some ((), s, inp)
  | n + 1, s, inp =>
    match SPI_u8ExchangeByte 0xFF s inp with
    | none => none
    | some (_, s, inp) => dummy_clocks n s inp

/-- The loops `for (n = 0; n < 4; n++) ocr[n] = ...` of lines 271 and 275. -/
def read_ocr (s : Drv) (inp : List Event) : Option (List Nat × Drv × List Event) :=
  match SPI_u8ExchangeByte 0xFF s inp with
  | none => none
  | some (o0, s, inp) =>
  match SPI_u8ExchangeByte 0xFF s inp with
  | none => none
  | some (o1, s, inp) =>
  match SPI_u8ExchangeByte 0xFF s inp with
  | none => none
  | some (o2, s, inp) =>
  match SPI_u8ExchangeByte 0xFF s inp with
  | none => none
  | some (o3, s, inp) => some ([o0, o1, o2, o3], s, inp)

/-- The loops `while (Timer1 && send_cmd(cmd, arg)) ;` of lines 273 and 285. Every turn that
returns exchanges at least one byte, so the number of events left bounds the number of turns:
the first argument is that bound. -/
def init_wait : Nat → Nat → Nat → Drv → List Event → Option (Unit × Drv × List Event)
  | 0, _, _, _, _ => none
  | fuel + 1, cmd, arg, s, inp =>
    if s.Timer1 ≠ 0 then
      match send_cmd cmd arg s inp with
      | none => none
      | some (res, s, inp) =>
        if res ≠ 0 then init_wait fuel cmd arg s inp else some ((), s, inp)
    else some ((), s, inp)

/-- Lines 267-289 of `disk_initialize`: the card type negotiation. Returns `ty`. -/
def init_card_type (s : Drv) (inp : List Event) : Option (Nat × Drv × List Event) :=
  match send_cmd CMD0 0 s inp with
  | none => none
  | some (r0, s, inp) =>
  if r0 = 1 then
    let s := { s with Timer1 := 1000 }
    match send_cmd CMD8 0x1AA s inp with
    | none => none
    | some (r8, s, inp) =>
    if r8 = 1 then
      match read_ocr s inp with
      | none => none
      | some (ocr, s, inp) =>
      if ocr.getD 2 0 = 0x01 ∧ ocr.getD 3 0 = 0xAA then
        match init_wait (inp.length + 1) ACMD41 (1 <<< 30) s inp with
        | none => none
        | some (_, s, inp) =>
        if s.Timer1 ≠ 0 then
          match send_cmd CMD58 0 s inp with
          | none => none
          | some (r58, s, inp) =>
          if r58 = 0 then
            match read_ocr s inp with
            | none => none
            | some (ocr, s, inp) =>
              some (if ocr.getD 0 0 &&& 0x40 ≠ 0 then CT_SD2 ||| CT_BLOCK else CT_SD2, s, inp)
          else some (0, s, inp)
        else some (0, s, inp)
      else some (0, s, inp)
    else
      match send_cmd ACMD41 0 s inp with
      | none => none
      | some (r41, s, inp) =>
      let ty := if r41 ≤ 1 then CT_SD1 else CT_MMC
      let cmd := if r41 ≤ 1 then ACMD41 else CMD1
      match init_wait (inp.length + 1) cmd 0 s inp with
      | none => none
      | some (_, s, inp) =>
      if s.Timer1 = 0 then some (0, s, inp) else
      match send_cmd CMD16 512 s inp with
      | none => none
      | some (r16, s, inp) => some (if r16 ≠ 0 then 0 else ty, s, inp)
  else some (0, s, inp)

/-- Lines 253-300. Returns the drive status. -/
def disk_initialize (drv : Nat) (s : Drv) (inp : List Event) : Option (Nat × Drv × List Event) :=
  if drv ≠ 0 then some (STA_NOINIT, s, inp) else
  if s.Stat &&& STA_NODISK ≠ 0 then some (s.Stat, s, inp) else
  match dummy_clocks 10 s inp with
  | none => none
  | some (_, s, inp) =>
  match init_card_type s inp with
  | none => none
  | some (ty, s, inp) =>
  let s := { s with CardType := ty }
  match deselect s inp with
  | none => none
  | some (_, s, inp) =>
  let s := if ty ≠ 0 then { s with Stat := s.Stat % 256 &&& (0xFF - STA_NOINIT) }
           else { s with Stat := STA_NOINIT }
  some (s.Stat, s, inp)

/-- Lines 307-314. Returns the drive status. -/
def disk_status (drv : Nat) (s : Drv) : Nat :=
  if drv ≠ 0 then STA_NOINIT else s.Stat

/-- The loop of lines 340-343, `do { if (!rcvr_datablock(buff, 512)) break; buff += 512; }
while (--count)`, entered with `count` at least 1 (line 327 excludes 0). Returns the value
of `count` when the loop is left. -/
def read_multi : Nat → List Nat → Nat → Drv → List Event →
    Option (Nat × List Nat × Drv × List Event)
  | 0, buff, _, s, inp => some (0, buff, s, inp)
  | count + 1, buff, off, s, inp =>
    match rcvr_datablock buff off 512 s inp with
    | none => none
    | some (false, buff, s, inp) => some (count + 1, buff, s, inp)
    | some (true, buff, s, inp) => read_multi count buff (off + 512) s inp

/-- Lines 320-350. `buff` is the caller's array and comes back with the result. -/
def disk_read (drv : Nat) (buff : List Nat) (sector count : Nat) (s : Drv) (inp : List Event) :
    Option (DRESULT × List Nat × Drv × List Event) :=
  if drv ≠ 0 ∨ count = 0 then some (RES_PARERR, buff, s, inp) else
  if s.Stat &&& STA_NOINIT ≠ 0 then some (RES_NOTRDY, buff, s, inp) else
  let sector := if s.CardType &&& CT_BLOCK = 0 then sector * 512 % 4294967296 else sector
  let r :=
    if count = 1 then
      match send_cmd CMD17 sector s inp with
      | none => none
      | some (res, s, inp) =>
        if res = 0 then
          match rcvr_datablock buff 0 512 s inp with
          | none => none
          | some (true, buff, s, inp) => some (0, buff, s, inp)
          | some (false, buff, s, inp) => some (count, buff, s, inp)
        else some (count, buff, s, inp)
    else
      match send_cmd CMD18 sector s inp with
      | none => none
      | some (res, s, inp) =>
        if res = 0 then
          match read_multi count buff 0 s inp with
          | none => none
          | some (count, buff, s, inp) =>
            match send_cmd CMD12 0 s inp with
            | none => none
            | some (_, s, inp) => some (count, buff, s, inp)
        else some (count, buff, s, inp)
  match r with
  | none => none
  | some (count, buff, s, inp) =>
    match deselect s inp with
    | none => none
    | some (_, s, inp) => some (if count ≠ 0 then RES_ERROR else RES_OK, buff, s, inp)

/-- The loop of lines 379-382, `do { if (!xmit_datablock(buff, 0xFC)) break; buff += 512; }
while (--count)`, entered with `count` at least 1 (line 364 excludes 0). Returns the value
of `count` when the loop is left. -/
def write_multi : Nat → List Nat → Nat → Drv → List Event → Option (Nat × Drv × List Event)
  | 0, _, _, s, inp => some (0, s, inp)
  | count + 1, buff, off, s, inp =>
    match xmit_datablock buff off 0xFC s inp with
    | none => none
    | some (false, s, inp) => some (count + 1, s, inp)
    | some (true, s, inp) => write_multi count buff (off + 512) s inp

/-- Lines 357-389. -/
def disk_write (drv : Nat) (buff : List Nat) (sector count : Nat) (s : Drv) (inp : List Event) :
    Option (DRESULT × Drv × List Event) :=
  if drv ≠ 0 ∨ count = 0 then some (RES_PARERR, s, inp) else
  if s.Stat &&& STA_NOINIT ≠ 0 then some (RES_NOTRDY, s, inp) else
  if s.Stat &&& STA_PROTECT ≠ 0 then some (RES_WRPRT, s, inp) else
  let sector := if s.CardType &&& CT_BLOCK = 0 then sector * 512 % 4294967296 else sector
  let r :=
    if count = 1 then
      match send_cmd CMD24 sector s inp with
      | none => none
      | some (res, s, inp) =>
        if res = 0 then
          match xmit_datablock buff 0 0xFE s inp with
          | none => none
          | some (true, s, inp) => some (0, s, inp)
          | some (false, s, inp) => some (count, s, inp)
        else some (count, s, inp)
    else
      let pre := if s.CardType &&& CT_SDC ≠ 0 then
                   match send_cmd ACMD23 count s inp with
                   | none => none
                   | some (_, s, inp) => some (s, inp)
                 else some (s, inp)
      match pre with
      | none => none
      | some (s, inp) =>
      match send_cmd CMD25 sector s inp with
      | none => none
      | some (res, s, inp) =>
        if res = 0 then
          match write_multi count buff 0 s inp with
          | none => none
          | some (count, s, inp) =>
            match xmit_datablock [] 0 0xFD s inp with
            | none => none
            | some (true, s, inp) => some (count, s, inp)
            | some (false, s, inp) => some (1, s, inp)
        else some (count, s, inp)
  match r with
  | none => none
  | some (count, s, inp) =>
    match deselect s inp with
    | none => none
    | some (_, s, inp) => some (if count ≠ 0 then RES_ERROR else RES_OK, s, inp)

/-- The value stored by `GET_SECTOR_COUNT`, lines 420-427, from the CSD register. `csize << 10`
is a `DWORD`. `n - 9` is an `int`: when it is negative the shift is undefined. -/
def sector_count (csd : List Nat) : Option Nat :=
  if csd.getD 0 0 >>> 6 = 1 then
    let csize := csd.getD 9 0 + (csd.getD 8 0 <<< 8) + ((csd.getD 7 0 &&& 63) <<< 16) + 1
    some ((csize <<< 10) % 4294967296)
  else
    let n := (csd.getD 5 0 &&& 15) + ((csd.getD 10 0 &&& 128) >>> 7) + ((csd.getD 9 0 &&& 3) <<< 1) + 2
    let csize := (csd.getD 8 0 >>> 6) + (csd.getD 7 0 <<< 2) + ((csd.getD 6 0 &&& 3) <<< 10) + 1
    if n < 9 then none else some ((csize <<< (n - 9)) % 4294967296)

/-- Line 437: `for (n = 64 - 16; n; n--)` one exchange each. -/
def purge : Nat → Drv → List Event → Option (Unit × Drv × List Event)
  | 0, s, inp => some ((), s, inp)
  | n + 1, s, inp =>
    match SPI_u8ExchangeByte 0xFF s inp with
    | none => none
    | some (_, s, inp) => purge n s inp

/-- Lines 397-474. `buff` is the caller's control data, a list of `DWORD` cells (`BYTE` cells
for the CSD request of line 456); it comes back with the result. The local array `csd` starts
with unspecified content, here zeros. The first argument bounds the depth of the recursion of
line 456. -/
def disk_ioctl (c : IoctlCodes) : Nat → Nat → Nat → List Nat → Drv → List Event →
    Option (DRESULT × List Nat × Drv × List Event)
  | 0, _, _, _, _, _ => none
  | depth + 1, drv, cmd, buff, s, inp =>
    if drv ≠ 0 then some (RES_PARERR, buff, s, inp) else
    if s.Stat &&& STA_NOINIT ≠ 0 then some (RES_NOTRDY, buff, s, inp) else
    let csd := List.replicate 16 0
    let r : Option (DRESULT × List Nat × Drv × List Event) :=
      if cmd = c.CTRL_SYNC then
        match select s inp with
        | none => none
        | some (true, s, inp) => some (RES_OK, buff, s, inp)
        | some (false, s, inp) => some (RES_ERROR, buff, s, inp)
      else if cmd = c.GET_SECTOR_COUNT then
        match send_cmd CMD9 0 s inp with
        | none => none
        | some (res, s, inp) =>
          if res = 0 then
            match rcvr_datablock csd 0 16 s inp with
            | none => none
            | some (false, _, s, inp) => some (RES_ERROR, buff, s, inp)
            | some (true, csd, s, inp) =>
              match sector_count csd with
              | none => none
              | some v => some (RES_OK, buff.set 0 v, s, inp)
          else some (RES_ERROR, buff, s, inp)
      else if cmd = c.GET_BLOCK_SIZE then
        if s.CardType &&& CT_SD2 ≠ 0 then
          match send_cmd ACMD13 0 s inp with
          | none => none
          | some (res, s, inp) =>
            if res = 0 then
              match SPI_u8ExchangeByte 0xFF s inp with
              | none => none
              | some (_, s, inp) =>
                match rcvr_datablock csd 0 16 s inp with
                | none => none
                | some (false, _, s, inp) => some (RES_ERROR, buff, s, inp)
                | some (true, csd, s, inp) =>
                  match purge (64 - 16) s inp with
                  | none => none
                  | some (_, s, inp) =>
                    some (RES_OK, buff.set 0 ((16 <<< (csd.getD 10 0 >>> 4)) % 4294967296), s, inp)
            else some (RES_ERROR, buff, s, inp)
        else
          match send_cmd CMD9 0 s inp with
          | none => none
          | some (res, s, inp) =>
            if res = 0 then
              match rcvr_datablock csd 0 16 s inp with
              | none => none
              | some (false, _, s, inp) => some (RES_ERROR, buff, s, inp)
              | some (true, csd, s, inp) =>
                if s.CardType &&& CT_SD1 ≠ 0 then
                  if csd.getD 13 0 >>> 6 = 0 then none else
                  some (RES_OK, buff.set 0
                    (((((csd.getD 10 0 &&& 63) <<< 1) + ((csd.getD 11 0 &&& 128) >>> 7) + 1)
                        <<< ((csd.getD 13 0 >>> 6) - 1)) % 4294967296), s, inp)
                else
                  some (RES_OK, buff.set 0
                    (((((csd.getD 10 0 &&& 124) >>> 2) + 1) *
                      (((csd.getD 11 0 &&& 3) <<< 3) + ((csd.getD 11 0 &&& 224) >>> 5) + 1))
                        % 4294967296), s, inp)
            else some (RES_ERROR, buff, s, inp)
      else if cmd = c.CTRL_TRIM then
        if s.CardType &&& CT_SDC = 0 then some (RES_ERROR, buff, s, inp) else
        match disk_ioctl c depth drv c.MMC_GET_CSD csd s inp with
        | none => none
        | some (r, csd, s, inp) =>
          if r ≠ RES_OK then some (RES_ERROR, buff, s, inp) else
          if csd.getD 0 0 >>> 6 = 0 ∧ csd.getD 10 0 &&& 0x40 = 0 then
            some (RES_ERROR, buff, s, inp) else
          let st := buff.getD 0 0
          let ed := buff.getD 1 0
          let st := if s.CardType &&& CT_BLOCK = 0 then st * 512 % 4294967296 else st
          let ed := if s.CardType &&& CT_BLOCK = 0 then ed * 512 % 4294967296 else ed
          match send_cmd CMD32 st s inp with
          | none => none
          | some (r32, s, inp) =>
            if r32 ≠ 0 then some (RES_ERROR, buff, s, inp) else
            match send_cmd CMD33 ed s inp with
            | none => none
            | some (r33, s, inp) =>
              if r33 ≠ 0 then some (RES_ERROR, buff, s, inp) else
              match send_cmd CMD38 0 s inp with
              | none => none
              | some (r38, s, inp) =>
                if r38 ≠ 0 then some (RES_ERROR, buff, s, inp) else
                match wait_ready 30000 s inp with
                | none => none
                | some (true, s, inp) => some (RES_OK, buff, s, inp)
                | some (false, s, inp) => some (RES_ERROR, buff, s, inp)
      else some (RES_PARERR, buff, s, inp)
    match r with
    | none => none
    | some (res, buff, s, inp) =>
      match deselect s inp with
      | none => none
      | some (_, s, inp) => some (res, buff, s, inp)

/-- Modelled from the spec: the numeric value of a result code, in the order of the `DRESULT`
enumeration of the header `diskio.h` (not among the sources). -/
def DRESULT.toNat : DRESULT → Nat
  | RES_OK => 0
  | RES_ERROR => 1
  | RES_WRPRT => 2
  | RES_NOTRDY => 3
  | RES_PARERR => 4

/-! ## Vocabulary of the statements -/

/-- Every action of the list is a dummy clock: an exchange that sends `0xFF`. -/
def Dummy (l : List Action) : Prop := ∀ a ∈ l, ∃ b, a = Action.xchg 0xFF b

/-- The CRC byte of a command packet, lines 227-229. -/
def crc_byte (cmd : Nat) : Nat := if cmd = CMD8 then 0x87 else if cmd = CMD0 then 0x95 else 0x01

/-! ## Card streams used at concrete inputs -/

/-- A stream of events without timer ticks, from the bytes the card sends. -/
def quiet (l : List Nat) : List Event := l.map fun b => { byte := b, ticks := 0 }

/-- What a ready card sends while a plain command is on the wire: idle bytes during deselect,
select, the ready poll and the six packet bytes, then the response `r`. -/
def answer (r : Nat) : List Event := quiet (List.replicate 9 0xFF ++ [r])

/-- An SD v2 block-addressed card during `disk_initialize`: ten dummy clocks, CMD0 answers 1,
CMD8 answers 1 and echoes `0x1AA`, ACMD41 (CMD55 then CMD41) answers 0, CMD58 answers 0 with
the CCS bit set in the OCR, and the final deselect. -/
def sdv2_stream : List Event :=
  quiet (List.replicate 10 0xFF) ++ answer 1 ++ answer 1 ++ quiet [0, 0, 0x01, 0xAA] ++
    answer 1 ++ answer 0 ++ answer 0 ++ quiet [0xC0, 0xFF, 0x80, 0] ++ quiet [0xFF]

/-- A card that rejects CMD0 (answers 5) during `disk_initialize`. -/
def reject_stream : List Event :=
  quiet (List.replicate 10 0xFF) ++ answer 5 ++ quiet [0xFF]

/-- An initialised, block-addressed SD v2 card. -/
def sd_card : Drv := { Drv.init with Stat := 0, CardType := CT_SD2 ||| CT_BLOCK }

/-- What the card sends during a single-block read whose 512 data bytes are all `d`: the
command is accepted, then the start token, the data, two CRC bytes, and the final deselect. -/
def single_read_stream (d : Nat) : List Event :=
  answer 0 ++ quiet ([0xFE] ++ List.replicate 512 d ++ [0, 0]) ++ quiet [0xFF]

/-- The bytes `bs` stored at `buff[off]`, `buff[off+1]`, ... -/
def store (buff : List Nat) (off : Nat) : List Nat → List Nat
  | [] => buff
  | b :: bs => store (buff.set off b) (off + 1) bs

/-- The byte an event delivers to the driver. -/
def Event.val (e : Event) : Nat := e.byte % 256

/-- The driver state after dummy exchanges (sending `0xFF`) against the events `es`. -/
def clock (s : Drv) (es : List Event) : Drv := es.foldl (fun s e => exch 0xFF e s) s

/-- The 22-bit field `C_SIZE` of a version 2 CSD register, as the capacity formula writes it:
`((csd[7] & 63) << 16) | (csd[8] << 8) | csd[9]`. -/
def csize_v2 (csd : List Nat) : Nat :=
  ((csd.getD 7 0 &&& 63) <<< 16) ||| (csd.getD 8 0 <<< 8) ||| csd.getD 9 0

/-- A version 2 CSD register whose `C_SIZE` field is the maximum `0x3FFFFF`. -/
def csd_max : List Nat := [0x40, 0x0E, 0, 0x32, 0x5B, 0x59, 0, 0x3F, 0xFF, 0xFF, 0x7F, 0x80, 0x0A, 0x40, 0, 1]

/-- What the card sends during `GET_SECTOR_COUNT`: CMD9 is accepted, then the start token, the
16 bytes of the CSD register `csd`, two CRC bytes, and the final deselect. -/
def csd_stream (csd : List Nat) : List Event :=
  answer 0 ++ quiet ([0xFE] ++ csd ++ [0, 0]) ++ quiet [0xFF]

/-- The state and the rest of the stream after a call, for use at concrete inputs (the
power-up state and no events when the call has no result). -/
def after {α : Type} (x : Option (α × Drv × List Event)) : Drv × List Event :=
  match x with
  | some (_, s, i) => (s, i)
  | none => (Drv.init, [])

/-- The state and the rest of the stream after a block transfer, for use at concrete inputs. -/
def after_block (x : Option (Bool × List Nat × Drv × List Event)) : Drv × List Event :=
  match x with
  | some (_, _, s, i) => (s, i)
  | none => (Drv.init, [])

/-- A version 2 CSD register with `C_SIZE = 0x003B37` (an 8 GB card). -/
def csd_8g : List Nat := [0x40, 0x0E, 0, 0x32, 0x5B, 0x59, 0, 0, 0x3B, 0x37, 0x7F, 0x80, 0x0A, 0x40, 0, 1]

/-- State and stream after CMD9 in `GET_SECTOR_COUNT` on `csd_stream csd_8g`. -/
def csd_8g_cmd : Drv × List Event := after (send_cmd CMD9 0 sd_card (csd_stream csd_8g))

/-- State and stream after the CSD block in `GET_SECTOR_COUNT` on `csd_stream csd_8g`. -/
def csd_8g_blk : Drv × List Event :=
  after_block (rcvr_datablock (List.replicate 16 0) 0 16 csd_8g_cmd.1 csd_8g_cmd.2)

/-- State and stream at the end of `GET_SECTOR_COUNT` on `csd_stream csd_8g`. -/
def csd_8g_end : Drv × List Event := after (deselect csd_8g_blk.1 csd_8g_blk.2)

/-- The bytes the driver sent, in order. -/
def sent (l : List Action) : List Nat :=
  l.filterMap fun a => match a with
    | Action.xchg out _ => some out
    | _ => none

/-- The chip-select actions of a trace, in order. -/
def chip_selects (l : List Action) : List Action :=
  l.filter fun a => match a with
    | Action.xchg _ _ => false
    | _ => true

/-- Buffer, state and rest of the stream after a block loop or a block transfer, for use at
concrete inputs. -/
def after_data {α : Type} (x : Option (α × List Nat × Drv × List Event)) :
    List Nat × Drv × List Event :=
  match x with
  | some (_, b, s, i) => (b, s, i)
  | none => ([], Drv.init, [])

/-- What the card sends during a two-block read that loses the second start token: CMD18 is
accepted, one block of bytes `d` arrives, then `0x00` comes instead of a start token; CMD12
gets a stuff byte and the answer 0; then the final deselect. -/
def dropped_token_stream (d : Nat) : List Event :=
  answer 0 ++ quiet ([0xFE] ++ List.replicate 512 d ++ [0, 0]) ++ quiet [0x00] ++
    quiet (List.replicate 6 0xFF ++ [0xFF, 0]) ++ quiet [0xFF]

/-- State and stream after CMD18 on `dropped_token_stream 7`. -/
def dropped_cmd : Drv × List Event := after (send_cmd CMD18 5 sd_card (dropped_token_stream 7))

/-- Buffer, state and stream after the first block on `dropped_token_stream 7`. -/
def dropped_blk : List Nat × Drv × List Event :=
  after_data (read_multi 1 (List.replicate 1024 0) 0 dropped_cmd.1 dropped_cmd.2)

/-- Buffer, state and stream after the failed second block on `dropped_token_stream 7`. -/
def dropped_fail : List Nat × Drv × List Event :=
  after_data (rcvr_datablock dropped_blk.1 (512 * 1) 512 dropped_blk.2.1 dropped_blk.2.2)

/-- State and stream after CMD12 on `dropped_token_stream 7`. -/
def dropped_stop : Drv × List Event := after (send_cmd CMD12 0 dropped_fail.2.1 dropped_fail.2.2)

/-- State and stream at the end of the read on `dropped_token_stream 7`. -/
def dropped_end : Drv × List Event := after (deselect dropped_stop.1 dropped_stop.2)

/-- The driver runs `n` block transfers in a row into consecutive 512-byte slots of `buff`,
starting at `off`, and every one of them succeeds. -/
def blocks_received : Nat → List Nat → Nat → Drv → List Event →
    Option (List Nat × Drv × List Event)
  | 0, buff, _, s, inp => some (buff, s, inp)
  | n + 1, buff, off, s, inp =>
    match rcvr_datablock buff off 512 s inp with
    | some (true, buff, s, inp) => blocks_received n buff (off + 512) s inp
    | _ => none

/-- The stream `inp` carries the data blocks `payloads` one after the other and then goes on
as `rest`: each block is idle bytes `0xFF`, the start token `0xFE`, the 512 payload bytes and
two CRC bytes. -/
def Blocks : List Event → List (List Nat) → List Event → Prop
  | inp, [], rest => inp = rest
  | inp, p :: ps, rest =>
    ∃ idle tok data crc mid, inp = idle ++ tok :: (data ++ crc ++ mid) ∧
      (∀ x ∈ idle, x.val = 0xFF) ∧ tok.val = 0xFE ∧ data.map Event.val = p ∧ p.length = 512 ∧
      crc.length = 2 ∧ Blocks mid ps rest

/-- What the card sends during a two-block read with data bytes `d1` and `d2`: CMD18 is
accepted, two blocks arrive, CMD12 gets a stuff byte and the answer 0, then the final
deselect. -/
def two_block_stream (d1 d2 : Nat) : List Event :=
  answer 0 ++ quiet ([0xFE] ++ List.replicate 512 d1 ++ [0, 0]) ++
    quiet ([0xFF, 0xFE] ++ List.replicate 512 d2 ++ [0, 0]) ++
    quiet (List.replicate 6 0xFF ++ [0xFF, 0]) ++ quiet [0xFF]

/-- Buffer, state and stream at the end of the two-block read on `two_block_stream 7 9`. -/
def two_block_end : List Nat × Drv × List Event :=
  after_data (disk_read 0 (List.replicate 1024 0) 5 2 sd_card (two_block_stream 7 9))

/-- The driver sends `n` data blocks with token `0xFC` in a row from consecutive 512-byte slots
of `buff`, starting at `off`, and the card accepts every one of them. -/
def blocks_sent : Nat → List Nat → Nat → Drv → List Event → Option (Drv × List Event)
  | 0, _, _, s, inp => some (s, inp)
  | n + 1, buff, off, s, inp =>
    match xmit_datablock buff off 0xFC s inp with
    | some (true, s, inp) => blocks_sent n buff (off + 512) s inp
    | _ => none

/-- What the card sends while one data block is written: ready, idle during the token, the 512
data bytes and the two CRC bytes, then the data response `0xE5` (accepted). -/
def write_block_events : List Event := quiet (List.replicate 516 0xFF ++ [0xE5])

/-- What an SD card sends during a two-block write: CMD55, CMD23 and CMD25 are accepted, two
blocks are accepted, the card is ready for the stop token, then the final deselect. -/
def two_write_stream : List Event :=
  answer 0 ++ answer 0 ++ answer 0 ++ write_block_events ++ write_block_events ++
    quiet [0xFF, 0xFF] ++ quiet [0xFF]

/-- State and stream after ACMD23 on `two_write_stream`. -/
def two_write_pre : Drv × List Event := after (send_cmd ACMD23 2 sd_card two_write_stream)

/-- State and stream after CMD25 on `two_write_stream`. -/
def two_write_cmd : Drv × List Event := after (send_cmd CMD25 5 two_write_pre.1 two_write_pre.2)

/-- State and stream after the block loop on `two_write_stream`. -/
def two_write_blocks : Drv × List Event :=
  after (write_multi 2 (List.replicate 1024 3) 0 two_write_cmd.1 two_write_cmd.2)

/-- State and stream after the stop token on `two_write_stream`. -/
def two_write_stop : Drv × List Event :=
  after (xmit_datablock [] 0 0xFD two_write_blocks.1 two_write_blocks.2)

/-- State and stream at the end of the write on `two_write_stream`. -/
def two_write_end : Drv × List Event := after (deselect two_write_stop.1 two_write_stop.2)

/-- The state `t` comes from `s` by bus activity alone: byte exchanges (with the timer
interrupts that fire meanwhile), chip-select changes and timer loads. -/
inductive Bus : Drv → Drv → Prop
  | refl (s : Drv) : Bus s s
  | trans {s t u : Drv} : Bus s t → Bus t u → Bus s u
  | xchg (out : Nat) (e : Event) (s : Drv) : Bus s (exch out e s)
  | sel (s : Drv) : Bus s (SPI_vSelect s)
  | desel (s : Drv) : Bus s (SPI_vDeselect s)
  | timer1 (s : Drv) (v : Nat) : Bus s { s with Timer1 := v }
  | timer2 (s : Drv) (v : Nat) : Bus s { s with Timer2 := v }

/-- One operation on the driver as the host sees it: a timer interrupt with the card-detect
and write-protect signals it samples, or a call of a public function with its arguments and
the events the bus delivers during the call. -/
inductive Op where
  | tick (cd wp : Bool)
  | init (drv : Nat) (inp : List Event)
  | status (drv : Nat)
  | read (drv : Nat) (buff : List Nat) (sector count : Nat) (inp : List Event)
  | write (drv : Nat) (buff : List Nat) (sector count : Nat) (inp : List Event)
  | ioctl (depth drv cmd : Nat) (buff : List Nat) (inp : List Event)

/-- The driver state after one operation; `none` when the call has no result. -/
def run_op (c : IoctlCodes) : Op → Drv → Option Drv
  | Op.tick cd wp, s => some (disk_timerproc cd wp s)
  | Op.init drv inp, s => ( disk_initialize drv s inp).map fun x => x.2.1
  | Op.status _, s => some s
  | Op.read drv buff sector count inp, s =>
    (disk_read drv buff sector count s inp).map fun x => x.2.2.1
  | Op.write drv buff sector count inp, s =>
    (disk_write drv buff sector count s inp).map fun x => x.2.1
  | Op.ioctl depth drv cmd buff inp, s =>
    (disk_ioctl c depth drv cmd buff s inp).map fun x => x.2.2.1

/-- The states the driver can be in: the power-up state, and what any sequence of operations
executed one after the other makes of it. -/
inductive Reachable (c : IoctlCodes) : Drv → Prop
  | start : Reachable c Drv.init
  | next {s t : Drv} (op : Op) : Reachable c s → run_op c op s = some t → Reachable c t

/-- The run of `init_card_type` that identifies a block-addressed SD v2 card, from state `s` and
stream `inp` to state `sE` and stream `iE`: CMD0 answers 1, CMD8 with `0x1AA` answers 1 and
the R7 bytes 2 and 3 are `0x01` and `0xAA`, the ACMD41 loop ends with the 1 s timer still
running (so its last ACMD41 answered 0), CMD58 answers 0 and bit 6 of the first OCR byte is
set. -/
def sdv2_block_run (s : Drv) (inp : List Event) (sE : Drv) (iE : List Event) : Prop :=
  ∃ (s0 : Drv) (i0 : List Event) (s8 : Drv) (i8 : List Event) (ocr : List Nat) (sO : Drv)
    (iO : List Event) (sW : Drv) (iW : List Event) (sP : Drv) (iP : List Event) (s58 : Drv)
    (i58 : List Event) (ocr2 : List Nat),
    send_cmd CMD0 0 s inp = some (1, s0, i0) ∧
    send_cmd CMD8 0x1AA { s0 with Timer1 := 1000 } i0 = some (1, s8, i8) ∧
    read_ocr s8 i8 = some (ocr, sO, iO) ∧ ocr.getD 2 0 = 0x01 ∧ ocr.getD 3 0 = 0xAA ∧
    init_wait (iO.length + 1) ACMD41 (1 <<< 30) sO iO = some ((), sW, iW) ∧ sW.Timer1 ≠ 0 ∧
    send_cmd ACMD41 (1 <<< 30) sP iP = some (0, sW, iW) ∧
    send_cmd CMD58 0 sW iW = some (0, s58, i58) ∧
    read_ocr s58 i58 = some (ocr2, sE, iE) ∧ ocr2.getD 0 0 &&& 0x40 ≠ 0

/-- The timer interrupt fires once for every pair of card-detect and write-protect signals of
the list, in order. -/
def tick_seq : List (Bool × Bool) → Drv → Drv
  | [], s => s
  | sig :: rest, s => tick_seq rest (disk_timerproc sig.1 sig.2 s)

/-- The card keeps the line busy against a timer loaded with `t`: no event of the list delivers
`0xFF`, and the timer interrupts that fire during the events bring the timer to zero during
the last event, not before. -/
def busy : Nat → List Event → Bool
  | _, [] => false
  | t, [e] => decide (e.val ≠ 0xFF) && decide (t ≤ e.ticks)
  | t, e :: e2 :: es => decide (e.val ≠ 0xFF) && decide (e.ticks < t) && busy (t - e.ticks) (e2 :: es)

/-- The trace of dummy exchanges (sending `0xFF`) against the events `es`. -/
def polls (es : List Event) : List Action := es.map fun e => Action.xchg 0xFF e.val

/-- The state in which a `select()` that times out on the events `e0` (dummy clock), `es` (busy
polls) and `eD` (dummy clock of the deselect) leaves the driver. -/
def select_timeout (s : Drv) (e0 : Event) (es : List Event) (eD : Event) : Drv :=
  exch 0xFF eD (SPI_vDeselect (clock { exch 0xFF e0 (SPI_vSelect s) with Timer2 := 500 } es))

/-- The card is selected and ready for the packet of command `cmd` in state `s2` with the
events `i2` ahead: for CMD12 that is where `send_cmd` starts, for every other command it is
after the deselect and a `select()` that returned 1 (lines 216-219). -/
def Selected (cmd : Nat) (s : Drv) (inp : List Event) (s2 : Drv) (i2 : List Event) : Prop :=
  (cmd = CMD12 ∧ s2 = s ∧ i2 = inp) ∨
  (cmd ≠ CMD12 ∧ ∃ s1 i1, deselect s inp = some ((), s1, i1) ∧ select s1 i1 = some (true, s2, i2))

/-- The trace of the six bytes of a command packet against six events. -/
def packet_trace (cmd arg : Nat) (e1 e2 e3 e4 e5 e6 : Event) : List Action :=
  [Action.xchg (0x40 ||| cmd) e1.val, Action.xchg ((arg >>> 24) % 256) e2.val,
   Action.xchg ((arg >>> 16) % 256) e3.val, Action.xchg ((arg >>> 8) % 256) e4.val,
   Action.xchg (arg % 256) e5.val,
   Action.xchg (if cmd = CMD0 then 0x95 else if cmd = CMD8 then 0x87 else 0x01) e6.val]

/-- The driver state after the six bytes of a command packet. -/
def packet_state (cmd arg : Nat) (e1 e2 e3 e4 e5 e6 : Event) (s : Drv) : Drv :=
  exch (crc_byte cmd) e6 (exch (arg % 256) e5 (exch ((arg >>> 8) % 256) e4
    (exch ((arg >>> 16) % 256) e3 (exch ((arg >>> 24) % 256) e2 (exch (0x40 ||| cmd) e1 s)))))

/-- What the card sends while CMD55 is on the wire when it never gives a valid response: idle
bytes during deselect, select, the ready poll and the six packet bytes, then ten bytes
`0x80`. -/
def no_r1_stream : List Event := quiet (List.replicate 9 0xFF ++ List.replicate 10 0x80)

/-- A byte-addressed SD v2 card, initialised. -/
def sd_byte_card : Drv := { Drv.init with Stat := 0, CardType := CT_SD2 }

/-- The field `READ_BL_LEN` of a version 1 CSD register: `csd[5] & 15`. -/
def read_bl_len (csd : List Nat) : Nat := csd.getD 5 0 &&& 15

/-- The field `C_SIZE_MULT` of a version 1 CSD register, as the capacity formula writes it:
`((csd[9] & 3) << 1) | (csd[10] >> 7)`. -/
def c_size_mult (csd : List Nat) : Nat := ((csd.getD 9 0 &&& 3) <<< 1) ||| (csd.getD 10 0 >>> 7)

/-- The 12-bit field `C_SIZE` of a version 1 CSD register, as the capacity formula writes it:
`((csd[6] & 3) << 10) | (csd[7] << 2) | (csd[8] >> 6)`. -/
def c_size_v1 (csd : List Nat) : Nat :=
  ((csd.getD 6 0 &&& 3) <<< 10) ||| (csd.getD 7 0 <<< 2) ||| (csd.getD 8 0 >>> 6)

/-- A version 1 CSD register with `READ_BL_LEN = 0` and `C_SIZE_MULT = 0`. -/
def csd_short : List Nat := [0x00, 0x26, 0, 0x32, 0x5F, 0x50, 0x83, 0xC0, 0xFF, 0xFC, 0x7F, 0x80, 0x0A, 0x40, 0, 1]

/-- A version 1 CSD register with `READ_BL_LEN = 10`, `C_SIZE = 0xF03` and `C_SIZE_MULT = 7`
(a 2 GB card). -/
def csd_2g : List Nat := [0x00, 0x26, 0, 0x32, 0x5F, 0x5A, 0x83, 0xC0, 0xFF, 0xFF, 0xFF, 0x80, 0x0A, 0x40, 0, 1]

/-- An initialised SD v1 card (byte-addressed). -/
def sd1_card : Drv := { Drv.init with Stat := 0, CardType := CT_SD1 }

/-- State and stream after CMD9 in `GET_SECTOR_COUNT` on `csd_stream csd_2g`. -/
def csd_2g_cmd : Drv × List Event := after (send_cmd CMD9 0 sd1_card (csd_stream csd_2g))

/-- State and stream after the CSD block in `GET_SECTOR_COUNT` on `csd_stream csd_2g`. -/
def csd_2g_blk : Drv × List Event :=
  after_block (rcvr_datablock (List.replicate 16 0) 0 16 csd_2g_cmd.1 csd_2g_cmd.2)

/-- State and stream at the end of `GET_SECTOR_COUNT` on `csd_stream csd_2g`. -/
def csd_2g_end : Drv × List Event := after (deselect csd_2g_blk.1 csd_2g_blk.2)

/-- The six bytes of a command packet, lines 222-230. -/
def packet (cmd arg : Nat) : List Nat :=
  [0x40 ||| cmd, (arg >>> 24) % 256, (arg >>> 16) % 256, (arg >>> 8) % 256, arg % 256,
   crc_byte cmd]

/-- The `n` bytes the driver sends from `buff[off ..]`. -/
def slice (buff : List Nat) (off : Nat) : Nat → List Nat
  | 0 => []
  | n + 1 => (buff.getD off 0 % 256) :: slice buff (off + 1) n

/-- What the driver puts on the wire for an accepted plain command: three dummy clocks
(deselect, select, ready poll), the packet, and one response read. -/
def cmd_bytes (cmd arg : Nat) : List Nat := [0xFF, 0xFF, 0xFF] ++ packet cmd arg ++ [0xFF]

/-- The 512-byte blocks the driver sends from `buff[off ..]`, `n` of them. -/
def chunks (buff : List Nat) (off : Nat) : Nat → List (List Nat)
  | 0 => []
  | n + 1 => slice buff off 512 :: chunks buff (off + 512) n

/-- What the driver puts on the wire for accepted data blocks of a multi-block write: for each
block a ready poll, the token `0xFC`, the data, two CRC bytes and the response read. -/
def blocks_bytes : List (List Nat) → List Nat
  | [] => []
  | p :: ps => [0xFF, 0xFC] ++ p ++ [0xFF, 0xFF, 0xFF] ++ blocks_bytes ps

/-- What the card sends while `n` data blocks are written, see `write_block_events`. -/
def wblocks : Nat → List Event
  | 0 => []
  | n + 1 => write_block_events ++ wblocks n

/-- Modelled from the spec: what the simulated well-behaved card sends during `disk_write` of
`count` sectors: it answers 0 to every command (CMD55 and CMD23 first when the host declares
the block count, `pre`), is ready at the first poll, accepts every data block with the data
response `0xE5`, and is ready for the stop token of a multi-block write. -/
def card_write_stream (pre : Bool) (count : Nat) : List Event :=
  (if pre then answer 0 ++ answer 0 else []) ++ (answer 0 ++ (wblocks count ++
    ((if count = 1 then [] else quiet [0xFF, 0xFF]) ++ quiet [0xFF])))

/-- What the driver puts on the wire during `disk_write` against `card_write_stream`. -/
def write_bytes (pre : Bool) (addr : Nat) (buff : List Nat) (count : Nat) : List Nat :=
  (if pre then cmd_bytes CMD55 0 ++ cmd_bytes 23 count else []) ++
    (cmd_bytes (if count = 1 then CMD24 else CMD25) addr ++
      ((if count = 1 then [0xFF, 0xFE] ++ slice buff 0 512 ++ [0xFF, 0xFF, 0xFF]
        else blocks_bytes (chunks buff 0 count) ++ [0xFF, 0xFD]) ++ [0xFF]))

/-- Modelled from the spec: what the simulated card is doing with the bytes of the host:
waiting for a command byte, collecting the five bytes that follow it, waiting for the data
token of a write command, collecting the 512 data bytes, or skipping the CRC bytes. -/
inductive CardPhase where
  | scan
  | args (idx : Nat) (got : List Nat)
  | token (multi : Bool) (addr : Nat)
  | data (multi : Bool) (addr : Nat) (got : List Nat)
  | crc (multi : Bool) (addr : Nat) (left : Nat)

/-- Modelled from the spec: the simulated card, which `stores each written 512-byte block at
the address given by the write command`: its memory (address to block), what it is doing, and
the address of the last read command it received. -/
structure Card where
  mem : Nat → List Nat
  phase : CardPhase
  reading : Option Nat

/-- Modelled from the spec: the card before anything is written. -/
def Card.fresh : Card := { mem := fun _ => [], phase := CardPhase.scan, reading := none }

/-- Modelled from the spec: the simulated card takes one byte from the host. A byte `01xxxxxx`
starts a command; after its four argument bytes and the CRC byte, CMD24 and CMD25 make the card
wait for a data token (`0xFE` for CMD24, `0xFC` for CMD25), CMD17 and CMD18 set the read
address. The 512 bytes after a data token are stored at the address of the command, two CRC
bytes are skipped, and in a multi-block write the next block goes to the next address
(`stride` further) until the stop token `0xFD`. -/
def card_step (stride : Nat) (c : Card) (b : Nat) : Card :=
  match c.phase with
  | CardPhase.scan => if b / 64 = 1 then { c with phase := CardPhase.args (b % 64) [] } else c
  | CardPhase.args idx got =>
    if got.length < 4 then { c with phase := CardPhase.args idx (got ++ [b]) }
    else
      let arg := got.getD 0 0 * 2 ^ 24 + got.getD 1 0 * 2 ^ 16 + got.getD 2 0 * 2 ^ 8 + got.getD 3 0
      if idx = 24 then { c with phase := CardPhase.token false arg }
      else if idx = 25 then { c with phase := CardPhase.token true arg }
      else if idx = 17 ∨ idx = 18 then { c with phase := CardPhase.scan, reading := some arg }
      else { c with phase := CardPhase.scan }
  | CardPhase.token multi addr =>
    if b = (if multi then 0xFC else 0xFE) then { c with phase := CardPhase.data multi addr [] }
    else if multi = true ∧ b = 0xFD then { c with phase := CardPhase.scan }
    else if b / 64 = 1 then { c with phase := CardPhase.args (b % 64) [] }
    else c
  | CardPhase.data multi addr got =>
    if got.length + 1 < 512 then { c with phase := CardPhase.data multi addr (got ++ [b]) }
    else { c with mem := fun a => if a = addr then got ++ [b] else c.mem a,
                  phase := CardPhase.crc multi addr 2 }
  | CardPhase.crc multi addr left =>
    if 1 < left then { c with phase := CardPhase.crc multi addr (left - 1) }
    else { c with phase := if multi then CardPhase.token true (addr + stride) else CardPhase.scan }

/-- Modelled from the spec: the simulated card takes the bytes of the host in order. -/
def card_run (stride : Nat) (c : Card) (bytes : List Nat) : Card :=
  bytes.foldl (card_step stride) c

/-- What the card sends for the data blocks `ps` of a read: for each block the start token
`0xFE`, the data and two CRC bytes. -/
def block_events : List (List Nat) → List Event
  | [] => []
  | p :: ps => quiet (0xFE :: (p ++ [0, 0])) ++ block_events ps

/-- Modelled from the spec: what the simulated well-behaved card sends during `disk_read` of
`count` sectors, it `returns stored blocks on read`: it answers 0 to the read command, sends
the blocks stored at the address `addr` of the command and the following addresses, answers 0
to CMD12 after a stuff byte in a multi-block read, and idles during the final deselect. -/
def card_read_stream (mem : Nat → List Nat) (stride addr count : Nat) : List Event :=
  answer 0 ++ (block_events ((List.range count).map fun i => mem (addr + stride * i)) ++
    ((if count = 1 then [] else quiet (List.replicate 6 0xFF ++ [0xFF, 0])) ++ quiet [0xFF]))

/-- The memory of the card after the blocks `ps` are stored at the address `a` and the
following addresses. -/
def mem_after (stride : Nat) (m : Nat → List Nat) (a : Nat) : List (List Nat) → Nat → List Nat
  | [] => m
  | p :: ps => mem_after stride (fun x => if x = a then p else m x) (a + stride) ps

/-- The timer ticks that fall during the events `es`. -/
def ticks_sum (es : List Event) : Nat := (es.map Event.ticks).sum

/-- The driver state after sending the bytes `buff[off]`, `buff[off+1]`, ... one against each
event of the list. -/
def xmit_clock (buff : List Nat) (off : Nat) (s : Drv) : List Event → Drv
  | [] => s
  | e :: es => xmit_clock buff (off + 1) (exch (buff.getD off 0 % 256) e s) es

/-- The trace of sending the bytes `buff[off]`, `buff[off+1]`, ... one against each event of
the list. -/
def data_trace (buff : List Nat) (off : Nat) : List Event → List Action
  | [] => []
  | e :: es => Action.xchg (buff.getD off 0 % 256) e.val :: data_trace buff (off + 1) es

/-! ## The bus trace only grows -/

/-- The trace of `t` extends the trace of `s`. -/
def Ext (s t : Drv) : Prop := ∃ l, t.log = s.log ++ l

theorem Ext.refl (s : Drv) : Ext s s := ⟨[], by simp⟩

theorem Ext.trans {s t u : Drv} (h1 : Ext s t) (h2 : Ext t u) : Ext s u := by
  obtain ⟨l1, e1⟩ := h1
  obtain ⟨l2, e2⟩ := h2
  exact ⟨l1 ++ l2, by rw [e2, e1, List.append_assoc]⟩

theorem disk_timerproc_log (cd wp : Bool) (s : Drv) : (disk_timerproc cd wp s).log = s.log := rfl

theorem disk_timerproc_CardType (cd wp : Bool) (s : Drv) :
    (disk_timerproc cd wp s).CardType = s.CardType := rfl

theorem ticks_log (n : Nat) (s : Drv) : (ticks n s).log = s.log := by
  induction n generalizing s with
  | zero => rfl
  | succ n ih => simp [ticks, ih, disk_timerproc_log]

theorem ticks_CardType (n : Nat) (s : Drv) : (ticks n s).CardType = s.CardType := by
  induction n generalizing s with
  | zero => rfl
  | succ n ih => simp [ticks, ih, disk_timerproc_CardType]

theorem exch_log (out : Nat) (e : Event) (s : Drv) :
    (exch out e s).log = s.log ++ [Action.xchg out (e.byte % 256)] := by
  simp [exch, ticks_log]

theorem exch_CardType (out : Nat) (e : Event) (s : Drv) :
    (exch out e s).CardType = s.CardType := by
  simp [exch, ticks_CardType]

theorem exch_ext (out : Nat) (e : Event) (s : Drv) : Ext s (exch out e s) :=
  ⟨_, exch_log out e s⟩

theorem xchg_some {out : Nat} {s s1 : Drv} {inp rest : List Event} {b : Nat}
    (h : SPI_u8ExchangeByte out s inp = some (b, s1, rest)) :
    ∃ e, inp = e :: rest ∧ b = e.byte % 256 ∧ s1 = exch out e s := by
  cases inp with
  | nil => simp [SPI_u8ExchangeByte] at h
  | cons e r =>
    simp only [SPI_u8ExchangeByte, Option.some.injEq, Prod.mk.injEq] at h
    obtain ⟨h1, h2, h3⟩ := h
    exact ⟨e, by rw [h3], h1.symm, h2.symm⟩

theorem xchg_ext {out : Nat} {s s1 : Drv} {inp rest : List Event} {b : Nat}
    (h : SPI_u8ExchangeByte out s inp = some (b, s1, rest)) : Ext s s1 := by
  obtain ⟨e, -, -, rfl⟩ := xchg_some h
  exact exch_ext _ _ _

theorem deselect_some {s s1 : Drv} {inp rest : List Event} {u : Unit}
    (h : deselect s inp = some (u, s1, rest)) :
    ∃ e, inp = e :: rest ∧ s1 = exch 0xFF e (SPI_vDeselect s) := by
  unfold deselect at h
  split at h
  · simp at h
  · rename_i b s2 i2 hx
    simp only [Option.some.injEq, Prod.mk.injEq] at h
    obtain ⟨-, rfl, rfl⟩ := h
    obtain ⟨e, h1, -, h3⟩ := xchg_some hx
    exact ⟨e, h1, h3⟩

theorem deselect_log {s s1 : Drv} {inp rest : List Event} {u : Unit}
    (h : deselect s inp = some (u, s1, rest)) :
    ∃ b, s1.log = s.log ++ [Action.desel, Action.xchg 0xFF b] := by
  obtain ⟨e, -, rfl⟩ := deselect_some h
  exact ⟨e.byte % 256, by simp [exch_log, SPI_vDeselect]⟩

theorem deselect_ext {s s1 : Drv} {inp rest : List Event} {u : Unit}
    (h : deselect s inp = some (u, s1, rest)) : Ext s s1 := by
  obtain ⟨b, hb⟩ := deselect_log h
  exact ⟨_, hb⟩

theorem wait_ready_loop_ext : ∀ (inp : List Event) (s s1 : Drv) (d : Nat) (rest : List Event),
    wait_ready_loop s inp = some (d, s1, rest) → Ext s s1
  | [], _, _, _, _, h => by simp [wait_ready_loop] at h
  | e :: r, s, s1, d, rest, h => by
    simp only [wait_ready_loop] at h
    split at h
    · exact (exch_ext _ e s).trans (wait_ready_loop_ext r _ _ _ _ h)
    · simp only [Option.some.injEq, Prod.mk.injEq] at h
      obtain ⟨-, rfl, -⟩ := h
      exact exch_ext _ _ _

theorem wait_ready_ext {wt : Nat} {s s1 : Drv} {inp rest : List Event} {b : Bool}
    (h : wait_ready wt s inp = some (b, s1, rest)) : Ext s s1 := by
  unfold wait_ready at h
  split at h
  · simp at h
  · rename_i d s2 i2 hx
    simp only [Option.some.injEq, Prod.mk.injEq] at h
    obtain ⟨-, rfl, -⟩ := h
    obtain ⟨l, hl⟩ := wait_ready_loop_ext _ _ _ _ _ hx
    exact ⟨l, hl⟩



theorem send_cmd_resp_log : ∀ (n : Nat) (s s1 : Drv) (inp rest : List Event) (r : Nat),
    send_cmd_resp n s inp = some (r, s1, rest) →
    ∃ l, s1.log = s.log ++ l ∧ Dummy l ∧ 1 ≤ l.length ∧ l.length ≤ n
  | 0, _, _, _, _, _, h => by simp [send_cmd_resp] at h
  | n + 1, s, s1, inp, rest, r, h => by
    cases inp with
    | nil => simp [send_cmd_resp, SPI_u8ExchangeByte] at h
    | cons e inp =>
      simp only [send_cmd_resp, SPI_u8ExchangeByte] at h
      split at h
      · obtain ⟨l, hl, hd, h1, h2⟩ := send_cmd_resp_log n _ _ _ _ _ h
        refine ⟨Action.xchg 0xFF (e.byte % 256) :: l, ?_, ?_, ?_, ?_⟩
        · rw [hl, exch_log]; simp
        · intro a ha
          rcases List.mem_cons.mp ha with rfl | ha
          · exact ⟨_, rfl⟩
          · exact hd a ha
        · simp
        · simp; omega
      · simp only [Option.some.injEq, Prod.mk.injEq] at h
        obtain ⟨-, rfl, -⟩ := h
        refine ⟨[Action.xchg 0xFF (e.byte % 256)], exch_log _ _ _, ?_, by simp, by simp⟩
        intro a ha
        exact ⟨_, List.mem_singleton.mp ha⟩


theorem send_cmd_packet_log {cmd arg : Nat} {s s1 : Drv} {inp rest : List Event} {r : Nat}
    (h : send_cmd_packet cmd arg s inp = some (r, s1, rest)) :
    ∃ (b1 b2 b3 b4 b5 b6 : Nat) (stuff polls : List Action),
      s1.log = s.log ++ [Action.xchg (0x40 ||| cmd) b1, Action.xchg ((arg >>> 24) % 256) b2,
        Action.xchg ((arg >>> 16) % 256) b3, Action.xchg ((arg >>> 8) % 256) b4,
        Action.xchg (arg % 256) b5, Action.xchg (crc_byte cmd) b6] ++ stuff ++ polls ∧
      (cmd = CMD12 → ∃ b, stuff = [Action.xchg 0xFF b]) ∧ (cmd ≠ CMD12 → stuff = []) ∧
      Dummy polls ∧ 1 ≤ polls.length ∧ polls.length ≤ 10 := by
  rcases inp with _ | ⟨e1, _ | ⟨e2, _ | ⟨e3, _ | ⟨e4, _ | ⟨e5, _ | ⟨e6, inp⟩⟩⟩⟩⟩⟩ <;>
    simp only [send_cmd_packet, SPI_u8ExchangeByte, reduceCtorEq] at h
  have hcrc : (if cmd = CMD8 then 0x87 else if cmd = CMD0 then 0x95 else 0x01) = crc_byte cmd := rfl
  rw [hcrc] at h
  by_cases hc : cmd = CMD12
  · rw [if_pos hc] at h
    cases inp with
    | nil => simp at h
    | cons e7 inp =>
      simp only at h
      obtain ⟨l, hl, hd, h1, h2⟩ := send_cmd_resp_log _ _ _ _ _ _ h
      refine ⟨e1.byte % 256, e2.byte % 256, e3.byte % 256, e4.byte % 256, e5.byte % 256,
        e6.byte % 256, [Action.xchg 0xFF (e7.byte % 256)], l, ?_, fun _ => ⟨_, rfl⟩,
        fun h => absurd hc h, hd, h1, h2⟩
      rw [hl]
      simp [exch_log]
  · rw [if_neg hc] at h
    obtain ⟨l, hl, hd, h1, h2⟩ := send_cmd_resp_log _ _ _ _ _ _ h
    refine ⟨e1.byte % 256, e2.byte % 256, e3.byte % 256, e4.byte % 256, e5.byte % 256,
      e6.byte % 256, [], l, ?_, fun h => absurd h hc, fun _ => rfl, hd, h1, h2⟩
    rw [hl]
    simp [exch_log]


theorem select_ext {s s1 : Drv} {inp rest : List Event} {b : Bool}
    (h : select s inp = some (b, s1, rest)) : Ext s s1 := by
  unfold select at h
  split at h
  · simp at h
  · rename_i x s2 i2 hx
    have e1 : Ext s s2 := Ext.trans ⟨[Action.sel], rfl⟩ (xchg_ext hx)
    split at h
    · simp at h
    · rename_i s3 i3 hw
      simp only [Option.some.injEq, Prod.mk.injEq] at h
      obtain ⟨-, rfl, -⟩ := h
      exact e1.trans (wait_ready_ext hw)
    · rename_i s3 i3 hw
      split at h
      · simp at h
      · rename_i u s4 i4 hd
        simp only [Option.some.injEq, Prod.mk.injEq] at h
        obtain ⟨-, rfl, -⟩ := h
        exact (e1.trans (wait_ready_ext hw)).trans (deselect_ext hd)

theorem send_cmd_packet_ext {cmd arg : Nat} {s s1 : Drv} {inp rest : List Event} {r : Nat}
    (h : send_cmd_packet cmd arg s inp = some (r, s1, rest)) : Ext s s1 := by
  obtain ⟨b1, b2, b3, b4, b5, b6, stuff, polls, hl, -⟩ := send_cmd_packet_log h
  exact ⟨_, by rw [hl, List.append_assoc, List.append_assoc]⟩

theorem send_cmd_body_first {cmd arg : Nat} {s s1 : Drv} {inp rest : List Event} {r : Nat}
    (hc : cmd ≠ CMD12) (h : send_cmd_body cmd arg s inp = some (r, s1, rest)) :
    ∃ l, s1.log = s.log ++ Action.desel :: l := by
  unfold send_cmd_body at h
  rw [if_pos hc] at h
  split at h
  · simp at h
  · rename_i u s2 i2 hd
    obtain ⟨b, hb⟩ := deselect_log hd
    have key : ∀ t : Drv, Ext s2 t → ∃ l, t.log = s.log ++ Action.desel :: l := by
      rintro t ⟨l, hl⟩
      exact ⟨Action.xchg 0xFF b :: l, by rw [hl, hb]; simp⟩
    split at h
    · simp at h
    · rename_i s3 i3 hs
      simp only [Option.some.injEq, Prod.mk.injEq] at h
      obtain ⟨-, rfl, -⟩ := h
      exact key _ (select_ext hs)
    · rename_i s3 i3 hs
      exact key _ ((select_ext hs).trans (send_cmd_packet_ext h))

theorem send_cmd_body_ext {cmd arg : Nat} {s s1 : Drv} {inp rest : List Event} {r : Nat}
    (h : send_cmd_body cmd arg s inp = some (r, s1, rest)) : Ext s s1 := by
  by_cases hc : cmd = CMD12
  · unfold send_cmd_body at h
    rw [if_neg (not_not.mpr hc)] at h
    exact send_cmd_packet_ext h
  · obtain ⟨l, hl⟩ := send_cmd_body_first hc h
    exact ⟨_, hl⟩

theorem send_cmd_ext {cmd arg : Nat} {s s1 : Drv} {inp rest : List Event} {r : Nat}
    (h : send_cmd cmd arg s inp = some (r, s1, rest)) : Ext s s1 := by
  unfold send_cmd at h
  split at h
  · split at h
    · simp at h
    · rename_i res s2 i2 h55
      split at h
      · simp only [Option.some.injEq, Prod.mk.injEq] at h
        obtain ⟨-, rfl, -⟩ := h
        exact send_cmd_body_ext h55
      · exact (send_cmd_body_ext h55).trans (send_cmd_body_ext h)
  · exact send_cmd_body_ext h

/-- A plain command other than CMD12 starts by deselecting the card. -/
theorem send_cmd_first {cmd arg : Nat} {s s1 : Drv} {inp rest : List Event} {r : Nat}
    (h7 : cmd &&& 0x80 = 0) (hc : cmd ≠ CMD12)
    (h : send_cmd cmd arg s inp = some (r, s1, rest)) :
    ∃ l, s1.log = s.log ++ Action.desel :: l := by
  unfold send_cmd at h
  rw [if_neg (not_not.mpr h7)] at h
  exact send_cmd_body_first hc h

theorem rcvr_token_loop_ext : ∀ (inp : List Event) (s s1 : Drv) (d : Nat) (rest : List Event),
    rcvr_token_loop s inp = some (d, s1, rest) → Ext s s1
  | [], _, _, _, _, h => by simp [rcvr_token_loop] at h
  | e :: r, s, s1, d, rest, h => by
    simp only [rcvr_token_loop] at h
    split at h
    · exact (exch_ext _ e s).trans (rcvr_token_loop_ext r _ _ _ _ h)
    · simp only [Option.some.injEq, Prod.mk.injEq] at h
      obtain ⟨-, rfl, -⟩ := h
      exact exch_ext _ _ _

theorem rcvr_spi_multi_ext : ∀ (inp : List Event) (buff : List Nat) (off btr : Nat) (s s1 : Drv)
    (b1 : List Nat) (rest : List Event),
    rcvr_spi_multi buff off btr s inp = some (b1, s1, rest) → Ext s s1
  | [], _, _, _, _, _, _, _, h => by simp [rcvr_spi_multi] at h
  | [_], _, _, _, _, _, _, _, h => by simp [rcvr_spi_multi] at h
  | e1 :: e2 :: r, buff, off, btr, s, s1, b1, rest, h => by
    simp only [rcvr_spi_multi] at h
    have e : Ext s (exch 0xFF e2 (exch 0xFF e1 s)) := (exch_ext _ _ _).trans (exch_ext _ _ _)
    split at h
    · exact e.trans (rcvr_spi_multi_ext r _ _ _ _ _ _ _ h)
    · simp only [Option.some.injEq, Prod.mk.injEq] at h
      obtain ⟨-, rfl, -⟩ := h
      exact e

theorem rcvr_datablock_ext {buff b1 : List Nat} {off btr : Nat} {s s1 : Drv}
    {inp rest : List Event} {ok : Bool}
    (h : rcvr_datablock buff off btr s inp = some (ok, b1, s1, rest)) : Ext s s1 := by
  unfold rcvr_datablock at h
  split at h
  · simp at h
  · rename_i tok s2 i2 ht
    have e1 : Ext s s2 := by
      obtain ⟨l, hl⟩ := rcvr_token_loop_ext _ _ _ _ _ ht
      exact ⟨l, hl⟩
    split at h
    · simp only [Option.some.injEq, Prod.mk.injEq] at h
      obtain ⟨-, -, rfl, -⟩ := h
      exact e1
    · split at h
      · simp at h
      · rename_i b2 s3 i3 hm
        split at h
        · simp at h
        · rename_i x s4 i4 hx
          split at h
          · simp at h
          · rename_i y s5 i5 hy
            simp only [Option.some.injEq, Prod.mk.injEq] at h
            obtain ⟨-, -, rfl, -⟩ := h
            exact ((e1.trans (rcvr_spi_multi_ext _ _ _ _ _ _ _ _ hm)).trans (xchg_ext hx)).trans
              (xchg_ext hy)

/-- A failed block transfer stores nothing. -/
theorem rcvr_datablock_fail_buff {buff b1 : List Nat} {off btr : Nat} {s s1 : Drv}
    {inp rest : List Event}
    (h : rcvr_datablock buff off btr s inp = some (false, b1, s1, rest)) : b1 = buff := by
  unfold rcvr_datablock at h
  split at h
  · simp at h
  · split at h
    · simp only [Option.some.injEq, Prod.mk.injEq] at h
      exact h.2.1.symm
    · split at h
      · simp at h
      · split at h
        · simp at h
        · split at h <;> simp at h

theorem read_multi_ext : ∀ (count : Nat) (buff : List Nat) (off : Nat) (s : Drv)
    (inp : List Event) (c1 : Nat) (b1 : List Nat) (s1 : Drv) (rest : List Event),
    read_multi count buff off s inp = some (c1, b1, s1, rest) → Ext s s1
  | 0, _, _, s, _, _, _, _, _, h => by
    simp only [read_multi, Option.some.injEq, Prod.mk.injEq] at h
    obtain ⟨-, -, rfl, -⟩ := h
    exact Ext.refl s
  | count + 1, buff, off, s, inp, c1, b1, s1, rest, h => by
    simp only [read_multi] at h
    split at h
    · simp at h
    · rename_i b2 s2 i2 hr
      simp only [Option.some.injEq, Prod.mk.injEq] at h
      obtain ⟨-, -, rfl, -⟩ := h
      exact rcvr_datablock_ext hr
    · rename_i b2 s2 i2 hr
      exact (rcvr_datablock_ext hr).trans (read_multi_ext count _ _ _ _ _ _ _ _ h)


theorem deselect_CardType {s s1 : Drv} {inp rest : List Event} {u : Unit}
    (h : deselect s inp = some (u, s1, rest)) : s1.CardType = s.CardType := by
  obtain ⟨e, -, rfl⟩ := deselect_some h
  simp [exch_CardType, SPI_vDeselect]

theorem and_254_and_1 (x : Nat) : (x % 256 &&& (0xFF - STA_NOINIT)) &&& STA_NOINIT = 0 := by
  rw [Nat.and_assoc]
  simp

theorem sdv2_stream_initializes :
    ( disk_initialize 0 Drv.init sdv2_stream).map (fun x => (x.1, x.2.1.CardType, x.2.1.Stat, x.2.2))
      = some (0, CT_SD2 ||| CT_BLOCK, 0, []) := by
  decide

theorem reject_stream_fails :
    ( disk_initialize 0 Drv.init reject_stream).map (fun x => (x.1, x.2.1.CardType, x.2.1.Stat, x.2.2))
      = some (STA_NOINIT, 0, STA_NOINIT, []) := by
  decide

theorem disk_read_result {buff b1 : List Nat} {sector count : Nat} {s s1 : Drv}
    {inp rest : List Event} {r : DRESULT} (hcount : count ≠ 0) (hinit : s.Stat &&& STA_NOINIT = 0)
    (h : disk_read 0 buff sector count s inp = some (r, b1, s1, rest)) :
    (r = RES_OK ∨ r = RES_ERROR) ∧ ∃ l, s1.log = s.log ++ Action.desel :: l := by
  unfold disk_read at h
  simp only [ne_eq, not_true_eq_false, hcount, or_self, if_false, hinit] at h
  split at h
  · simp at h
  · rename_i cnt b2 s2 i2 hr
    split at h
    · simp at h
    · rename_i u s3 i3 hd
      simp only [Option.some.injEq, Prod.mk.injEq] at h
      obtain ⟨h1, -, rfl, -⟩ := h
      constructor
      · by_cases hc : cnt = 0
        · left; rw [← h1]; simp [hc]
        · right; rw [← h1]; simp [hc]
      · have key : ∀ (cmd arg : Nat) (t : Drv) (i : List Event) (res : Nat), cmd &&& 0x80 = 0 →
            cmd ≠ CMD12 → send_cmd cmd arg s inp = some (res, t, i) → Ext t s2 →
            ∃ l, s3.log = s.log ++ Action.desel :: l := by
          intro cmd arg t i res h7 hc hs he
          obtain ⟨l1, hl1⟩ := send_cmd_first h7 hc hs
          obtain ⟨l2, hl2⟩ := he.trans (deselect_ext hd)
          exact ⟨l1 ++ l2, by rw [hl2, hl1]; simp⟩
        split at hr
        · split at hr
          · simp at hr
          · rename_i res t i hs
            split at hr
            · split at hr
              · simp at hr
              · rename_i b4 s4 i4 hb
                simp only [Option.some.injEq, Prod.mk.injEq] at hr
                obtain ⟨-, -, rfl, -⟩ := hr
                exact key _ _ _ _ _ (by decide) (by decide) hs (rcvr_datablock_ext hb)
              · rename_i b4 s4 i4 hb
                simp only [Option.some.injEq, Prod.mk.injEq] at hr
                obtain ⟨-, -, rfl, -⟩ := hr
                exact key _ _ _ _ _ (by decide) (by decide) hs (rcvr_datablock_ext hb)
            · simp only [Option.some.injEq, Prod.mk.injEq] at hr
              obtain ⟨-, -, rfl, -⟩ := hr
              exact key _ _ _ _ _ (by decide) (by decide) hs (Ext.refl _)
        · split at hr
          · simp at hr
          · rename_i res t i hs
            split at hr
            · split at hr
              · simp at hr
              · rename_i c4 b4 s4 i4 hm
                split at hr
                · simp at hr
                · rename_i r5 s5 i5 h12
                  simp only [Option.some.injEq, Prod.mk.injEq] at hr
                  obtain ⟨-, -, rfl, -⟩ := hr
                  exact key _ _ _ _ _ (by decide) (by decide) hs
                    ((read_multi_ext _ _ _ _ _ _ _ _ _ hm).trans (send_cmd_ext h12))
            · simp only [Option.some.injEq, Prod.mk.injEq] at hr
              obtain ⟨-, -, rfl, -⟩ := hr
              exact key _ _ _ _ _ (by decide) (by decide) hs (Ext.refl _)

set_option maxRecDepth 100000 in
theorem single_read_ok :
    (disk_read 0 (List.replicate 512 0) 5 1 { sd_card with Stat := STA_PROTECT }
      (single_read_stream 7)).map (fun x => (x.1, x.2.2.2))
      = some (RES_OK, []) := by
  decide

theorem store_length (buff : List Nat) (off : Nat) (bs : List Nat) :
    (store buff off bs).length = buff.length := by
  induction bs generalizing buff off with
  | nil => rfl
  | cons b bs ih => simp [store, ih]

theorem store_append (pre mid post bs : List Nat) (h : mid.length = bs.length) :
    store (pre ++ mid ++ post) pre.length bs = pre ++ bs ++ post := by
  induction bs generalizing pre mid with
  | nil =>
    have : mid = [] := List.length_eq_zero.mp h
    simp [store, this]
  | cons b bs ih =>
    rcases mid with _ | ⟨x, mid⟩
    · simp at h
    · simp only [List.length_cons, Nat.add_right_cancel_iff] at h
      have hs : (pre ++ x :: mid ++ post).set pre.length b = (pre ++ [b]) ++ mid ++ post := by
        rw [List.append_assoc, List.set_append_right _ _ (Nat.le_refl _)]
        simp
      rw [store, hs]
      have := ih (pre ++ [b]) mid h
      simp only [List.length_append, List.length_singleton] at this
      rw [this]
      simp

theorem store_eq (buff : List Nat) (off : Nat) (bs : List Nat) (h : off + bs.length ≤ buff.length) :
    store buff off bs = buff.take off ++ bs ++ buff.drop (off + bs.length) := by
  have hb : buff = buff.take off ++ (buff.drop off).take bs.length ++ buff.drop (off + bs.length) := by
    rw [List.append_assoc, ← List.drop_drop, List.take_append_drop, List.take_append_drop]
  have hl : (buff.take off).length = off := by rw [List.length_take]; omega
  have := store_append (buff.take off) ((buff.drop off).take bs.length)
    (buff.drop (off + bs.length)) bs (by rw [List.length_take, List.length_drop]; omega)
  rw [hl, ← hb] at this
  exact this

theorem rcvr_spi_multi_eq : ∀ (m : Nat) (buff : List Nat) (off : Nat) (s : Drv)
    (inp : List Event), 2 * (m + 1) < 4294967296 →
    rcvr_spi_multi buff off (2 * (m + 1)) s inp =
      if 2 * (m + 1) ≤ inp.length then
        some (store buff off ((inp.take (2 * (m + 1))).map Event.val),
          clock s (inp.take (2 * (m + 1))), inp.drop (2 * (m + 1)))
      else none := by
  intro m
  induction m with
  | zero =>
    intro buff off s inp _
    rcases inp with _ | ⟨e1, _ | ⟨e2, r⟩⟩
    · simp [rcvr_spi_multi]
    · simp [rcvr_spi_multi]
    · simp [rcvr_spi_multi, store, clock, Event.val]
  | succ m ih =>
    intro buff off s inp hm
    rcases inp with _ | ⟨e1, _ | ⟨e2, r⟩⟩
    · simp [rcvr_spi_multi]
    · have : ¬ 2 * (m + 1 + 1) ≤ [e1].length := by simp only [List.length_singleton]; omega
      rw [if_neg this]
      simp [rcvr_spi_multi]
    · have hb : (2 * (m + 1 + 1) + 4294967296 - 2) % 4294967296 = 2 * (m + 1) := by omega
      have hne : 2 * (m + 1) ≠ 0 := by omega
      rw [rcvr_spi_multi]
      simp only [hb, ne_eq, hne, not_false_eq_true, if_true]
      rw [ih _ _ _ _ (by omega)]
      have e : 2 * (m + 1 + 1) = 2 * (m + 1) + 1 + 1 := by omega
      by_cases hl : 2 * (m + 1) ≤ r.length
      · have hl2 : 2 * (m + 1 + 1) ≤ (e1 :: e2 :: r).length := by simp only [List.length_cons]; omega
        rw [if_pos hl, if_pos hl2, e]
        simp [store, clock, Event.val]
      · have hl2 : ¬ 2 * (m + 1 + 1) ≤ (e1 :: e2 :: r).length := by
          simp only [List.length_cons]; omega
        rw [if_neg hl, if_neg hl2]

theorem rcvr_token_loop_some : ∀ (inp : List Event) (s s1 : Drv) (tok : Nat) (rest : List Event),
    rcvr_token_loop s inp = some (tok, s1, rest) →
    ∃ idle e, inp = idle ++ e :: rest ∧ (∀ x ∈ idle, x.val = 0xFF) ∧ tok = e.val ∧
      s1 = clock s (idle ++ [e]) ∧ (tok ≠ 0xFF ∨ s1.Timer1 = 0)
  | [], _, _, _, _, h => by simp [rcvr_token_loop] at h
  | e :: r, s, s1, tok, rest, h => by
    simp only [rcvr_token_loop] at h
    split at h
    · rename_i hc
      obtain ⟨idle, e', h1, h2, h3, h4, h5⟩ := rcvr_token_loop_some r _ _ _ _ h
      refine ⟨e :: idle, e', by rw [h1]; rfl, ?_, h3, ?_, h5⟩
      · intro x hx
        rcases List.mem_cons.mp hx with rfl | hx
        · exact hc.1
        · exact h2 x hx
      · rw [h4]; simp [clock]
    · rename_i hc
      simp only [Option.some.injEq, Prod.mk.injEq] at h
      obtain ⟨rfl, rfl, rfl⟩ := h
      refine ⟨[], e, rfl, by simp, rfl, by simp [clock], ?_⟩
      by_cases ht : e.byte % 256 = 255
      · right
        by_contra hne
        exact hc ⟨ht, hne⟩
      · left; exact ht

/-- What a successful block transfer of `2 * (m + 1)` bytes consumed and stored: idle bytes, the
start token `0xFE`, the data, two CRC bytes. -/
theorem rcvr_datablock_ok {buff b1 : List Nat} {off m : Nat} {s s1 : Drv} {inp rest : List Event}
    (hm : 2 * (m + 1) < 4294967296)
    (h : rcvr_datablock buff off (2 * (m + 1)) s inp = some (true, b1, s1, rest)) :
    ∃ idle tok data crc, inp = idle ++ tok :: (data ++ crc ++ rest) ∧
      (∀ x ∈ idle, x.val = 0xFF) ∧ tok.val = 0xFE ∧ data.length = 2 * (m + 1) ∧ crc.length = 2 ∧
      b1 = store buff off (data.map Event.val) := by
  unfold rcvr_datablock at h
  split at h
  · simp at h
  · rename_i tok s2 i2 ht
    obtain ⟨idle, e, h1, h2, h3, -, -⟩ := rcvr_token_loop_some _ _ _ _ _ ht
    split at h
    · simp at h
    · rename_i htok
      rw [rcvr_spi_multi_eq m _ _ _ _ hm] at h
      by_cases hl : 2 * (m + 1) ≤ i2.length
      · rw [if_pos hl] at h
        simp only at h
        split at h
        · simp at h
        · rename_i x s4 i4 hx
          split at h
          · simp at h
          · rename_i y s5 i5 hy
            simp only [Option.some.injEq, Prod.mk.injEq, true_and] at h
            obtain ⟨rfl, -, rfl⟩ := h
            obtain ⟨c1, hc1, -, -⟩ := xchg_some hx
            obtain ⟨c2, hc2, -, -⟩ := xchg_some hy
            refine ⟨idle, e, i2.take (2 * (m + 1)), [c1, c2], ?_, h2, ?_, ?_, rfl, rfl⟩
            · rw [h1]
              congr 2
              rw [List.append_assoc]
              have := List.take_append_drop (2 * (m + 1)) i2
              rw [hc1, hc2] at this
              simpa using this.symm
            · rw [← h3]; exact not_not.mp htok
            · simp [List.length_take, hl]
      · rw [if_neg hl] at h
        simp at h

theorem csize_v2_eq (a b c : Nat) (hb : b < 256) (hc : c < 256) :
    ((a &&& 63) <<< 16) ||| (b <<< 8) ||| c = c + (b <<< 8) + ((a &&& 63) <<< 16) ∧
    ((a &&& 63) <<< 16) ||| (b <<< 8) ||| c ≤ 0x3FFFFF := by
  have ha : a &&& 63 ≤ 63 := Nat.and_le_right
  simp only [Nat.shiftLeft_eq]
  have h1 : 2 ^ 16 * (a &&& 63) + b * 2 ^ 8 = 2 ^ 16 * (a &&& 63) ||| b * 2 ^ 8 :=
    Nat.mul_add_lt_is_or (by omega) _
  have h2 : 2 ^ 8 * (2 ^ 8 * (a &&& 63) + b) + c = 2 ^ 8 * (2 ^ 8 * (a &&& 63) + b) ||| c :=
    Nat.mul_add_lt_is_or (by omega) _
  have e1 : (a &&& 63) * 2 ^ 16 = 2 ^ 16 * (a &&& 63) := Nat.mul_comm _ _
  have e2 : 2 ^ 16 * (a &&& 63) + b * 2 ^ 8 = 2 ^ 8 * (2 ^ 8 * (a &&& 63) + b) := by ring
  rw [e1, ← h1, e2, ← h2]
  constructor
  · ring
  · omega

theorem rcvr_csd_bytes {csd : List Nat} {s s1 : Drv} {inp rest : List Event}
    (h : rcvr_datablock (List.replicate 16 0) 0 16 s inp = some (true, csd, s1, rest)) (i : Nat) :
    csd.getD i 0 < 256 := by
  obtain ⟨idle, tok, data, crc, -, -, -, hlen, -, hb⟩ :=
    rcvr_datablock_ok (m := 7) (by decide) h
  have hs := store_eq (List.replicate 16 0) 0 (data.map Event.val) (by simp [hlen])
  rw [← hb] at hs
  simp only [List.take_zero, List.nil_append, List.length_map, hlen, Nat.zero_add,
    List.drop_replicate, Nat.sub_self, List.replicate_zero, List.append_nil] at hs
  rw [hs, List.getD_eq_getElem?_getD, List.getElem?_map]
  cases data[i]? with
  | none => simp
  | some e => simp only [Option.map_some', Option.getD_some, Event.val]; omega

theorem after_spec {α : Type} (x : Option (α × Drv × List Event)) (a : α)
    (h : x.map (fun r => r.1) = some a) : x = some (a, (after x).1, (after x).2) := by
  cases x with
  | none => simp at h
  | some r =>
    obtain ⟨a1, s, i⟩ := r
    simp only [Option.map_some', Option.some.injEq] at h
    subst h
    rfl

theorem after_data_spec {α : Type} (x : Option (α × List Nat × Drv × List Event)) (a : α)
    (h : x.map (fun r => r.1) = some a) :
    x = some (a, (after_data x).1, (after_data x).2.1, (after_data x).2.2) := by
  cases x with
  | none => simp at h
  | some r =>
    obtain ⟨a1, b, s, i⟩ := r
    simp only [Option.map_some', Option.some.injEq] at h
    subst h
    rfl

theorem sent_append (l1 l2 : List Action) : sent (l1 ++ l2) = sent l1 ++ sent l2 := by
  simp [sent, List.filterMap_append]

theorem chip_selects_append (l1 l2 : List Action) :
    chip_selects (l1 ++ l2) = chip_selects l1 ++ chip_selects l2 := by
  simp [chip_selects, List.filter_append]

theorem Dummy.sent {l : List Action} (h : Dummy l) : sent l = List.replicate l.length 0xFF := by
  induction l with
  | nil => rfl
  | cons a l ih =>
    obtain ⟨b, rfl⟩ := h a (List.mem_cons_self _ _)
    have := ih (fun x hx => h x (List.mem_cons_of_mem _ hx))
    simp only [PortFatfs.sent, List.filterMap_cons, List.length_cons, List.replicate_succ,
      List.cons.injEq, true_and] at this ⊢
    exact this

theorem Dummy.chip_selects {l : List Action} (h : Dummy l) : chip_selects l = [] := by
  induction l with
  | nil => rfl
  | cons a l ih =>
    obtain ⟨b, rfl⟩ := h a (List.mem_cons_self _ _)
    have := ih (fun x hx => h x (List.mem_cons_of_mem _ hx))
    simpa [PortFatfs.chip_selects] using this

theorem read_multi_add : ∀ (k m : Nat) (buff : List Nat) (off : Nat) (s : Drv) (inp : List Event)
    (bK : List Nat) (sK : Drv) (iK : List Event),
    read_multi k buff off s inp = some (0, bK, sK, iK) →
    read_multi (k + m) buff off s inp = read_multi m bK (off + 512 * k) sK iK
  | 0, m, buff, off, s, inp, bK, sK, iK, h => by
    simp only [read_multi, Option.some.injEq, Prod.mk.injEq, true_and] at h
    obtain ⟨rfl, rfl, rfl⟩ := h
    simp
  | k + 1, m, buff, off, s, inp, bK, sK, iK, h => by
    have e : k + 1 + m = (k + m) + 1 := by omega
    rw [e]
    simp only [read_multi] at h ⊢
    split at h
    · simp at h
    · simp at h
    · rename_i b2 s2 i2 hr
      rw [read_multi_add k m _ _ _ _ _ _ _ h]
      congr 1
      omega

/-- The trace of the stop command: the CMD12 packet, the stuff byte, and up to ten polls. -/
theorem send_cmd_stop_log {s s1 : Drv} {inp rest : List Event} {r : Nat}
    (h : send_cmd CMD12 0 s inp = some (r, s1, rest)) :
    ∃ tr m, s1.log = s.log ++ tr ∧ sent tr = [0x4C, 0, 0, 0, 0, 0x01] ++ List.replicate m 0xFF ∧
      2 ≤ m ∧ m ≤ 11 ∧ chip_selects tr = [] := by
  have hb : send_cmd_packet CMD12 0 s inp = some (r, s1, rest) := by
    simpa [send_cmd, send_cmd_body] using h
  obtain ⟨b1, b2, b3, b4, b5, b6, stuff, polls, hl, hst, -, hd, h1, h2⟩ := send_cmd_packet_log hb
  obtain ⟨b, rfl⟩ := hst rfl
  refine ⟨_, 1 + polls.length, by rw [hl, List.append_assoc, List.append_assoc], ?_, by omega,
    by omega, ?_⟩
  · rw [sent_append, sent_append, hd.sent, List.replicate_add]
    simp [sent, crc_byte]
    decide
  · rw [chip_selects_append, chip_selects_append, hd.chip_selects]
    simp [chip_selects]

theorem read_multi_zero_iff : ∀ (n : Nat) (buff : List Nat) (off : Nat) (s : Drv)
    (inp : List Event) (b : List Nat) (s1 : Drv) (i1 : List Event),
    read_multi n buff off s inp = some (0, b, s1, i1) ↔
      blocks_received n buff off s inp = some (b, s1, i1)
  | 0, buff, off, s, inp, b, s1, i1 => by simp [read_multi, blocks_received]
  | n + 1, buff, off, s, inp, b, s1, i1 => by
    simp only [read_multi, blocks_received]
    split
    · rename_i h; simp [h]
    · rename_i b2 s2 i2 h; simp [h]
    · rename_i b2 s2 i2 h
      simp only [h]
      exact read_multi_zero_iff n _ _ _ _ _ _ _

theorem blocks_received_payload : ∀ (n : Nat) (pre mid post : List Nat) (s : Drv)
    (inp : List Event) (b : List Nat) (s1 : Drv) (i1 : List Event), mid.length = 512 * n →
    blocks_received n (pre ++ mid ++ post) pre.length s inp = some (b, s1, i1) →
    ∃ payloads, Blocks inp payloads i1 ∧ payloads.length = n ∧
      (∀ p ∈ payloads, p.length = 512) ∧ b = pre ++ payloads.flatten ++ post
  | 0, pre, mid, post, s, inp, b, s1, i1, hm, h => by
    simp only [blocks_received, Option.some.injEq, Prod.mk.injEq] at h
    obtain ⟨rfl, -, rfl⟩ := h
    have : mid = [] := List.length_eq_zero.mp (by omega)
    exact ⟨[], rfl, rfl, by simp, by simp [this]⟩
  | n + 1, pre, mid, post, s, inp, b, s1, i1, hm, h => by
    simp only [blocks_received] at h
    split at h
    · rename_i b2 s2 i2 hr
      obtain ⟨idle, tok, data, crc, h1, h2, h3, h4, h5, h6⟩ :=
        rcvr_datablock_ok (m := 255) (by decide) hr
      have hsplit : mid = mid.take 512 ++ mid.drop 512 := (List.take_append_drop 512 mid).symm
      have hb2 : b2 = (pre ++ data.map Event.val) ++ mid.drop 512 ++ post := by
        rw [h6]
        conv_lhs => rw [hsplit]
        have := store_append pre (mid.take 512) (mid.drop 512 ++ post) (data.map Event.val)
          (by rw [List.length_take, List.length_map, h4]; omega)
        simp only [List.append_assoc] at this ⊢
        exact this
      have hlen : (pre ++ data.map Event.val).length = pre.length + 512 := by
        simp [h4]
      rw [hb2, ← hlen] at h
      obtain ⟨ps, hp1, hp2, hp3, hp4⟩ := blocks_received_payload n _ (mid.drop 512) post s2 i2 b
        s1 i1 (by rw [List.length_drop]; omega) h
      refine ⟨data.map Event.val :: ps, ⟨idle, tok, data, crc, i2, h1, h2, h3, rfl, ?_, h5, hp1⟩,
        by simp [hp2], ?_, ?_⟩
      · simp [h4]
      · intro p hp
        rcases List.mem_cons.mp hp with rfl | hp
        · simp [h4]
        · exact hp3 p hp
      · rw [hp4]; simp
    · simp at h

theorem flatten_block : ∀ (ps : List (List Nat)) (tail : List Nat) (i : Nat),
    (∀ p ∈ ps, p.length = 512) → i < ps.length →
    ((ps.flatten ++ tail).drop (512 * i)).take 512 = ps.getD i []
  | [], _, _, _, hi => by simp at hi
  | p :: ps, tail, 0, hp, _ => by
    have hl : p.length = 512 := hp p (List.mem_cons_self _ _)
    simp only [List.flatten_cons, Nat.mul_zero, List.drop_zero, List.append_assoc,
      List.getD_cons_zero]
    rw [List.take_append_of_le_length (by omega), List.take_of_length_le (by omega)]
  | p :: ps, tail, i + 1, hp, hi => by
    have hl : p.length = 512 := hp p (List.mem_cons_self _ _)
    have e : 512 * (i + 1) = p.length + 512 * i := by omega
    simp only [List.flatten_cons, List.append_assoc, List.getD_cons_succ]
    rw [e, List.drop_append]
    exact flatten_block ps tail i (fun q hq => hp q (List.mem_cons_of_mem _ hq))
      (by simpa using hi)

theorem wait_ready_loop_log : ∀ (inp : List Event) (s s1 : Drv) (d : Nat) (rest : List Event),
    wait_ready_loop s inp = some (d, s1, rest) →
    ∃ l, s1.log = s.log ++ l ∧ Dummy l ∧ 1 ≤ l.length
  | [], _, _, _, _, h => by simp [wait_ready_loop] at h
  | e :: r, s, s1, d, rest, h => by
    simp only [wait_ready_loop] at h
    split at h
    · obtain ⟨l, hl, hd, -⟩ := wait_ready_loop_log r _ _ _ _ h
      refine ⟨Action.xchg 0xFF (e.byte % 256) :: l, by rw [hl, exch_log]; simp, ?_, by simp⟩
      intro a ha
      rcases List.mem_cons.mp ha with rfl | ha
      · exact ⟨_, rfl⟩
      · exact hd a ha
    · simp only [Option.some.injEq, Prod.mk.injEq] at h
      obtain ⟨-, rfl, -⟩ := h
      refine ⟨[Action.xchg 0xFF (e.byte % 256)], exch_log _ _ _, ?_, by simp⟩
      intro a ha
      exact ⟨_, List.mem_singleton.mp ha⟩

theorem wait_ready_log {wt : Nat} {s s1 : Drv} {inp rest : List Event} {b : Bool}
    (h : wait_ready wt s inp = some (b, s1, rest)) :
    ∃ l, s1.log = s.log ++ l ∧ Dummy l ∧ 1 ≤ l.length := by
  unfold wait_ready at h
  split at h
  · simp at h
  · rename_i d s2 i2 hx
    simp only [Option.some.injEq, Prod.mk.injEq] at h
    obtain ⟨-, rfl, -⟩ := h
    obtain ⟨l, hl, hd⟩ := wait_ready_loop_log _ _ _ _ _ hx
    exact ⟨l, hl, hd⟩

/-- The stop-transfer step: once the card is ready the token `0xFD` is sent and nothing
after it; on a ready timeout nothing but the ready polls is sent. -/
theorem xmit_stop_log {s s1 : Drv} {inp rest : List Event} {ok : Bool}
    (h : xmit_datablock [] 0 0xFD s inp = some (ok, s1, rest)) :
    ∃ l, Dummy l ∧ 1 ≤ l.length ∧
      ((ok = true ∧ ∃ b, s1.log = s.log ++ l ++ [Action.xchg 0xFD b]) ∨
       (ok = false ∧ s1.log = s.log ++ l)) := by
  unfold xmit_datablock at h
  split at h
  · simp at h
  · rename_i s2 i2 hw
    simp only [Option.some.injEq, Prod.mk.injEq] at h
    obtain ⟨rfl, rfl, -⟩ := h
    obtain ⟨l, hl, hd, h1⟩ := wait_ready_log hw
    exact ⟨l, hd, h1, Or.inr ⟨rfl, hl⟩⟩
  · rename_i s2 i2 hw
    obtain ⟨l, hl, hd, h1⟩ := wait_ready_log hw
    split at h
    · simp at h
    · rename_i x s3 i3 hx
      simp only [ne_eq, not_true_eq_false, if_false, Option.some.injEq, Prod.mk.injEq] at h
      obtain ⟨rfl, rfl, -⟩ := h
      obtain ⟨e, -, -, rfl⟩ := xchg_some hx
      exact ⟨l, hd, h1, Or.inl ⟨rfl, e.byte % 256, by rw [exch_log, hl]⟩⟩

theorem write_multi_spec : ∀ (count : Nat) (buff : List Nat) (off : Nat) (s : Drv)
    (inp : List Event) (rem : Nat) (sW : Drv) (iW : List Event),
    write_multi count buff off s inp = some (rem, sW, iW) →
    ∃ k sK iK, k ≤ count ∧ rem = count - k ∧ blocks_sent k buff off s inp = some (sK, iK) ∧
      ((k = count ∧ sW = sK ∧ iW = iK) ∨
       (k < count ∧ xmit_datablock buff (off + 512 * k) 0xFC sK iK = some (false, sW, iW)))
  | 0, buff, off, s, inp, rem, sW, iW, h => by
    simp only [write_multi, Option.some.injEq, Prod.mk.injEq] at h
    obtain ⟨rfl, rfl, rfl⟩ := h
    exact ⟨0, s, inp, Nat.le_refl _, rfl, rfl, Or.inl ⟨rfl, rfl, rfl⟩⟩
  | count + 1, buff, off, s, inp, rem, sW, iW, h => by
    simp only [write_multi] at h
    split at h
    · simp at h
    · rename_i s2 i2 hx
      simp only [Option.some.injEq, Prod.mk.injEq] at h
      obtain ⟨rfl, rfl, rfl⟩ := h
      exact ⟨0, s, inp, Nat.zero_le _, rfl, rfl, Or.inr ⟨Nat.succ_pos _, by simpa using hx⟩⟩
    · rename_i s2 i2 hx
      obtain ⟨k, sK, iK, hk, hrem, hb, hor⟩ := write_multi_spec count buff (off + 512) s2 i2 rem
        sW iW h
      refine ⟨k + 1, sK, iK, by omega, by omega, by simp [blocks_sent, hx, hb], ?_⟩
      rcases hor with ⟨h1, h2, h3⟩ | ⟨h1, h2⟩
      · exact Or.inl ⟨by omega, h2, h3⟩
      · refine Or.inr ⟨by omega, ?_⟩
        have e : off + 512 * (k + 1) = off + 512 + 512 * k := by omega
        rw [e]
        exact h2

theorem after_pair {α : Type} (x : Option (α × Drv × List Event)) (h : x.isSome = true) :
    x.map (fun r => (r.2.1, r.2.2)) = some ((after x).1, (after x).2) := by
  cases x with
  | none => simp at h
  | some r => rfl

/-- When the read command answers 0, all `count` block transfers succeed and the stream
lasts for the stop command (multi-block read only) and the final deselect, `disk_read`
returns `RES_OK` with the received buffer. -/
theorem disk_read_all_blocks (buff bK : List Nat) (sector count : Nat) (s s1 sK sS sE : Drv)
    (inp i1 iK iS iE : List Event) (hcount : 1 ≤ count) (hinit : s.Stat &&& STA_NOINIT = 0)
    (hs : send_cmd (if count = 1 then CMD17 else CMD18)
        (if s.CardType &&& CT_BLOCK = 0 then sector * 512 % 4294967296 else sector) s inp
        = some (0, s1, i1))
    (hb : blocks_received count buff 0 s1 i1 = some (bK, sK, iK))
    (hstop : (if count = 1 then some (sK, iK)
        else (send_cmd CMD12 0 sK iK).map (fun x => (x.2.1, x.2.2))) = some (sS, iS))
    (hd : deselect sS iS = some ((), sE, iE)) :
    disk_read 0 buff sector count s inp = some (RES_OK, bK, sE, iE) := by
  have hc0 : count ≠ 0 := by omega
  unfold disk_read
  simp only [ne_eq, not_true_eq_false, hc0, or_self, if_false, hinit]
  by_cases h1 : count = 1
  · subst h1
    simp only [eq_self_iff_true, if_true] at hs hstop ⊢
    simp only [Option.some.injEq, Prod.mk.injEq] at hstop
    obtain ⟨rfl, rfl⟩ := hstop
    rw [hs]
    simp only [if_true]
    simp only [blocks_received] at hb
    split at hb
    · rename_i b2 s2 i2 hr
      simp only [Option.some.injEq, Prod.mk.injEq] at hb
      obtain ⟨rfl, rfl, rfl⟩ := hb
      rw [hr]
      simp only [hd, not_true_eq_false, if_false]
    · simp at hb
  · simp only [h1, if_false] at hs hstop ⊢
    have hm := (read_multi_zero_iff _ _ _ _ _ _ _ _).mpr hb
    rw [hs]
    simp only [if_true, hm]
    cases h12 : send_cmd CMD12 0 sK iK with
    | none => rw [h12] at hstop; simp at hstop
    | some x =>
      obtain ⟨r12, s12, i12⟩ := x
      rw [h12] at hstop
      simp only [Option.map_some', Option.some.injEq, Prod.mk.injEq] at hstop
      obtain ⟨rfl, rfl⟩ := hstop
      simp only [hd, not_true_eq_false, if_false]

theorem xchg_len {out : Nat} {s s1 : Drv} {inp inp1 : List Event} {b : Nat}
    (h : SPI_u8ExchangeByte out s inp = some (b, s1, inp1)) : inp1.length + 1 = inp.length := by
  cases inp with
  | nil => simp [SPI_u8ExchangeByte] at h
  | cons e rest =>
    simp only [SPI_u8ExchangeByte, Option.some.injEq, Prod.mk.injEq] at h
    obtain ⟨-, -, rfl⟩ := h
    simp

theorem deselect_len {s s1 : Drv} {inp inp1 : List Event} {u : Unit}
    (h : deselect s inp = some (u, s1, inp1)) : inp1.length + 1 = inp.length := by
  unfold deselect at h
  split at h
  · simp at h
  · rename_i b s2 i2 hx
    simp only [Option.some.injEq, Prod.mk.injEq] at h
    obtain ⟨-, -, rfl⟩ := h
    exact xchg_len hx

theorem wait_ready_loop_len {s s1 : Drv} {inp inp1 : List Event} {d : Nat}
    (h : wait_ready_loop s inp = some (d, s1, inp1)) : inp1.length < inp.length := by
  induction inp generalizing s with
  | nil => simp [wait_ready_loop] at h
  | cons e rest ih =>
    unfold wait_ready_loop at h
    simp only at h
    split at h
    · have := ih h
      simp only [List.length_cons]
      omega
    · simp only [Option.some.injEq, Prod.mk.injEq] at h
      obtain ⟨-, -, rfl⟩ := h
      simp

theorem wait_ready_len {wt : Nat} {s s1 : Drv} {inp inp1 : List Event} {b : Bool}
    (h : wait_ready wt s inp = some (b, s1, inp1)) : inp1.length < inp.length := by
  unfold wait_ready at h
  split at h
  · simp at h
  · rename_i d s2 i2 hx
    simp only [Option.some.injEq, Prod.mk.injEq] at h
    obtain ⟨-, -, rfl⟩ := h
    exact wait_ready_loop_len hx

theorem select_len {s s1 : Drv} {inp inp1 : List Event} {b : Bool}
    (h : select s inp = some (b, s1, inp1)) : inp1.length < inp.length := by
  unfold select at h
  split at h
  · simp at h
  · rename_i b0 s2 i2 hx
    have h1 := xchg_len hx
    split at h
    · simp at h
    · rename_i s3 i3 hw
      have h2 := wait_ready_len hw
      simp only [Option.some.injEq, Prod.mk.injEq] at h
      obtain ⟨-, -, rfl⟩ := h
      omega
    · rename_i s3 i3 hw
      have h2 := wait_ready_len hw
      split at h
      · simp at h
      · rename_i u s4 i4 hd
        have h3 := deselect_len hd
        simp only [Option.some.injEq, Prod.mk.injEq] at h
        obtain ⟨-, -, rfl⟩ := h
        omega

theorem send_cmd_resp_len {n : Nat} {s s1 : Drv} {inp inp1 : List Event} {r : Nat}
    (h : send_cmd_resp n s inp = some (r, s1, inp1)) : inp1.length < inp.length := by
  induction n generalizing s inp with
  | zero => simp [send_cmd_resp] at h
  | succ n ih =>
    unfold send_cmd_resp at h
    split at h
    · simp at h
    · rename_i b s2 i2 hx
      have h1 := xchg_len hx
      split at h
      · have := ih h
        omega
      · simp only [Option.some.injEq, Prod.mk.injEq] at h
        obtain ⟨-, -, rfl⟩ := h
        omega

theorem send_cmd_packet_len {cmd arg : Nat} {s s1 : Drv} {inp inp1 : List Event} {r : Nat}
    (h : send_cmd_packet cmd arg s inp = some (r, s1, inp1)) : inp1.length < inp.length := by
  unfold send_cmd_packet at h
  split at h
  · simp at h
  rename_i _ _ _ h1
  split at h
  · simp at h
  rename_i _ _ _ h2
  split at h
  · simp at h
  rename_i _ _ _ h3
  split at h
  · simp at h
  rename_i _ _ _ h4
  split at h
  · simp at h
  rename_i _ _ _ h5
  simp only at h
  split at h
  · simp at h
  rename_i _ _ _ h6
  have l1 := xchg_len h1
  have l2 := xchg_len h2
  have l3 := xchg_len h3
  have l4 := xchg_len h4
  have l5 := xchg_len h5
  have l6 := xchg_len h6
  split at h
  · split at h
    · simp at h
    · rename_i _ _ _ h7
      have l7 := xchg_len h7
      have := send_cmd_resp_len h
      omega
  · have := send_cmd_resp_len h
    omega

theorem send_cmd_body_len {cmd arg : Nat} {s s1 : Drv} {inp inp1 : List Event} {r : Nat}
    (h : send_cmd_body cmd arg s inp = some (r, s1, inp1)) : inp1.length < inp.length := by
  unfold send_cmd_body at h
  split at h
  · split at h
    · simp at h
    · rename_i u s2 i2 hd
      have l1 := deselect_len hd
      split at h
      · simp at h
      · rename_i s3 i3 hs
        have l2 := select_len hs
        simp only [Option.some.injEq, Prod.mk.injEq] at h
        obtain ⟨-, -, rfl⟩ := h
        omega
      · rename_i s3 i3 hs
        have l2 := select_len hs
        have := send_cmd_packet_len h
        omega
  · exact send_cmd_packet_len h

/-- Every call of `send_cmd` that returns has exchanged at least one byte. -/
theorem send_cmd_len {cmd arg : Nat} {s s1 : Drv} {inp inp1 : List Event} {r : Nat}
    (h : send_cmd cmd arg s inp = some (r, s1, inp1)) : inp1.length < inp.length := by
  unfold send_cmd at h
  split at h
  · simp only at h
    split at h
    · simp at h
    · rename_i r0 s2 i2 hb
      have l1 := send_cmd_body_len hb
      split at h
      · simp only [Option.some.injEq, Prod.mk.injEq] at h
        obtain ⟨-, -, rfl⟩ := h
        exact l1
      · have := send_cmd_body_len h
        omega
  · exact send_cmd_body_len h

/-- The bound of `init_wait` is never what ends the loop: every bound above the number of
events left gives the same run. -/
theorem init_wait_bound (f1 f2 cmd arg : Nat) (s : Drv) (inp : List Event)
    (h1 : inp.length < f1) (h2 : inp.length < f2) :
    init_wait f1 cmd arg s inp = init_wait f2 cmd arg s inp := by
  induction f1 generalizing f2 s inp with
  | zero => omega
  | succ f1 ih =>
    cases f2 with
    | zero => omega
    | succ f2 =>
      unfold init_wait
      split
      · cases hs : send_cmd cmd arg s inp with
        | none => rfl
        | some x =>
          obtain ⟨r, s2, i2⟩ := x
          have := send_cmd_len hs
          simp only
          split
          · exact ih f2 s2 i2 (by omega) (by omega)
          · rfl
      · rfl

theorem disk_ioctl_csd_depth (c : IoctlCodes) (hc : c.Distinct) (d drv : Nat) (buff : List Nat)
    (s : Drv) (inp : List Event) :
    disk_ioctl c (d + 1) drv c.MMC_GET_CSD buff s inp
      = disk_ioctl c 1 drv c.MMC_GET_CSD buff s inp := by
  obtain ⟨-, -, -, -, -, -, h7, h8, h9, h10⟩ := hc
  simp only [disk_ioctl, h7, h8, h9, h10, if_false]

/-- The depth bound of `disk_ioctl` is never what ends a call when the control codes are
distinct: the CSD request of line 456 does not recurse, so every bound from 2 up gives the
same run. -/
theorem disk_ioctl_depth (c : IoctlCodes) (hc : c.Distinct) (d drv cmd : Nat) (buff : List Nat)
    (s : Drv) (inp : List Event) :
    disk_ioctl c (d + 1 + 1) drv cmd buff s inp = disk_ioctl c (0 + 1 + 1) drv cmd buff s inp := by
  conv_lhs => rw [disk_ioctl]
  conv_rhs => rw [disk_ioctl]
  simp only [disk_ioctl_csd_depth c hc d, disk_ioctl_csd_depth c hc 0]

theorem xchg_bus {out : Nat} {s s1 : Drv} {inp rest : List Event} {b : Nat}
    (h : SPI_u8ExchangeByte out s inp = some (b, s1, rest)) : Bus s s1 := by
  obtain ⟨e, -, -, rfl⟩ := xchg_some h
  exact Bus.xchg _ _ _

theorem deselect_bus {s s1 : Drv} {inp rest : List Event} {u : Unit}
    (h : deselect s inp = some (u, s1, rest)) : Bus s s1 := by
  obtain ⟨e, -, rfl⟩ := deselect_some h
  exact (Bus.desel s).trans (Bus.xchg _ _ _)

theorem wait_ready_loop_bus : ∀ (inp : List Event) (s s1 : Drv) (d : Nat) (rest : List Event),
    wait_ready_loop s inp = some (d, s1, rest) → Bus s s1
  | [], _, _, _, _, h => by simp [wait_ready_loop] at h
  | e :: r, s, s1, d, rest, h => by
    simp only [wait_ready_loop] at h
    split at h
    · exact (Bus.xchg _ e s).trans (wait_ready_loop_bus r _ _ _ _ h)
    · simp only [Option.some.injEq, Prod.mk.injEq] at h
      obtain ⟨-, rfl, -⟩ := h
      exact Bus.xchg _ _ _

theorem wait_ready_bus {wt : Nat} {s s1 : Drv} {inp rest : List Event} {b : Bool}
    (h : wait_ready wt s inp = some (b, s1, rest)) : Bus s s1 := by
  unfold wait_ready at h
  split at h
  · simp at h
  · rename_i d s2 i2 hx
    simp only [Option.some.injEq, Prod.mk.injEq] at h
    obtain ⟨-, rfl, -⟩ := h
    exact (Bus.timer2 s wt).trans (wait_ready_loop_bus _ _ _ _ _ hx)

theorem select_bus {s s1 : Drv} {inp rest : List Event} {b : Bool}
    (h : select s inp = some (b, s1, rest)) : Bus s s1 := by
  unfold select at h
  split at h
  · simp at h
  · rename_i x s2 i2 hx
    have e1 : Bus s s2 := (Bus.sel s).trans (xchg_bus hx)
    split at h
    · simp at h
    · rename_i s3 i3 hw
      simp only [Option.some.injEq, Prod.mk.injEq] at h
      obtain ⟨-, rfl, -⟩ := h
      exact e1.trans (wait_ready_bus hw)
    · rename_i s3 i3 hw
      split at h
      · simp at h
      · rename_i u s4 i4 hd
        simp only [Option.some.injEq, Prod.mk.injEq] at h
        obtain ⟨-, rfl, -⟩ := h
        exact (e1.trans (wait_ready_bus hw)).trans (deselect_bus hd)

theorem send_cmd_resp_bus : ∀ (n : Nat) (s s1 : Drv) (inp rest : List Event) (r : Nat),
    send_cmd_resp n s inp = some (r, s1, rest) → Bus s s1
  | 0, _, _, _, _, _, h => by simp [send_cmd_resp] at h
  | n + 1, s, s1, inp, rest, r, h => by
    unfold send_cmd_resp at h
    split at h
    · simp at h
    · rename_i b s2 i2 hx
      split at h
      · exact (xchg_bus hx).trans (send_cmd_resp_bus n _ _ _ _ _ h)
      · simp only [Option.some.injEq, Prod.mk.injEq] at h
        obtain ⟨-, rfl, -⟩ := h
        exact xchg_bus hx

theorem send_cmd_packet_bus {cmd arg : Nat} {s s1 : Drv} {inp rest : List Event} {r : Nat}
    (h : send_cmd_packet cmd arg s inp = some (r, s1, rest)) : Bus s s1 := by
  unfold send_cmd_packet at h
  split at h
  · simp at h
  rename_i _ _ _ h1
  split at h
  · simp at h
  rename_i _ _ _ h2
  split at h
  · simp at h
  rename_i _ _ _ h3
  split at h
  · simp at h
  rename_i _ _ _ h4
  split at h
  · simp at h
  rename_i _ _ _ h5
  simp only at h
  split at h
  · simp at h
  rename_i _ _ _ h6
  have b6 := (((((xchg_bus h1).trans (xchg_bus h2)).trans (xchg_bus h3)).trans
    (xchg_bus h4)).trans (xchg_bus h5)).trans (xchg_bus h6)
  split at h
  · split at h
    · simp at h
    · rename_i _ _ _ h7
      exact (b6.trans (xchg_bus h7)).trans (send_cmd_resp_bus _ _ _ _ _ _ h)
  · exact b6.trans (send_cmd_resp_bus _ _ _ _ _ _ h)

theorem send_cmd_body_bus {cmd arg : Nat} {s s1 : Drv} {inp rest : List Event} {r : Nat}
    (h : send_cmd_body cmd arg s inp = some (r, s1, rest)) : Bus s s1 := by
  unfold send_cmd_body at h
  split at h
  · split at h
    · simp at h
    · rename_i u s2 i2 hd
      split at h
      · simp at h
      · rename_i s3 i3 hs
        simp only [Option.some.injEq, Prod.mk.injEq] at h
        obtain ⟨-, rfl, -⟩ := h
        exact (deselect_bus hd).trans (select_bus hs)
      · rename_i s3 i3 hs
        exact ((deselect_bus hd).trans (select_bus hs)).trans (send_cmd_packet_bus h)
  · exact send_cmd_packet_bus h

theorem send_cmd_bus {cmd arg : Nat} {s s1 : Drv} {inp rest : List Event} {r : Nat}
    (h : send_cmd cmd arg s inp = some (r, s1, rest)) : Bus s s1 := by
  unfold send_cmd at h
  split at h
  · simp only at h
    split at h
    · simp at h
    · rename_i r0 s2 i2 hb
      split at h
      · simp only [Option.some.injEq, Prod.mk.injEq] at h
        obtain ⟨-, rfl, -⟩ := h
        exact send_cmd_body_bus hb
      · exact (send_cmd_body_bus hb).trans (send_cmd_body_bus h)
  · exact send_cmd_body_bus h

theorem rcvr_token_loop_bus : ∀ (inp : List Event) (s s1 : Drv) (d : Nat) (rest : List Event),
    rcvr_token_loop s inp = some (d, s1, rest) → Bus s s1
  | [], _, _, _, _, h => by simp [rcvr_token_loop] at h
  | e :: r, s, s1, d, rest, h => by
    simp only [rcvr_token_loop] at h
    split at h
    · exact (Bus.xchg _ e s).trans (rcvr_token_loop_bus r _ _ _ _ h)
    · simp only [Option.some.injEq, Prod.mk.injEq] at h
      obtain ⟨-, rfl, -⟩ := h
      exact Bus.xchg _ _ _

theorem rcvr_spi_multi_bus : ∀ (inp : List Event) (buff : List Nat) (off btr : Nat) (s s1 : Drv)
    (b1 : List Nat) (rest : List Event),
    rcvr_spi_multi buff off btr s inp = some (b1, s1, rest) → Bus s s1
  | [], _, _, _, _, _, _, _, h => by simp [rcvr_spi_multi] at h
  | [_], _, _, _, _, _, _, _, h => by simp [rcvr_spi_multi] at h
  | e1 :: e2 :: r, buff, off, btr, s, s1, b1, rest, h => by
    simp only [rcvr_spi_multi] at h
    have e : Bus s (exch 0xFF e2 (exch 0xFF e1 s)) := (Bus.xchg _ _ _).trans (Bus.xchg _ _ _)
    split at h
    · exact e.trans (rcvr_spi_multi_bus r _ _ _ _ _ _ _ h)
    · simp only [Option.some.injEq, Prod.mk.injEq] at h
      obtain ⟨-, rfl, -⟩ := h
      exact e

theorem xmit_spi_multi_bus : ∀ (inp : List Event) (buff : List Nat) (off btx : Nat) (s s1 : Drv)
    (rest : List Event), xmit_spi_multi buff off btx s inp = some (s1, rest) → Bus s s1
  | [], _, _, _, _, _, _, h => by simp [xmit_spi_multi] at h
  | [_], _, _, _, _, _, _, h => by simp [xmit_spi_multi] at h
  | e1 :: e2 :: r, buff, off, btx, s, s1, rest, h => by
    simp only [xmit_spi_multi] at h
    have e : Bus s (exch (buff.getD (off + 1) 0 % 256) e2 (exch (buff.getD off 0 % 256) e1 s)) :=
      (Bus.xchg _ _ _).trans (Bus.xchg _ _ _)
    split at h
    · exact e.trans (xmit_spi_multi_bus r _ _ _ _ _ _ h)
    · simp only [Option.some.injEq, Prod.mk.injEq] at h
      obtain ⟨rfl, -⟩ := h
      exact e

theorem rcvr_datablock_bus {buff b1 : List Nat} {off btr : Nat} {s s1 : Drv}
    {inp rest : List Event} {ok : Bool}
    (h : rcvr_datablock buff off btr s inp = some (ok, b1, s1, rest)) : Bus s s1 := by
  unfold rcvr_datablock at h
  split at h
  · simp at h
  · rename_i tok s2 i2 ht
    have e1 : Bus s s2 := (Bus.timer1 s 200).trans (rcvr_token_loop_bus _ _ _ _ _ ht)
    split at h
    · simp only [Option.some.injEq, Prod.mk.injEq] at h
      obtain ⟨-, -, rfl, -⟩ := h
      exact e1
    · split at h
      · simp at h
      · rename_i b2 s3 i3 hm
        split at h
        · simp at h
        · rename_i x s4 i4 hx
          split at h
          · simp at h
          · rename_i y s5 i5 hy
            simp only [Option.some.injEq, Prod.mk.injEq] at h
            obtain ⟨-, -, rfl, -⟩ := h
            exact ((e1.trans (rcvr_spi_multi_bus _ _ _ _ _ _ _ _ hm)).trans (xchg_bus hx)).trans
              (xchg_bus hy)

theorem xmit_datablock_bus {buff : List Nat} {off token : Nat} {s s1 : Drv}
    {inp rest : List Event} {ok : Bool}
    (h : xmit_datablock buff off token s inp = some (ok, s1, rest)) : Bus s s1 := by
  unfold xmit_datablock at h
  split at h
  · simp at h
  · rename_i s2 i2 hw
    simp only [Option.some.injEq, Prod.mk.injEq] at h
    obtain ⟨-, rfl, -⟩ := h
    exact wait_ready_bus hw
  · rename_i s2 i2 hw
    have e1 := wait_ready_bus hw
    split at h
    · simp at h
    · rename_i x s3 i3 hx
      have e2 := e1.trans (xchg_bus hx)
      split at h
      · split at h
        · simp at h
        · rename_i s4 i4 hm
          split at h
          · simp at h
          · rename_i y s5 i5 hy
            split at h
            · simp at h
            · rename_i z s6 i6 hz
              split at h
              · simp at h
              · rename_i w s7 i7 hv
                have e3 := (((e2.trans (xmit_spi_multi_bus _ _ _ _ _ _ _ hm)).trans
                  (xchg_bus hy)).trans (xchg_bus hz)).trans (xchg_bus hv)
                split at h <;>
                · simp only [Option.some.injEq, Prod.mk.injEq] at h
                  obtain ⟨-, rfl, -⟩ := h
                  exact e3
      · simp only [Option.some.injEq, Prod.mk.injEq] at h
        obtain ⟨-, rfl, -⟩ := h
        exact e2

theorem dummy_clocks_bus : ∀ (n : Nat) (s s1 : Drv) (inp rest : List Event) (u : Unit),
    dummy_clocks n s inp = some (u, s1, rest) → Bus s s1
  | 0, s, s1, _, _, _, h => by
    simp only [dummy_clocks, Option.some.injEq, Prod.mk.injEq] at h
    obtain ⟨-, rfl, -⟩ := h
    exact Bus.refl _
  | n + 1, s, s1, inp, rest, u, h => by
    unfold dummy_clocks at h
    split at h
    · simp at h
    · rename_i x s2 i2 hx
      exact (xchg_bus hx).trans (dummy_clocks_bus n _ _ _ _ _ h)

theorem purge_bus : ∀ (n : Nat) (s s1 : Drv) (inp rest : List Event) (u : Unit),
    purge n s inp = some (u, s1, rest) → Bus s s1
  | 0, s, s1, _, _, _, h => by
    simp only [purge, Option.some.injEq, Prod.mk.injEq] at h
    obtain ⟨-, rfl, -⟩ := h
    exact Bus.refl _
  | n + 1, s, s1, inp, rest, u, h => by
    unfold purge at h
    split at h
    · simp at h
    · rename_i x s2 i2 hx
      exact (xchg_bus hx).trans (purge_bus n _ _ _ _ _ h)

theorem read_ocr_bus {s s1 : Drv} {inp rest : List Event} {ocr : List Nat}
    (h : read_ocr s inp = some (ocr, s1, rest)) : Bus s s1 := by
  unfold read_ocr at h
  split at h
  · simp at h
  rename_i _ _ _ h1
  split at h
  · simp at h
  rename_i _ _ _ h2
  split at h
  · simp at h
  rename_i _ _ _ h3
  split at h
  · simp at h
  rename_i _ _ _ h4
  simp only [Option.some.injEq, Prod.mk.injEq] at h
  obtain ⟨-, rfl, -⟩ := h
  exact (((xchg_bus h1).trans (xchg_bus h2)).trans (xchg_bus h3)).trans (xchg_bus h4)

theorem init_wait_bus : ∀ (fuel cmd arg : Nat) (s s1 : Drv) (inp rest : List Event) (u : Unit),
    init_wait fuel cmd arg s inp = some (u, s1, rest) → Bus s s1
  | 0, _, _, _, _, _, _, _, h => by simp [init_wait] at h
  | fuel + 1, cmd, arg, s, s1, inp, rest, u, h => by
    unfold init_wait at h
    split at h
    · split at h
      · simp at h
      · rename_i r s2 i2 hc
        split at h
        · exact (send_cmd_bus hc).trans (init_wait_bus fuel _ _ _ _ _ _ _ h)
        · simp only [Option.some.injEq, Prod.mk.injEq] at h
          obtain ⟨-, rfl, -⟩ := h
          exact send_cmd_bus hc
    · simp only [Option.some.injEq, Prod.mk.injEq] at h
      obtain ⟨-, rfl, -⟩ := h
      exact Bus.refl _

theorem read_multi_bus : ∀ (count : Nat) (buff : List Nat) (off : Nat) (s : Drv)
    (inp : List Event) (c1 : Nat) (b1 : List Nat) (s1 : Drv) (rest : List Event),
    read_multi count buff off s inp = some (c1, b1, s1, rest) → Bus s s1
  | 0, _, _, s, _, _, _, _, _, h => by
    simp only [read_multi, Option.some.injEq, Prod.mk.injEq] at h
    obtain ⟨-, -, rfl, -⟩ := h
    exact Bus.refl s
  | count + 1, buff, off, s, inp, c1, b1, s1, rest, h => by
    simp only [read_multi] at h
    split at h
    · simp at h
    · rename_i b2 s2 i2 hr
      simp only [Option.some.injEq, Prod.mk.injEq] at h
      obtain ⟨-, -, rfl, -⟩ := h
      exact rcvr_datablock_bus hr
    · rename_i b2 s2 i2 hr
      exact (rcvr_datablock_bus hr).trans (read_multi_bus count _ _ _ _ _ _ _ _ h)

theorem write_multi_bus : ∀ (count : Nat) (buff : List Nat) (off : Nat) (s : Drv)
    (inp : List Event) (c1 : Nat) (s1 : Drv) (rest : List Event),
    write_multi count buff off s inp = some (c1, s1, rest) → Bus s s1
  | 0, _, _, s, _, _, _, _, h => by
    simp only [write_multi, Option.some.injEq, Prod.mk.injEq] at h
    obtain ⟨-, rfl, -⟩ := h
    exact Bus.refl s
  | count + 1, buff, off, s, inp, c1, s1, rest, h => by
    simp only [write_multi] at h
    split at h
    · simp at h
    · rename_i s2 i2 hr
      simp only [Option.some.injEq, Prod.mk.injEq] at h
      obtain ⟨-, rfl, -⟩ := h
      exact xmit_datablock_bus hr
    · rename_i s2 i2 hr
      exact (xmit_datablock_bus hr).trans (write_multi_bus count _ _ _ _ _ _ _ h)

theorem init_card_type_bus {s s1 : Drv} {inp rest : List Event} {ty : Nat}
    (h : init_card_type s inp = some (ty, s1, rest)) : Bus s s1 := by
  unfold init_card_type at h
  split at h
  · simp at h
  rename_i r0 s2 i2 h0
  have e0 := send_cmd_bus h0
  split at h
  · simp only at h
    split at h
    · simp at h
    rename_i r8 s3 i3 h8
    have e8 := (e0.trans (Bus.timer1 s2 1000)).trans (send_cmd_bus h8)
    split at h
    · split at h
      · simp at h
      rename_i ocr s4 i4 ho
      have eo := e8.trans (read_ocr_bus ho)
      split at h
      · split at h
        · simp at h
        rename_i u s5 i5 hw
        have ew := eo.trans (init_wait_bus _ _ _ _ _ _ _ _ hw)
        split at h
        · split at h
          · simp at h
          rename_i r58 s6 i6 h58
          have e58 := ew.trans (send_cmd_bus h58)
          split at h
          · split at h
            · simp at h
            rename_i ocr2 s7 i7 ho2
            simp only [Option.some.injEq, Prod.mk.injEq] at h
            obtain ⟨-, rfl, -⟩ := h
            exact e58.trans (read_ocr_bus ho2)
          · simp only [Option.some.injEq, Prod.mk.injEq] at h
            obtain ⟨-, rfl, -⟩ := h
            exact e58
        · simp only [Option.some.injEq, Prod.mk.injEq] at h
          obtain ⟨-, rfl, -⟩ := h
          exact ew
      · simp only [Option.some.injEq, Prod.mk.injEq] at h
        obtain ⟨-, rfl, -⟩ := h
        exact eo
    · split at h
      · simp at h
      rename_i r41 s4 i4 h41
      have e41 := e8.trans (send_cmd_bus h41)
      split at h
      · simp at h
      rename_i u s5 i5 hw
      have ew := e41.trans (init_wait_bus _ _ _ _ _ _ _ _ hw)
      split at h
      · simp only [Option.some.injEq, Prod.mk.injEq] at h
        obtain ⟨-, rfl, -⟩ := h
        exact ew
      · split at h
        · simp at h
        rename_i r16 s6 i6 h16
        simp only [Option.some.injEq, Prod.mk.injEq] at h
        obtain ⟨-, rfl, -⟩ := h
        exact ew.trans (send_cmd_bus h16)
  · simp only [Option.some.injEq, Prod.mk.injEq] at h
    obtain ⟨-, rfl, -⟩ := h
    exact e0

theorem disk_read_bus {drv : Nat} {buff b1 : List Nat} {sector count : Nat} {s s1 : Drv}
    {inp rest : List Event} {r : DRESULT}
    (h : disk_read drv buff sector count s inp = some (r, b1, s1, rest)) : Bus s s1 := by
  unfold disk_read at h
  split at h
  · simp only [Option.some.injEq, Prod.mk.injEq] at h
    obtain ⟨-, -, rfl, -⟩ := h
    exact Bus.refl _
  split at h
  · simp only [Option.some.injEq, Prod.mk.injEq] at h
    obtain ⟨-, -, rfl, -⟩ := h
    exact Bus.refl _
  simp only at h
  split at h
  · simp at h
  rename_i cnt b2 s2 i2 hr
  split at h
  · simp at h
  rename_i u s3 i3 hd
  simp only [Option.some.injEq, Prod.mk.injEq] at h
  obtain ⟨-, -, rfl, -⟩ := h
  refine Bus.trans ?_ (deselect_bus hd)
  split at hr
  · split at hr
    · simp at hr
    · rename_i res t i hs
      split at hr
      · split at hr
        · simp at hr
        · rename_i b4 s4 i4 hb
          simp only [Option.some.injEq, Prod.mk.injEq] at hr
          obtain ⟨-, -, rfl, -⟩ := hr
          exact (send_cmd_bus hs).trans (rcvr_datablock_bus hb)
        · rename_i b4 s4 i4 hb
          simp only [Option.some.injEq, Prod.mk.injEq] at hr
          obtain ⟨-, -, rfl, -⟩ := hr
          exact (send_cmd_bus hs).trans (rcvr_datablock_bus hb)
      · simp only [Option.some.injEq, Prod.mk.injEq] at hr
        obtain ⟨-, -, rfl, -⟩ := hr
        exact send_cmd_bus hs
  · split at hr
    · simp at hr
    · rename_i res t i hs
      split at hr
      · split at hr
        · simp at hr
        · rename_i c4 b4 s4 i4 hm
          split at hr
          · simp at hr
          · rename_i r5 s5 i5 h12
            simp only [Option.some.injEq, Prod.mk.injEq] at hr
            obtain ⟨-, -, rfl, -⟩ := hr
            exact ((send_cmd_bus hs).trans (read_multi_bus _ _ _ _ _ _ _ _ _ hm)).trans
              (send_cmd_bus h12)
      · simp only [Option.some.injEq, Prod.mk.injEq] at hr
        obtain ⟨-, -, rfl, -⟩ := hr
        exact send_cmd_bus hs

theorem disk_write_bus {drv : Nat} {buff : List Nat} {sector count : Nat} {s s1 : Drv}
    {inp rest : List Event} {r : DRESULT}
    (h : disk_write drv buff sector count s inp = some (r, s1, rest)) : Bus s s1 := by
  unfold disk_write at h
  split at h
  · simp only [Option.some.injEq, Prod.mk.injEq] at h
    obtain ⟨-, rfl, -⟩ := h
    exact Bus.refl _
  split at h
  · simp only [Option.some.injEq, Prod.mk.injEq] at h
    obtain ⟨-, rfl, -⟩ := h
    exact Bus.refl _
  split at h
  · simp only [Option.some.injEq, Prod.mk.injEq] at h
    obtain ⟨-, rfl, -⟩ := h
    exact Bus.refl _
  simp only at h
  split at h
  · simp at h
  rename_i cnt s2 i2 hr
  split at h
  · simp at h
  rename_i u s3 i3 hd
  simp only [Option.some.injEq, Prod.mk.injEq] at h
  obtain ⟨-, rfl, -⟩ := h
  refine Bus.trans ?_ (deselect_bus hd)
  split at hr
  · split at hr
    · simp at hr
    · rename_i res t i hs
      split at hr
      · split at hr
        · simp at hr
        · rename_i s4 i4 hb
          simp only [Option.some.injEq, Prod.mk.injEq] at hr
          obtain ⟨-, rfl, -⟩ := hr
          exact (send_cmd_bus hs).trans (xmit_datablock_bus hb)
        · rename_i s4 i4 hb
          simp only [Option.some.injEq, Prod.mk.injEq] at hr
          obtain ⟨-, rfl, -⟩ := hr
          exact (send_cmd_bus hs).trans (xmit_datablock_bus hb)
      · simp only [Option.some.injEq, Prod.mk.injEq] at hr
        obtain ⟨-, rfl, -⟩ := hr
        exact send_cmd_bus hs
  · split at hr
    · simp at hr
    rename_i sP iP hP
    have eP : Bus s sP := by
      split at hP
      · split at hP
        · simp at hP
        · rename_i r23 s23 i23 h23
          simp only [Option.some.injEq, Prod.mk.injEq] at hP
          obtain ⟨rfl, -⟩ := hP
          exact send_cmd_bus h23
      · simp only [Option.some.injEq, Prod.mk.injEq] at hP
        obtain ⟨rfl, -⟩ := hP
        exact Bus.refl _
    split at hr
    · simp at hr
    · rename_i res t i hs
      have e25 := eP.trans (send_cmd_bus hs)
      split at hr
      · split at hr
        · simp at hr
        · rename_i c4 s4 i4 hm
          have em := e25.trans (write_multi_bus _ _ _ _ _ _ _ _ hm)
          split at hr
          · simp at hr
          · rename_i s5 i5 hx
            simp only [Option.some.injEq, Prod.mk.injEq] at hr
            obtain ⟨-, rfl, -⟩ := hr
            exact em.trans (xmit_datablock_bus hx)
          · rename_i s5 i5 hx
            simp only [Option.some.injEq, Prod.mk.injEq] at hr
            obtain ⟨-, rfl, -⟩ := hr
            exact em.trans (xmit_datablock_bus hx)
      · simp only [Option.some.injEq, Prod.mk.injEq] at hr
        obtain ⟨-, rfl, -⟩ := hr
        exact e25

theorem disk_ioctl_bus (c : IoctlCodes) : ∀ (depth drv cmd : Nat) (buff b1 : List Nat)
    (s s1 : Drv) (inp rest : List Event) (r : DRESULT),
    disk_ioctl c depth drv cmd buff s inp = some (r, b1, s1, rest) → Bus s s1
  | 0, _, _, _, _, _, _, _, _, _, h => by simp [disk_ioctl] at h
  | depth + 1, drv, cmd, buff, b1, s, s1, inp, rest, r, h => by
    rw [disk_ioctl] at h
    by_cases hdrv : drv ≠ 0
    · rw [if_pos hdrv] at h
      simp only [Option.some.injEq, Prod.mk.injEq] at h
      obtain ⟨-, -, rfl, -⟩ := h
      exact Bus.refl _
    rw [if_neg hdrv] at h
    by_cases hinit : s.Stat &&& STA_NOINIT ≠ 0
    · rw [if_pos hinit] at h
      simp only [Option.some.injEq, Prod.mk.injEq] at h
      obtain ⟨-, -, rfl, -⟩ := h
      exact Bus.refl _
    rw [if_neg hinit] at h
    have last : ∀ {t t1 : Drv} {x : DRESULT} {b : List Nat} {i i1 : List Event},
        (match deselect t i with
          | none => none
          | some (_, s, inp) => some (x, b, s, inp)) = some (r, b1, t1, i1) → Bus s t → Bus s t1 := by
      intro t t1 x b i i1 he hb
      split at he
      · simp at he
      · rename_i u s3 i3 hd
        simp only [Option.some.injEq, Prod.mk.injEq] at he
        obtain ⟨-, -, rfl, -⟩ := he
        exact hb.trans (deselect_bus hd)
    have fin : ∀ {t t1 : Drv} {x y : DRESULT} {b b2 : List Nat} {i i1 : List Event},
        Bus s t → some (x, b, t, i) = some (y, b2, t1, i1) → Bus s t1 := by
      intro t t1 x y b b2 i i1 hb he
      simp only [Option.some.injEq, Prod.mk.injEq] at he
      obtain ⟨-, -, rfl, -⟩ := he
      exact hb
    by_cases h1 : cmd = c.CTRL_SYNC
    · simp only [if_pos h1] at h
      split at h
      · simp at h
      rename_i res b2 s2 i2 hr
      refine last h ?_
      split at hr
      · simp at hr
      · rename_i t i hs
        exact fin (select_bus hs) hr
      · rename_i t i hs
        exact fin (select_bus hs) hr
    by_cases h2 : cmd = c.GET_SECTOR_COUNT
    · simp only [if_neg h1, if_pos h2] at h
      split at h
      · simp at h
      rename_i res b2 s2 i2 hr
      refine last h ?_
      split at hr
      · simp at hr
      rename_i r9 t i h9
      split at hr
      · split at hr
        · simp at hr
        · rename_i x t2 i2 hb
          exact fin ((send_cmd_bus h9).trans (rcvr_datablock_bus hb)) hr
        · rename_i csd t2 i2 hb
          split at hr
          · simp at hr
          · exact fin ((send_cmd_bus h9).trans (rcvr_datablock_bus hb)) hr
      · exact fin (send_cmd_bus h9) hr
    by_cases h3 : cmd = c.GET_BLOCK_SIZE
    · simp only [if_neg h1, if_neg h2, if_pos h3] at h
      split at h
      · simp at h
      rename_i res b2 s2 i2 hr
      refine last h ?_
      split at hr
      · split at hr
        · simp at hr
        rename_i r13 t i h13
        split at hr
        · split at hr
          · simp at hr
          rename_i x t1 i1 hx
          split at hr
          · simp at hr
          · rename_i y t2 i2 hb
            exact fin (((send_cmd_bus h13).trans (xchg_bus hx)).trans (rcvr_datablock_bus hb)) hr
          · rename_i csd t2 i2 hb
            split at hr
            · simp at hr
            · rename_i u t3 i3 hp
              exact fin ((((send_cmd_bus h13).trans (xchg_bus hx)).trans
                (rcvr_datablock_bus hb)).trans (purge_bus _ _ _ _ _ _ hp)) hr
        · exact fin (send_cmd_bus h13) hr
      · split at hr
        · simp at hr
        rename_i r9 t i h9
        split at hr
        · split at hr
          · simp at hr
          · rename_i x t2 i2 hb
            exact fin ((send_cmd_bus h9).trans (rcvr_datablock_bus hb)) hr
          · rename_i csd t2 i2 hb
            split at hr
            · split at hr
              · simp at hr
              · exact fin ((send_cmd_bus h9).trans (rcvr_datablock_bus hb)) hr
            · exact fin ((send_cmd_bus h9).trans (rcvr_datablock_bus hb)) hr
        · exact fin (send_cmd_bus h9) hr
    by_cases h4 : cmd = c.CTRL_TRIM
    · simp only [if_neg h1, if_neg h2, if_neg h3, if_pos h4] at h
      split at h
      · simp at h
      rename_i res b2 s2 i2 hr
      refine last h ?_
      split at hr
      · exact fin (Bus.refl _) hr
      split at hr
      · simp at hr
      rename_i rc csd t i hc
      have ec := disk_ioctl_bus c depth _ _ _ _ _ _ _ _ _ hc
      split at hr
      · exact fin ec hr
      split at hr
      · exact fin ec hr
      split at hr
      · simp at hr
      rename_i r32 t1 i1 h32
      have e32 := ec.trans (send_cmd_bus h32)
      split at hr
      · exact fin e32 hr
      split at hr
      · simp at hr
      rename_i r33 t2 i2 h33
      have e33 := e32.trans (send_cmd_bus h33)
      split at hr
      · exact fin e33 hr
      split at hr
      · simp at hr
      rename_i r38 t3 i3 h38
      have e38 := e33.trans (send_cmd_bus h38)
      split at hr
      · exact fin e38 hr
      split at hr
      · simp at hr
      · rename_i t4 i4 hw
        exact fin (e38.trans (wait_ready_bus hw)) hr
      · rename_i t4 i4 hw
        exact fin (e38.trans (wait_ready_bus hw)) hr
    · simp only [if_neg h1, if_neg h2, if_neg h3, if_neg h4] at h
      exact last h (Bus.refl _)

theorem and_bit (x i : Nat) : x &&& 2 ^ i ≠ 0 ↔ x.testBit i = true := by
  rw [Nat.and_two_pow]
  cases x.testBit i <;> simp

theorem noinit_bit (x : Nat) : x &&& STA_NOINIT ≠ 0 ↔ x.testBit 0 = true := and_bit x 0

theorem nodisk_bit (x : Nat) : x &&& STA_NODISK ≠ 0 ↔ x.testBit 1 = true := and_bit x 1

theorem testBit_byte (x i : Nat) : (x % 256).testBit i = (decide (i < 8) && x.testBit i) :=
  Nat.testBit_mod_two_pow x 8 i

/-- After a timer interrupt `STA_NODISK` comes with `STA_NOINIT`, whatever the signals. -/
theorem disk_timerproc_inv (cd wp : Bool) (s : Drv) :
    (disk_timerproc cd wp s).Stat &&& STA_NODISK ≠ 0 →
    (disk_timerproc cd wp s).Stat &&& STA_NOINIT ≠ 0 := by
  rw [noinit_bit, nodisk_bit]
  have c1 : Nat.testBit 253 1 = false := by decide
  have c2 : Nat.testBit 3 0 = true := by decide
  cases cd <;> cases wp <;>
    simp [disk_timerproc, Nat.testBit_and, Nat.testBit_or, testBit_byte, STA_NODISK, STA_NOINIT,
      STA_PROTECT, c1, c2]

/-- A timer interrupt never clears `STA_NOINIT`. -/
theorem disk_timerproc_noinit (cd wp : Bool) (s : Drv) (h : s.Stat &&& STA_NOINIT ≠ 0) :
    (disk_timerproc cd wp s).Stat &&& STA_NOINIT ≠ 0 := by
  rw [noinit_bit] at h ⊢
  have c1 : Nat.testBit 253 0 = true := by decide
  have c2 : Nat.testBit 251 0 = true := by decide
  rw [Nat.testBit_zero] at h
  have h2 : s.Stat % 2 = 1 := by simpa using h
  cases cd <;> cases wp <;>
    simp [disk_timerproc, Nat.testBit_and, Nat.testBit_or, testBit_byte, STA_NODISK, STA_NOINIT,
      STA_PROTECT, c1, c2] <;> omega

/-- A timer interrupt during a call (card detected, not write protected) keeps `STA_NOINIT` as
it is and leaves `STA_NODISK` clear. -/
theorem tick_stat (s : Drv) :
    ((disk_timerproc MMC_CD MMC_WP s).Stat &&& STA_NOINIT ≠ 0 ↔ s.Stat &&& STA_NOINIT ≠ 0) ∧
    ((disk_timerproc MMC_CD MMC_WP s).Stat &&& STA_NODISK ≠ 0 → s.Stat &&& STA_NODISK ≠ 0) := by
  rw [noinit_bit, noinit_bit, nodisk_bit, nodisk_bit]
  have c1 : Nat.testBit 253 0 = true := by decide
  have c2 : Nat.testBit 251 0 = true := by decide
  have c3 : Nat.testBit 253 1 = false := by decide
  simp [disk_timerproc, MMC_CD, MMC_WP, Nat.testBit_and, testBit_byte, STA_NODISK, STA_PROTECT,
    c1, c2, c3]
  omega

theorem ticks_stat (n : Nat) (s : Drv) :
    ((ticks n s).Stat &&& STA_NOINIT ≠ 0 ↔ s.Stat &&& STA_NOINIT ≠ 0) ∧
    ((ticks n s).Stat &&& STA_NODISK ≠ 0 → s.Stat &&& STA_NODISK ≠ 0) := by
  induction n generalizing s with
  | zero => exact ⟨Iff.rfl, id⟩
  | succ n ih =>
    obtain ⟨h1, h2⟩ := ih (disk_timerproc MMC_CD MMC_WP s)
    obtain ⟨h3, h4⟩ := tick_stat s
    exact ⟨h1.trans h3, fun h => h4 (h2 h)⟩

/-- Bus activity leaves the card type alone. -/
theorem Bus.CardType {s t : Drv} (h : Bus s t) : t.CardType = s.CardType := by
  induction h with
  | refl s => rfl
  | trans _ _ ih1 ih2 => rw [ih2, ih1]
  | xchg out e s => exact exch_CardType out e s
  | sel s => rfl
  | desel s => rfl
  | timer1 s v => rfl
  | timer2 s v => rfl

/-- Bus activity neither sets nor clears `STA_NOINIT`, and does not set `STA_NODISK`. -/
theorem Bus.stat {s t : Drv} (h : Bus s t) :
    (t.Stat &&& STA_NOINIT ≠ 0 ↔ s.Stat &&& STA_NOINIT ≠ 0) ∧
    (t.Stat &&& STA_NODISK ≠ 0 → s.Stat &&& STA_NODISK ≠ 0) := by
  induction h with
  | refl s => exact ⟨Iff.rfl, id⟩
  | trans _ _ ih1 ih2 => exact ⟨ih2.1.trans ih1.1, fun h => ih1.2 (ih2.2 h)⟩
  | xchg out e s => exact ticks_stat e.ticks _
  | sel s => exact ⟨Iff.rfl, id⟩
  | desel s => exact ⟨Iff.rfl, id⟩
  | timer1 s v => exact ⟨Iff.rfl, id⟩
  | timer2 s v => exact ⟨Iff.rfl, id⟩

/-- The steps of a call `disk_initialize(0)` that gets past line 263 and returns. -/
theorem disk_initialize_some {s t : Drv} {inp rest : List Event} {st : Nat}
    (hdisk : s.Stat &&& STA_NODISK = 0) (h : disk_initialize 0 s inp = some (st, t, rest)) :
    ∃ s1 i1 ty s2 i2 s3, dummy_clocks 10 s inp = some ((), s1, i1) ∧
      init_card_type s1 i1 = some (ty, s2, i2) ∧
      deselect { s2 with CardType := ty } i2 = some ((), s3, rest) ∧ s3.CardType = ty ∧
      t = (if ty ≠ 0 then { s3 with Stat := s3.Stat % 256 &&& (0xFF - STA_NOINIT) }
           else { s3 with Stat := STA_NOINIT }) ∧ st = t.Stat := by
  unfold disk_initialize at h
  simp only [ne_eq, not_true_eq_false, if_false, hdisk] at h
  split at h
  · simp at h
  · rename_i u sd id hd
    split at h
    · simp at h
    · rename_i ty s2 i2 ht
      split at h
      · simp at h
      · rename_i u2 sE iE hE
        simp only [Option.some.injEq, Prod.mk.injEq] at h
        obtain ⟨hr, hs, rfl⟩ := h
        refine ⟨sd, id, ty, s2, i2, sE, hd, ht, hE, deselect_CardType hE, ?_, ?_⟩
        · rw [← hs]
        · rw [← hr, ← hs]

/-- What a returning call of `disk_initialize` does to the state: nothing (wrong drive or no
card), or it leaves `STA_NODISK` clear and clears `STA_NOINIT` only with a card type set. -/
theorem disk_initialize_cases {drv : Nat} {s t : Drv} {inp rest : List Event} {st : Nat}
    (h : disk_initialize drv s inp = some (st, t, rest)) :
    t = s ∨ (drv = 0 ∧ t.Stat &&& STA_NODISK = 0 ∧ (t.Stat &&& STA_NOINIT = 0 → t.CardType ≠ 0)) := by
  by_cases hdrv : drv = 0
  · subst hdrv
    by_cases hdisk : s.Stat &&& STA_NODISK = 0
    · right
      obtain ⟨s1, i1, ty, s2, i2, s3, hd, ht, hE, hct, rfl, -⟩ := disk_initialize_some hdisk h
      have h3 : s3.Stat &&& STA_NODISK = 0 := by
        by_contra hne
        have a := (deselect_bus hE).stat.2 hne
        have b := ((dummy_clocks_bus _ _ _ _ _ _ hd).trans (init_card_type_bus ht)).stat.2 a
        exact b hdisk
      refine ⟨rfl, ?_, ?_⟩
      · by_cases hty : ty = 0
        · simp only [hty, ne_eq, not_true_eq_false, if_false]
          decide
        · simp only [hty, ne_eq, not_false_eq_true, if_true]
          by_contra hne
          have hb := (nodisk_bit _).mp hne
          simp only [Nat.testBit_and, testBit_byte, Bool.and_eq_true, decide_eq_true_eq] at hb
          exact (nodisk_bit _).mpr hb.1.2 h3
      · by_cases hty : ty = 0
        · simp only [hty, ne_eq, not_true_eq_false, if_false]
          intro h0
          exact absurd h0 (by decide)
        · simp only [hty, ne_eq, not_false_eq_true, if_true]
          intro _
          rw [hct]
          exact hty
    · left
      unfold disk_initialize at h
      simp only [ne_eq, not_true_eq_false, if_false, hdisk, not_false_eq_true, if_true,
        Option.some.injEq, Prod.mk.injEq] at h
      exact h.2.1.symm
  · left
    unfold disk_initialize at h
    simp only [ne_eq, hdrv, not_false_eq_true, if_true, Option.some.injEq, Prod.mk.injEq] at h
    exact h.2.1.symm

/-- What an operation other than a timer interrupt or `disk_initialize` does to the state is
bus activity. -/
theorem run_op_bus (c : IoctlCodes) {op : Op} {s t : Drv} (h : run_op c op s = some t)
    (h1 : ∀ cd wp, op ≠ Op.tick cd wp) (h2 : ∀ drv inp, op ≠ Op.init drv inp) : Bus s t := by
  cases op with
  | tick cd wp => exact absurd rfl (h1 cd wp)
  | init drv inp => exact absurd rfl (h2 drv inp)
  | status drv =>
    simp only [run_op, Option.some.injEq] at h
    subst h
    exact Bus.refl _
  | read drv buff sector count inp =>
    simp only [run_op, Option.map_eq_some'] at h
    obtain ⟨⟨r, b, t1, i⟩, hr, rfl⟩ := h
    exact disk_read_bus hr
  | write drv buff sector count inp =>
    simp only [run_op, Option.map_eq_some'] at h
    obtain ⟨⟨r, t1, i⟩, hr, rfl⟩ := h
    exact disk_write_bus hr
  | ioctl depth drv cmd buff inp =>
    simp only [run_op, Option.map_eq_some'] at h
    obtain ⟨⟨r, b, t1, i⟩, hr, rfl⟩ := h
    exact disk_ioctl_bus c _ _ _ _ _ _ _ _ _ _ hr

/-- When the wait loop of lines 273 and 285 ends with the timer still running, its last command
answered 0. -/
theorem init_wait_done : ∀ (fuel cmd arg : Nat) (s s1 : Drv) (inp rest : List Event) (u : Unit),
    init_wait fuel cmd arg s inp = some (u, s1, rest) → s1.Timer1 ≠ 0 →
    ∃ sP iP, send_cmd cmd arg sP iP = some (0, s1, rest)
  | 0, _, _, _, _, _, _, _, h, _ => by simp [init_wait] at h
  | fuel + 1, cmd, arg, s, s1, inp, rest, u, h, ht => by
    unfold init_wait at h
    split at h
    · split at h
      · simp at h
      · rename_i r s2 i2 hc
        split at h
        · exact init_wait_done fuel _ _ _ _ _ _ _ h ht
        · rename_i hr
          simp only [Option.some.injEq, Prod.mk.injEq] at h
          obtain ⟨-, rfl, rfl⟩ := h
          have hr0 : r = 0 := by simpa using hr
          subst hr0
          exact ⟨s, inp, hc⟩
    · rename_i h0
      simp only [Option.some.injEq, Prod.mk.injEq] at h
      obtain ⟨-, rfl, -⟩ := h
      exact absurd ht h0

/-- The card types `init_card_type` can return, and when the result has `CT_BLOCK`. -/
theorem init_card_type_spec {s s1 : Drv} {inp rest : List Event} {ty : Nat}
    (h : init_card_type s inp = some (ty, s1, rest)) :
    (ty = 0 ∨ ty = CT_MMC ∨ ty = CT_SD1 ∨ ty = CT_SD2 ∨ ty = CT_SD2 ||| CT_BLOCK) ∧
    (ty &&& CT_BLOCK ≠ 0 → sdv2_block_run s inp s1 rest) := by
  unfold init_card_type at h
  split at h
  · simp at h
  rename_i r0 s2 i2 h0
  split at h
  · rename_i hr0
    subst hr0
    simp only at h
    split at h
    · simp at h
    rename_i r8 s3 i3 h8
    split at h
    · rename_i hr8
      subst hr8
      split at h
      · simp at h
      rename_i ocr s4 i4 ho
      split at h
      · rename_i hocr
        split at h
        · simp at h
        rename_i u s5 i5 hw
        split at h
        · rename_i ht
          split at h
          · simp at h
          rename_i r58 s6 i6 h58
          split at h
          · rename_i hr58
            subst hr58
            split at h
            · simp at h
            rename_i ocr2 s7 i7 ho2
            simp only [Option.some.injEq, Prod.mk.injEq] at h
            obtain ⟨hty, rfl, rfl⟩ := h
            by_cases hb : ocr2.getD 0 0 &&& 0x40 ≠ 0
            · rw [if_pos hb] at hty
              subst hty
              refine ⟨by decide, fun _ => ?_⟩
              obtain ⟨sP, iP, hP⟩ := init_wait_done _ _ _ _ _ _ _ _ hw ht
              exact ⟨s2, i2, s3, i3, ocr, s4, i4, s5, i5, sP, iP, s6, i6, ocr2, h0, h8, ho,
                hocr.1, hocr.2, hw, ht, hP, h58, ho2, hb⟩
            · rw [if_neg hb] at hty
              subst hty
              exact ⟨by decide, fun h => absurd h (by decide)⟩
          · simp only [Option.some.injEq, Prod.mk.injEq] at h
            obtain ⟨rfl, -, -⟩ := h
            exact ⟨by decide, fun h => absurd h (by decide)⟩
        · simp only [Option.some.injEq, Prod.mk.injEq] at h
          obtain ⟨rfl, -, -⟩ := h
          exact ⟨by decide, fun h => absurd h (by decide)⟩
      · simp only [Option.some.injEq, Prod.mk.injEq] at h
        obtain ⟨rfl, -, -⟩ := h
        exact ⟨by decide, fun h => absurd h (by decide)⟩
    · split at h
      · simp at h
      rename_i r41 s4 i4 h41
      split at h
      · simp at h
      rename_i u s5 i5 hw
      split at h
      · simp only [Option.some.injEq, Prod.mk.injEq] at h
        obtain ⟨rfl, -, -⟩ := h
        exact ⟨by decide, fun h => absurd h (by decide)⟩
      · split at h
        · simp at h
        rename_i r16 s6 i6 h16
        simp only [Option.some.injEq, Prod.mk.injEq] at h
        obtain ⟨rfl, -, -⟩ := h
        by_cases hz : r16 = 0 <;> by_cases hle : r41 ≤ 1 <;>
          simp only [hz, hle, ne_eq, not_true_eq_false, not_false_eq_true, if_true, if_false] <;>
          exact ⟨by decide, fun h => absurd h (by decide)⟩
  · simp only [Option.some.injEq, Prod.mk.injEq] at h
    obtain ⟨rfl, -, -⟩ := h
    exact ⟨by decide, fun h => absurd h (by decide)⟩

/-- The run `sdv2_block_run` makes `init_card_type` return SD v2 with block addressing. -/
theorem init_card_type_block {s sE : Drv} {inp iE : List Event}
    (h : sdv2_block_run s inp sE iE) :
    init_card_type s inp = some (CT_SD2 ||| CT_BLOCK, sE, iE) := by
  obtain ⟨s0, i0, s8, i8, ocr, sO, iO, sW, iW, sP, iP, s58, i58, ocr2, h0, h8, ho, hc2, hc3, hw,
    ht, -, h58, ho2, hb⟩ := h
  unfold init_card_type
  simp only [h0, h8, ho, hc2, hc3, hw, ht, h58, ho2, hb, if_true, and_self, ne_eq,
    not_false_eq_true]

theorem disk_timerproc_Timer1 (cd wp : Bool) (s : Drv) (h : s.Timer1 < 65536) :
    (disk_timerproc cd wp s).Timer1 = s.Timer1 - 1 := by
  simp only [disk_timerproc, Nat.mod_eq_of_lt h]
  split
  · rfl
  · omega

theorem disk_timerproc_Timer2 (cd wp : Bool) (s : Drv) (h : s.Timer2 < 65536) :
    (disk_timerproc cd wp s).Timer2 = s.Timer2 - 1 := by
  simp only [disk_timerproc, Nat.mod_eq_of_lt h]
  split
  · rfl
  · omega

theorem tick_seq_Timer1 (sigs : List (Bool × Bool)) (s : Drv) (h : s.Timer1 < 65536) :
    (tick_seq sigs s).Timer1 = s.Timer1 - sigs.length := by
  induction sigs generalizing s with
  | nil => rfl
  | cons sig rest ih =>
    have h1 := disk_timerproc_Timer1 sig.1 sig.2 s h
    rw [tick_seq, ih _ (by omega), h1, List.length_cons]
    omega

theorem tick_seq_Timer2 (sigs : List (Bool × Bool)) (s : Drv) (h : s.Timer2 < 65536) :
    (tick_seq sigs s).Timer2 = s.Timer2 - sigs.length := by
  induction sigs generalizing s with
  | nil => rfl
  | cons sig rest ih =>
    have h1 := disk_timerproc_Timer2 sig.1 sig.2 s h
    rw [tick_seq, ih _ (by omega), h1, List.length_cons]
    omega

theorem ticks_Timer1 (n : Nat) (s : Drv) (h : s.Timer1 < 65536) :
    (ticks n s).Timer1 = s.Timer1 - n := by
  induction n generalizing s with
  | zero => rfl
  | succ n ih =>
    have h1 := disk_timerproc_Timer1 MMC_CD MMC_WP s h
    rw [ticks, ih _ (by omega), h1]
    omega

theorem ticks_Timer2 (n : Nat) (s : Drv) (h : s.Timer2 < 65536) :
    (ticks n s).Timer2 = s.Timer2 - n := by
  induction n generalizing s with
  | zero => rfl
  | succ n ih =>
    have h1 := disk_timerproc_Timer2 MMC_CD MMC_WP s h
    rw [ticks, ih _ (by omega), h1]
    omega

theorem exch_Timer2 (out : Nat) (e : Event) (s : Drv) (h : s.Timer2 < 65536) :
    (exch out e s).Timer2 = s.Timer2 - e.ticks := by
  unfold exch
  exact ticks_Timer2 _ _ h

theorem clock_log (es : List Event) (s : Drv) : (clock s es).log = s.log ++ polls es := by
  induction es generalizing s with
  | nil => simp [clock, polls]
  | cons e es ih =>
    have h : clock s (e :: es) = clock (exch 0xFF e s) es := rfl
    rw [h, ih, exch_log]
    simp [polls, Event.val]

theorem wait_ready_loop_busy : ∀ (es : List Event) (s : Drv) (rest : List Event),
    s.Timer2 < 65536 → busy s.Timer2 es = true →
    ∃ d, d ≠ 0xFF ∧ wait_ready_loop s (es ++ rest) = some (d, clock s es, rest)
  | [], _, _, _, hb => by simp [busy] at hb
  | [e], s, rest, ht, hb => by
    simp only [busy, Bool.and_eq_true, decide_eq_true_eq] at hb
    refine ⟨e.val, hb.1, ?_⟩
    have h2 : (exch 0xFF e s).Timer2 = 0 := by
      rw [exch_Timer2 _ _ _ ht]
      omega
    simp only [List.singleton_append, wait_ready_loop, h2, ne_eq, not_true_eq_false, and_false,
      if_false]
    rfl
  | e :: e2 :: es, s, rest, ht, hb => by
    simp only [busy, Bool.and_eq_true, decide_eq_true_eq] at hb
    obtain ⟨⟨h1, h2⟩, h3⟩ := hb
    have h4 : (exch 0xFF e s).Timer2 = s.Timer2 - e.ticks := exch_Timer2 _ _ _ ht
    obtain ⟨d, hd, hw⟩ := wait_ready_loop_busy (e2 :: es) (exch 0xFF e s) rest
      (by rw [h4]; omega) (by rw [h4]; exact h3)
    refine ⟨d, hd, ?_⟩
    have hne : (exch 0xFF e s).Timer2 ≠ 0 := by rw [h4]; omega
    have hv : e.byte % 256 ≠ 255 := h1
    rw [List.cons_append, wait_ready_loop]
    simp only [hv, hne, ne_eq, not_false_eq_true, and_self, if_true]
    exact hw

theorem wait_ready_busy (wt : Nat) (es : List Event) (s : Drv) (rest : List Event)
    (hwt : wt < 65536) (hb : busy wt es = true) :
    wait_ready wt s (es ++ rest) = some (false, clock { s with Timer2 := wt } es, rest) := by
  obtain ⟨d, hd, hw⟩ := wait_ready_loop_busy es { s with Timer2 := wt } rest hwt hb
  unfold wait_ready
  rw [hw]
  simp [hd]

theorem select_busy (s : Drv) (e0 eD : Event) (es rest : List Event)
    (hb : busy 500 es = true) :
    select s (e0 :: (es ++ eD :: rest)) = some (false, select_timeout s e0 es eD, rest) := by
  unfold select
  simp only [SPI_u8ExchangeByte, wait_ready_busy 500 es _ _ (by decide) hb, deselect]
  rfl

theorem select_timeout_log (s : Drv) (e0 eD : Event) (es : List Event) :
    (select_timeout s e0 es eD).log = s.log ++ ([Action.sel, Action.xchg 0xFF e0.val] ++
      polls es ++ [Action.desel, Action.xchg 0xFF eD.val]) := by
  simp [select_timeout, exch_log, clock_log, SPI_vDeselect, SPI_vSelect, Event.val]

theorem send_cmd_body_busy (cmd arg : Nat) (s : Drv) (eA e0 eD : Event) (es rest : List Event)
    (hc : cmd ≠ CMD12) (hb : busy 500 es = true) :
    send_cmd_body cmd arg s (eA :: e0 :: (es ++ eD :: rest))
      = some (0xFF, select_timeout (exch 0xFF eA (SPI_vDeselect s)) e0 es eD, rest) := by
  unfold send_cmd_body
  rw [if_pos hc]
  simp only [deselect, SPI_u8ExchangeByte, select_busy _ e0 eD es rest hb]

theorem send_cmd_busy (cmd arg : Nat) (s : Drv) (eA e0 eD : Event) (es rest : List Event)
    (hc : cmd ≠ CMD12) (hb : busy 500 es = true) :
    send_cmd cmd arg s (eA :: e0 :: (es ++ eD :: rest))
      = some (0xFF, select_timeout (exch 0xFF eA (SPI_vDeselect s)) e0 es eD, rest) := by
  unfold send_cmd
  split
  · simp only [send_cmd_body_busy CMD55 0 s eA e0 eD es rest (by decide) hb]
    rw [if_pos (by decide)]
  · exact send_cmd_body_busy cmd arg s eA e0 eD es rest hc hb

theorem crc_byte_eq (cmd : Nat) :
    crc_byte cmd = (if cmd = CMD0 then 0x95 else if cmd = CMD8 then 0x87 else 0x01) := by
  unfold crc_byte
  by_cases h0 : cmd = CMD0
  · subst h0; decide
  · by_cases h8 : cmd = CMD8
    · subst h8; decide
    · simp [h0, h8]

theorem packet_state_log (cmd arg : Nat) (e1 e2 e3 e4 e5 e6 : Event) (s : Drv) :
    (packet_state cmd arg e1 e2 e3 e4 e5 e6 s).log
      = s.log ++ packet_trace cmd arg e1 e2 e3 e4 e5 e6 := by
  simp only [packet_state, exch_log, packet_trace, crc_byte_eq, Event.val, List.append_assoc,
    List.singleton_append, List.cons_append, List.nil_append]

/-- The packet phase of `send_cmd`, lines 222-233, on a stream with six events ahead. -/
theorem send_cmd_packet_six (cmd arg : Nat) (s : Drv) (e1 e2 e3 e4 e5 e6 : Event)
    (rest : List Event) :
    send_cmd_packet cmd arg s (e1 :: e2 :: e3 :: e4 :: e5 :: e6 :: rest)
      = if cmd = CMD12 then
          match SPI_u8ExchangeByte 0xFF (packet_state cmd arg e1 e2 e3 e4 e5 e6 s) rest with
          | none => none
          | some (_, s, inp) => send_cmd_resp 10 s inp
        else send_cmd_resp 10 (packet_state cmd arg e1 e2 e3 e4 e5 e6 s) rest := by
  simp only [send_cmd_packet, SPI_u8ExchangeByte]
  rfl

/-- Once the card is selected, a plain command is its packet phase. -/
theorem send_cmd_selected {cmd arg : Nat} {s s2 : Drv} {inp i2 : List Event}
    (h7 : cmd &&& 0x80 = 0) (h : Selected cmd s inp s2 i2) :
    send_cmd cmd arg s inp = send_cmd_packet cmd arg s2 i2 := by
  unfold send_cmd
  rw [if_neg (not_not.mpr h7)]
  unfold send_cmd_body
  rcases h with ⟨hc, rfl, rfl⟩ | ⟨hc, s1, i1, hd, hs⟩
  · rw [if_neg (not_not.mpr hc)]
  · rw [if_pos hc]
    simp only [hd, hs]

/-- The response wait returns as soon as the stream lasts for it: `n` events are enough. -/
theorem send_cmd_resp_total : ∀ (n : Nat) (s : Drv) (inp : List Event), 1 ≤ n → n ≤ inp.length →
    ∃ r s1 rest, send_cmd_resp n s inp = some (r, s1, rest)
  | 0, _, _, h, _ => by omega
  | n + 1, s, [], _, h => by simp at h
  | n + 1, s, e :: inp, _, h => by
    simp only [send_cmd_resp, SPI_u8ExchangeByte]
    split
    · rename_i hc
      exact send_cmd_resp_total n _ inp (by omega) (by simpa using h)
    · exact ⟨_, _, _, rfl⟩

/-- What the response wait reads: bytes with bit 7 set, fewer than `n` of them, then the byte
it returns, which has bit 7 clear or is the `n`-th byte. -/
theorem send_cmd_resp_spec : ∀ (n : Nat) (s s1 : Drv) (inp rest : List Event) (r : Nat),
    send_cmd_resp n s inp = some (r, s1, rest) ↔
    ∃ high e, inp = high ++ e :: rest ∧ (∀ x ∈ high, x.val &&& 0x80 ≠ 0) ∧ high.length < n ∧
      r = e.val ∧ (e.val &&& 0x80 = 0 ∨ high.length + 1 = n) ∧ s1 = clock s (high ++ [e])
  | 0, s, s1, inp, rest, r => by
    simp [send_cmd_resp]
  | n + 1, s, s1, [], rest, r => by
    simp [send_cmd_resp, SPI_u8ExchangeByte]
  | n + 1, s, s1, e :: inp, rest, r => by
    simp only [send_cmd_resp, SPI_u8ExchangeByte]
    by_cases hc : e.byte % 256 &&& 0x80 ≠ 0 ∧ n ≠ 0
    · rw [if_pos hc, send_cmd_resp_spec n]
      constructor
      · rintro ⟨high, e', h1, h2, h3, h4, h5, h6⟩
        refine ⟨e :: high, e', by rw [h1]; rfl, ?_, by simp; omega, h4, ?_, ?_⟩
        · intro x hx
          rcases List.mem_cons.mp hx with rfl | hx
          · exact hc.1
          · exact h2 x hx
        · rcases h5 with h5 | h5
          · exact Or.inl h5
          · right; simp; omega
        · rw [h6]; rfl
      · rintro ⟨high, e', h1, h2, h3, h4, h5, h6⟩
        cases high with
        | nil =>
          simp only [List.nil_append, List.cons.injEq] at h1
          obtain ⟨rfl, rfl⟩ := h1
          rcases h5 with h5 | h5
          · exact absurd h5 hc.1
          · simp at h5
            exact absurd h5 hc.2
        | cons x high =>
          simp only [List.cons_append, List.cons.injEq] at h1
          obtain ⟨rfl, rfl⟩ := h1
          refine ⟨high, e', rfl, fun y hy => h2 y (List.mem_cons_of_mem _ hy), ?_, h4, ?_, ?_⟩
          · simp at h3; omega
          · rcases h5 with h5 | h5
            · exact Or.inl h5
            · right; simp at h5; omega
          · rw [h6]; rfl
    · rw [if_neg hc]
      constructor
      · intro h
        simp only [Option.some.injEq, Prod.mk.injEq] at h
        obtain ⟨rfl, rfl, rfl⟩ := h
        refine ⟨[], e, rfl, by simp, by simp, rfl, ?_, rfl⟩
        by_cases h7 : e.byte % 256 &&& 0x80 = 0
        · exact Or.inl h7
        · right
          have : n = 0 := by
            by_contra hn
            exact hc ⟨h7, hn⟩
          simp [this]
      · rintro ⟨high, e', h1, h2, h3, h4, h5, h6⟩
        cases high with
        | nil =>
          simp only [List.nil_append, List.cons.injEq] at h1
          obtain ⟨rfl, rfl⟩ := h1
          rw [h4, h6]
          rfl
        | cons x high =>
          simp only [List.cons_append, List.cons.injEq] at h1
          obtain ⟨rfl, rfl⟩ := h1
          exfalso
          apply hc
          refine ⟨h2 _ (List.mem_cons_self _ _), ?_⟩
          simp at h3
          omega

theorem bit7_clear {cmd : Nat} (h : cmd < 128) : cmd &&& 0x80 = 0 := by
  have h2 : cmd.testBit 7 = false := Nat.testBit_lt_two_pow (by simpa using h)
  have h3 := Nat.and_two_pow cmd 7
  rw [h2] at h3
  simpa using h3

theorem polls_append (l1 l2 : List Event) : polls (l1 ++ l2) = polls l1 ++ polls l2 := by
  simp [polls]

theorem polls_dummy (l : List Event) : Dummy (polls l) := by
  intro a ha
  simp only [polls, List.mem_map] at ha
  obtain ⟨e, -, rfl⟩ := ha
  exact ⟨_, rfl⟩

/-- Once the card is selected, what a plain command puts on the wire is its packet and then
dummy clocks. -/
theorem send_cmd_packet_trace {cmd arg : Nat} {s s2 sF : Drv} {inp rest iF : List Event}
    {e1 e2 e3 e4 e5 e6 : Event} {r : Nat} (h7 : cmd &&& 0x80 = 0)
    (hsel : Selected cmd s inp s2 (e1 :: e2 :: e3 :: e4 :: e5 :: e6 :: rest))
    (h : send_cmd cmd arg s inp = some (r, sF, iF)) :
    ∃ tail, sF.log = s2.log ++ packet_trace cmd arg e1 e2 e3 e4 e5 e6 ++ tail ∧ Dummy tail := by
  rw [send_cmd_selected h7 hsel, send_cmd_packet_six] at h
  split at h
  · split at h
    · simp at h
    · rename_i b sS iS hx
      obtain ⟨e, -, -, rfl⟩ := xchg_some hx
      obtain ⟨l, hl, hd, -, -⟩ := send_cmd_resp_log _ _ _ _ _ _ h
      refine ⟨Action.xchg 0xFF (e.byte % 256) :: l, ?_, ?_⟩
      · rw [hl, exch_log, packet_state_log]
        simp
      · intro a ha
        rcases List.mem_cons.mp ha with rfl | ha
        · exact ⟨_, rfl⟩
        · exact hd a ha
  · obtain ⟨l, hl, hd, -, -⟩ := send_cmd_resp_log _ _ _ _ _ _ h
    exact ⟨l, by rw [hl, packet_state_log], hd⟩

/-- Bus activity only extends the trace. -/
theorem Bus.ext {s t : Drv} (h : Bus s t) : Ext s t := by
  induction h with
  | refl s => exact Ext.refl s
  | trans _ _ ih1 ih2 => exact ih1.trans ih2
  | xchg out e s => exact exch_ext out e s
  | sel s => exact ⟨[Action.sel], rfl⟩
  | desel s => exact ⟨[Action.desel], rfl⟩
  | timer1 s v => exact Ext.refl s
  | timer2 s v => exact Ext.refl s

/-- A read that gets past the checks of lines 327-328 starts with its read command. -/
theorem disk_read_cmd {buff b1 : List Nat} {sector count : Nat} {s sF : Drv}
    {inp iF : List Event} {r : DRESULT} (hcount : count ≠ 0) (hinit : s.Stat &&& STA_NOINIT = 0)
    (h : disk_read 0 buff sector count s inp = some (r, b1, sF, iF)) :
    ∃ r1 s1 i1, send_cmd (if count = 1 then CMD17 else CMD18)
        (if s.CardType &&& CT_BLOCK = 0 then sector * 512 % 4294967296 else sector) s inp
        = some (r1, s1, i1) ∧ Bus s1 sF := by
  unfold disk_read at h
  simp only [ne_eq, not_true_eq_false, hcount, or_self, if_false, hinit] at h
  split at h
  · simp at h
  rename_i cnt b2 s2 i2 hr
  split at h
  · simp at h
  rename_i u s3 i3 hd
  simp only [Option.some.injEq, Prod.mk.injEq] at h
  obtain ⟨-, -, rfl, -⟩ := h
  have hb := deselect_bus hd
  split at hr
  · rename_i h1
    rw [if_pos h1]
    split at hr
    · simp at hr
    · rename_i res t i hs
      refine ⟨res, t, i, hs, ?_⟩
      split at hr
      · split at hr
        · simp at hr
        · rename_i b4 s4 i4 hblk
          simp only [Option.some.injEq, Prod.mk.injEq] at hr
          obtain ⟨-, -, rfl, -⟩ := hr
          exact (rcvr_datablock_bus hblk).trans hb
        · rename_i b4 s4 i4 hblk
          simp only [Option.some.injEq, Prod.mk.injEq] at hr
          obtain ⟨-, -, rfl, -⟩ := hr
          exact (rcvr_datablock_bus hblk).trans hb
      · simp only [Option.some.injEq, Prod.mk.injEq] at hr
        obtain ⟨-, -, rfl, -⟩ := hr
        exact hb
  · rename_i h1
    rw [if_neg h1]
    split at hr
    · simp at hr
    · rename_i res t i hs
      refine ⟨res, t, i, hs, ?_⟩
      split at hr
      · split at hr
        · simp at hr
        · rename_i c4 b4 s4 i4 hm
          split at hr
          · simp at hr
          · rename_i r5 s5 i5 h12
            simp only [Option.some.injEq, Prod.mk.injEq] at hr
            obtain ⟨-, -, rfl, -⟩ := hr
            exact ((read_multi_bus _ _ _ _ _ _ _ _ _ hm).trans (send_cmd_bus h12)).trans hb
      · simp only [Option.some.injEq, Prod.mk.injEq] at hr
        obtain ⟨-, -, rfl, -⟩ := hr
        exact hb

/-- A write that gets past the checks of lines 364-366 runs ACMD23 when it is a multi-block
write to an SD card, and then its write command. -/
theorem disk_write_cmd {buff : List Nat} {sector count : Nat} {s sF : Drv}
    {inp iF : List Event} {r : DRESULT} (hcount : count ≠ 0) (hinit : s.Stat &&& STA_NOINIT = 0)
    (hprot : s.Stat &&& STA_PROTECT = 0)
    (h : disk_write 0 buff sector count s inp = some (r, sF, iF)) :
    ∃ sP iP r1 s1 i1,
      (if count ≠ 1 ∧ s.CardType &&& CT_SDC ≠ 0 then
        (send_cmd ACMD23 count s inp).map (fun x => (x.2.1, x.2.2)) else some (s, inp))
        = some (sP, iP) ∧
      send_cmd (if count = 1 then CMD24 else CMD25)
        (if s.CardType &&& CT_BLOCK = 0 then sector * 512 % 4294967296 else sector) sP iP
        = some (r1, s1, i1) ∧ Bus s1 sF := by
  unfold disk_write at h
  simp only [ne_eq, not_true_eq_false, hcount, or_self, if_false, hinit, hprot] at h
  split at h
  · simp at h
  rename_i cnt s2 i2 hr
  split at h
  · simp at h
  rename_i u s3 i3 hd
  simp only [Option.some.injEq, Prod.mk.injEq] at h
  obtain ⟨-, rfl, -⟩ := h
  have hb := deselect_bus hd
  split at hr
  · rename_i h1
    simp only [h1, ne_eq, not_true_eq_false, false_and, if_false, if_true]
    split at hr
    · simp at hr
    · rename_i res t i hs
      refine ⟨s, inp, res, t, i, rfl, hs, ?_⟩
      split at hr
      · split at hr
        · simp at hr
        · rename_i s4 i4 hblk
          simp only [Option.some.injEq, Prod.mk.injEq] at hr
          obtain ⟨-, rfl, -⟩ := hr
          exact (xmit_datablock_bus hblk).trans hb
        · rename_i s4 i4 hblk
          simp only [Option.some.injEq, Prod.mk.injEq] at hr
          obtain ⟨-, rfl, -⟩ := hr
          exact (xmit_datablock_bus hblk).trans hb
      · simp only [Option.some.injEq, Prod.mk.injEq] at hr
        obtain ⟨-, rfl, -⟩ := hr
        exact hb
  · rename_i h1
    simp only [h1, ne_eq, not_false_eq_true, true_and, if_false]
    split at hr
    · simp at hr
    rename_i sP iP hP
    have hpre : (if ¬s.CardType &&& CT_SDC = 0 then
        (send_cmd ACMD23 count s inp).map (fun x => (x.2.1, x.2.2)) else some (s, inp))
        = some (sP, iP) := by
      rw [← hP]
      split
      · cases send_cmd ACMD23 count s inp with
        | none => rfl
        | some x => rfl
      · rfl
    split at hr
    · simp at hr
    · rename_i res t i hs
      refine ⟨sP, iP, res, t, i, hpre, hs, ?_⟩
      split at hr
      · split at hr
        · simp at hr
        · rename_i c4 s4 i4 hm
          have em := write_multi_bus _ _ _ _ _ _ _ _ hm
          split at hr
          · simp at hr
          · rename_i s5 i5 hx
            simp only [Option.some.injEq, Prod.mk.injEq] at hr
            obtain ⟨-, rfl, -⟩ := hr
            exact (em.trans (xmit_datablock_bus hx)).trans hb
          · rename_i s5 i5 hx
            simp only [Option.some.injEq, Prod.mk.injEq] at hr
            obtain ⟨-, rfl, -⟩ := hr
            exact (em.trans (xmit_datablock_bus hx)).trans hb
      · simp only [Option.some.injEq, Prod.mk.injEq] at hr
        obtain ⟨-, rfl, -⟩ := hr
        exact hb

theorem byte_top_bit (y : Nat) (hy : y < 256) : (y &&& 128) >>> 7 = y >>> 7 := by
  interval_cases y <;> rfl

theorem c_size_mult_eq (x y : Nat) (hy : y < 256) :
    ((x &&& 3) <<< 1) ||| (y >>> 7) = ((y &&& 128) >>> 7) + ((x &&& 3) <<< 1) ∧
    ((x &&& 3) <<< 1) ||| (y >>> 7) ≤ 7 := by
  have hx : x &&& 3 ≤ 3 := Nat.and_le_right
  have hy7 : y >>> 7 < 2 := by
    rw [Nat.shiftRight_eq_div_pow]
    omega
  rw [byte_top_bit y hy]
  simp only [Nat.shiftLeft_eq]
  have h1 : 2 ^ 1 * (x &&& 3) + y >>> 7 = 2 ^ 1 * (x &&& 3) ||| y >>> 7 :=
    Nat.mul_add_lt_is_or (by omega) _
  have e1 : (x &&& 3) * 2 ^ 1 = 2 ^ 1 * (x &&& 3) := Nat.mul_comm _ _
  rw [e1, ← h1]
  constructor
  · omega
  · omega

theorem c_size_v1_eq (a b c : Nat) (hb : b < 256) (hc : c < 256) :
    ((a &&& 3) <<< 10) ||| (b <<< 2) ||| (c >>> 6) = (c >>> 6) + (b <<< 2) + ((a &&& 3) <<< 10) ∧
    ((a &&& 3) <<< 10) ||| (b <<< 2) ||| (c >>> 6) ≤ 4095 := by
  have ha : a &&& 3 ≤ 3 := Nat.and_le_right
  have hc6 : c >>> 6 < 4 := by
    rw [Nat.shiftRight_eq_div_pow]
    omega
  simp only [Nat.shiftLeft_eq]
  have h1 : 2 ^ 10 * (a &&& 3) + b * 2 ^ 2 = 2 ^ 10 * (a &&& 3) ||| b * 2 ^ 2 :=
    Nat.mul_add_lt_is_or (by omega) _
  have h2 : 2 ^ 2 * (2 ^ 8 * (a &&& 3) + b) + c >>> 6
      = 2 ^ 2 * (2 ^ 8 * (a &&& 3) + b) ||| c >>> 6 := Nat.mul_add_lt_is_or (by omega) _
  have e1 : (a &&& 3) * 2 ^ 10 = 2 ^ 10 * (a &&& 3) := Nat.mul_comm _ _
  have e2 : 2 ^ 10 * (a &&& 3) + b * 2 ^ 2 = 2 ^ 2 * (2 ^ 8 * (a &&& 3) + b) := by ring
  rw [e1, ← h1, e2, ← h2]
  constructor
  · ring
  · omega

theorem exch_quiet (out b : Nat) (s : Drv) :
    exch out ⟨b, 0⟩ s = { s with log := s.log ++ [Action.xchg out (b % 256)] } := rfl

theorem sent_exch (out : Nat) (e : Event) (s : Drv) :
    sent (exch out e s).log = sent s.log ++ [out] := by
  rw [exch_log, sent_append]
  rfl

/-- A plain command other than CMD12 against a card that is ready at once and answers 0. -/
theorem send_cmd_accept (cmd arg : Nat) (s : Drv) (rest : List Event) (h7 : cmd &&& 0x80 = 0)
    (hc : cmd ≠ CMD12) :
    ∃ s1, send_cmd cmd arg s (answer 0 ++ rest) = some (0, s1, rest) ∧
      sent s1.log = sent s.log ++ ([0xFF, 0xFF, 0xFF] ++ packet cmd arg ++ [0xFF]) := by
  have hsel : Selected cmd s (answer 0 ++ rest)
      { exch 0xFF ⟨0xFF, 0⟩ (exch 0xFF ⟨0xFF, 0⟩ (SPI_vSelect (exch 0xFF ⟨0xFF, 0⟩
        (SPI_vDeselect s)))) with Timer2 := 500 }
      (⟨0xFF, 0⟩ :: ⟨0xFF, 0⟩ :: ⟨0xFF, 0⟩ :: ⟨0xFF, 0⟩ :: ⟨0xFF, 0⟩ :: ⟨0xFF, 0⟩ ::
        (⟨0, 0⟩ :: rest)) := by
    right
    refine ⟨hc, _, _, rfl, ?_⟩
    simp [select, SPI_u8ExchangeByte, wait_ready, wait_ready_loop]
    rfl
  rw [send_cmd_selected h7 hsel, send_cmd_packet_six, if_neg hc]
  refine ⟨clock (packet_state cmd arg ⟨0xFF, 0⟩ ⟨0xFF, 0⟩ ⟨0xFF, 0⟩ ⟨0xFF, 0⟩ ⟨0xFF, 0⟩ ⟨0xFF, 0⟩
    { exch 0xFF ⟨0xFF, 0⟩ (exch 0xFF ⟨0xFF, 0⟩ (SPI_vSelect (exch 0xFF ⟨0xFF, 0⟩
      (SPI_vDeselect s)))) with Timer2 := 500 }) [⟨0, 0⟩], ?_, ?_⟩
  · exact (send_cmd_resp_spec _ _ _ _ _ _).mpr
      ⟨[], ⟨0, 0⟩, rfl, by simp, by decide, rfl, Or.inl (by decide), rfl⟩
  · simp only [clock_log, packet_state_log, exch_log, SPI_vSelect, SPI_vDeselect, sent_append]
    simp [sent, packet, packet_trace, polls, crc_byte_eq]

theorem slice_length (buff : List Nat) (off n : Nat) : (slice buff off n).length = n := by
  induction n generalizing off with
  | zero => rfl
  | succ n ih => simp [slice, ih]

theorem slice_eq (buff : List Nat) (off n : Nat) (hb : ∀ b ∈ buff, b < 256)
    (hl : off + n ≤ buff.length) : slice buff off n = (buff.drop off).take n := by
  induction n generalizing off with
  | zero => simp [slice]
  | succ n ih =>
    have hlt : off < buff.length := by omega
    rw [slice, ih (off + 1) (by omega), List.drop_eq_getElem_cons hlt, List.take_succ_cons,
      List.getD_eq_getElem _ _ hlt, Nat.mod_eq_of_lt (hb _ (List.getElem_mem hlt))]

theorem send_cmd_app_accept (cmd arg : Nat) (s : Drv) (rest : List Event)
    (h7 : cmd &&& 0x80 ≠ 0) (hc : cmd &&& 0x7F ≠ CMD12) :
    ∃ s1, send_cmd cmd arg s (answer 0 ++ (answer 0 ++ rest)) = some (0, s1, rest) ∧
      sent s1.log = sent s.log ++ ([0xFF, 0xFF, 0xFF] ++ packet CMD55 0 ++ [0xFF] ++
        ([0xFF, 0xFF, 0xFF] ++ packet (cmd &&& 0x7F) arg ++ [0xFF])) := by
  have h0 : (0x7F &&& 0x80 : Nat) = 0 := by decide
  have hlow : (cmd &&& 0x7F) &&& 0x80 = 0 := by rw [Nat.and_assoc, h0]; simp
  obtain ⟨s5, h5, l5⟩ := send_cmd_accept CMD55 0 s (answer 0 ++ rest) (by decide) (by decide)
  obtain ⟨s1, h1, l1⟩ := send_cmd_accept (cmd &&& 0x7F) arg s5 rest hlow hc
  have e5 : send_cmd_body CMD55 0 s (answer 0 ++ (answer 0 ++ rest)) = some (0, s5, answer 0 ++ rest) := by
    rw [← h5]
    unfold send_cmd
    rw [if_neg (by decide)]
  have e1 : send_cmd_body (cmd &&& 0x7F) arg s5 (answer 0 ++ rest) = some (0, s1, rest) := by
    rw [← h1]
    conv_rhs => unfold send_cmd
    rw [if_neg (not_not.mpr hlow)]
  refine ⟨s1, ?_, ?_⟩
  · unfold send_cmd
    rw [if_pos h7]
    simp only [e5, gt_iff_lt, Nat.not_lt_zero, if_false, e1]
  · rw [l1, l5, List.append_assoc]

theorem xmit_spi_multi_sent : ∀ (m : Nat) (buff : List Nat) (off : Nat) (s : Drv)
    (es rest : List Event), es.length = 2 * (m + 1) → 2 * (m + 1) < 4294967296 →
    ∃ s1, xmit_spi_multi buff off (2 * (m + 1)) s (es ++ rest) = some (s1, rest) ∧
      sent s1.log = sent s.log ++ slice buff off (2 * (m + 1))
  | 0, buff, off, s, es, rest, hl, _ => by
    obtain ⟨e1, e2, rfl⟩ := List.length_eq_two.mp hl
    refine ⟨exch (buff.getD (off + 1) 0 % 256) e2 (exch (buff.getD off 0 % 256) e1 s), ?_, ?_⟩
    · simp only [List.cons_append, List.nil_append, xmit_spi_multi]
      rfl
    · rw [sent_exch, sent_exch]
      simp [slice]
  | m + 1, buff, off, s, es, rest, hl, hm => by
    rcases es with _ | ⟨e1, _ | ⟨e2, r⟩⟩
    · simp at hl
    · simp at hl
      omega
    · have hr : r.length = 2 * (m + 1) := by simp at hl; omega
      obtain ⟨s1, h1, l1⟩ := xmit_spi_multi_sent m buff (off + 2)
        (exch (buff.getD (off + 1) 0 % 256) e2 (exch (buff.getD off 0 % 256) e1 s)) r rest hr
        (by omega)
      have hb : (2 * (m + 1 + 1) + 4294967296 - 2) % 4294967296 = 2 * (m + 1) := by omega
      have hne : 2 * (m + 1) ≠ 0 := by omega
      refine ⟨s1, ?_, ?_⟩
      · simp only [List.cons_append, xmit_spi_multi, hb, ne_eq, hne, not_false_eq_true, if_true]
        exact h1
      · rw [l1, sent_exch, sent_exch]
        have e : 2 * (m + 1 + 1) = 2 * (m + 1) + 1 + 1 := by omega
        rw [e]
        simp [slice]

theorem write_block_events_eq : ∃ blk : List Event, blk.length = 512 ∧
    write_block_events = ⟨0xFF, 0⟩ :: ⟨0xFF, 0⟩ :: (blk ++ [⟨0xFF, 0⟩, ⟨0xFF, 0⟩, ⟨0xE5, 0⟩]) := by
  refine ⟨quiet (List.replicate 512 0xFF), by rw [quiet, List.length_map, List.length_replicate],
    ?_⟩
  have h : List.replicate 516 (0xFF : Nat)
      = [0xFF, 0xFF] ++ (List.replicate 512 0xFF ++ [0xFF, 0xFF]) := by
    rw [show (516 : Nat) = 2 + (512 + 2) from rfl, List.replicate_add, List.replicate_add]
    rfl
  unfold write_block_events quiet
  rw [h]
  simp only [List.map_append, List.map_cons, List.map_nil, List.cons_append, List.nil_append,
    List.append_assoc]

/-- A card that is ready at the first poll. -/
theorem wait_ready_now (wt : Nat) (s : Drv) (rest : List Event) :
    wait_ready wt s (⟨0xFF, 0⟩ :: rest)
      = some (true, exch 0xFF ⟨0xFF, 0⟩ { s with Timer2 := wt }, rest) := by
  unfold wait_ready
  rw [wait_ready_loop]
  simp

/-- One data block sent with a token other than `0xFD` to a card that is ready at once and
accepts the block. -/
theorem xmit_datablock_accept (buff : List Nat) (off token : Nat) (s : Drv) (rest : List Event)
    (ht : token ≠ 0xFD) :
    ∃ s1, xmit_datablock buff off token s (write_block_events ++ rest) = some (true, s1, rest) ∧
      sent s1.log = sent s.log ++ ([0xFF, token] ++ slice buff off 512 ++ [0xFF, 0xFF, 0xFF]) := by
  obtain ⟨blk, hlen, hw⟩ := write_block_events_eq
  obtain ⟨s1, h1, l1⟩ := xmit_spi_multi_sent 255 buff off
    (exch token ⟨0xFF, 0⟩ (exch 0xFF ⟨0xFF, 0⟩ { s with Timer2 := 500 }))
    blk (⟨0xFF, 0⟩ :: ⟨0xFF, 0⟩ :: ⟨0xE5, 0⟩ :: rest) hlen (by decide)
  have e512 : (2 * (255 + 1) : Nat) = 512 := rfl
  rw [e512] at h1 l1
  refine ⟨exch 0xFF ⟨0xE5, 0⟩ (exch 0xFF ⟨0xFF, 0⟩ (exch 0xFF ⟨0xFF, 0⟩ s1)), ?_, ?_⟩
  · rw [hw]
    unfold xmit_datablock
    simp only [List.cons_append, wait_ready_now, SPI_u8ExchangeByte, ne_eq, ht,
      not_false_eq_true, if_true, List.append_assoc, List.nil_append, h1]
    rfl
  · rw [sent_exch, sent_exch, sent_exch, l1, sent_exch, sent_exch]
    simp

/-- The stop token to a card that is ready at once. -/
theorem xmit_stop_accept (s : Drv) (rest : List Event) :
    ∃ s1, xmit_datablock [] 0 0xFD s (quiet [0xFF, 0xFF] ++ rest) = some (true, s1, rest) ∧
      sent s1.log = sent s.log ++ [0xFF, 0xFD] := by
  refine ⟨exch 0xFD ⟨0xFF, 0⟩ (exch 0xFF ⟨0xFF, 0⟩ { s with Timer2 := 500 }), ?_, ?_⟩
  · simp only [xmit_datablock, quiet, List.map_cons, List.map_nil, List.cons_append,
      List.nil_append, wait_ready_now, SPI_u8ExchangeByte, ne_eq, not_true_eq_false, if_false]
  · rw [sent_exch, sent_exch]
    simp

theorem write_multi_accept : ∀ (n : Nat) (buff : List Nat) (off : Nat) (s : Drv)
    (rest : List Event),
    ∃ s1, write_multi n buff off s (wblocks n ++ rest) = some (0, s1, rest) ∧
      sent s1.log = sent s.log ++ blocks_bytes (chunks buff off n)
  | 0, buff, off, s, rest => ⟨s, rfl, by simp [chunks, blocks_bytes]⟩
  | n + 1, buff, off, s, rest => by
    obtain ⟨s1, h1, l1⟩ := xmit_datablock_accept buff off 0xFC s (wblocks n ++ rest) (by decide)
    obtain ⟨s2, h2, l2⟩ := write_multi_accept n buff (off + 512) s1 rest
    refine ⟨s2, ?_, ?_⟩
    · simp only [wblocks, List.append_assoc, write_multi, h1]
      exact h2
    · rw [l2, l1]
      simp [chunks, blocks_bytes]

theorem deselect_sent (s : Drv) (e : Event) (rest : List Event) :
    ∃ s1, deselect s (e :: rest) = some ((), s1, rest) ∧ sent s1.log = sent s.log ++ [0xFF] := by
  refine ⟨exch 0xFF e (SPI_vDeselect s), rfl, ?_⟩
  rw [sent_exch]
  simp [SPI_vDeselect, sent_append, sent]

set_option maxRecDepth 4000 in
/-- The run of `disk_write` against the simulated card: it returns `RES_OK` and the bytes on
the wire are `write_bytes`. -/
theorem disk_write_accept (buff : List Nat) (sector count : Nat) (s : Drv) (rest : List Event)
    (hcount : count ≠ 0) (hinit : s.Stat &&& STA_NOINIT = 0)
    (hprot : s.Stat &&& STA_PROTECT = 0) :
    ∃ sW, disk_write 0 buff sector count s
        (card_write_stream (decide (count ≠ 1 ∧ s.CardType &&& CT_SDC ≠ 0)) count ++ rest)
        = some (RES_OK, sW, rest) ∧
      sent sW.log = sent s.log ++ write_bytes (decide (count ≠ 1 ∧ s.CardType &&& CT_SDC ≠ 0))
        (if s.CardType &&& CT_BLOCK = 0 then sector * 512 % 4294967296 else sector) buff count := by
  by_cases h1 : count = 1
  · subst h1
    obtain ⟨s1, e1, l1⟩ := send_cmd_accept CMD24
      (if s.CardType &&& CT_BLOCK = 0 then sector * 512 % 4294967296 else sector) s
      (write_block_events ++ (quiet [0xFF] ++ rest)) (by decide) (by decide)
    obtain ⟨s2, e2, l2⟩ := xmit_datablock_accept buff 0 0xFE s1 (quiet [0xFF] ++ rest) (by decide)
    obtain ⟨s3, e3, l3⟩ := deselect_sent s2 ⟨0xFF, 0⟩ rest
    have hd : decide ((1 : Nat) ≠ 1 ∧ s.CardType &&& CT_SDC ≠ 0) = false := by simp
    have hstream : card_write_stream false 1 ++ rest
        = answer 0 ++ (write_block_events ++ (quiet [0xFF] ++ rest)) := by
      simp only [card_write_stream, Bool.false_eq_true, if_false, if_true, wblocks,
        List.nil_append, List.append_nil, List.append_assoc]
    rw [hd, hstream]
    refine ⟨s3, ?_, ?_⟩
    · unfold disk_write
      simp only [ne_eq, not_true_eq_false, one_ne_zero, or_self, if_false, hinit, hprot, if_true]
      rw [e1]
      simp only [if_true]
      rw [e2]
      simp only []
      rw [show quiet [0xFF] ++ rest = ⟨0xFF, 0⟩ :: rest from rfl, e3]
      simp
    · rw [l3, l2, l1]
      simp only [write_bytes, cmd_bytes, Bool.false_eq_true, if_false, if_true, List.nil_append,
        List.append_assoc]
  · have hone : (if count = 1 then CMD24 else CMD25) = CMD25 := if_neg h1
    have hq : ∀ r : List Event, quiet [0xFF, 0xFF] ++ r = ⟨0xFF, 0⟩ :: ⟨0xFF, 0⟩ :: r :=
      fun _ => rfl
    have tail : ∀ (t : Drv), sent t.log = sent s.log ++
          (if decide (count ≠ 1 ∧ s.CardType &&& CT_SDC ≠ 0) = true then
            cmd_bytes CMD55 0 ++ cmd_bytes 23 count else []) →
        ∃ sW, (match send_cmd CMD25
            (if s.CardType &&& CT_BLOCK = 0 then sector * 512 % 4294967296 else sector) t
            (answer 0 ++ (wblocks count ++ (quiet [0xFF, 0xFF] ++ (quiet [0xFF] ++ rest)))) with
          | none => none
          | some (res, s, inp) =>
            if res = 0 then
              match write_multi count buff 0 s inp with
              | none => none
              | some (count, s, inp) =>
                match xmit_datablock [] 0 0xFD s inp with
                | none => none
                | some (true, s, inp) => some (count, s, inp)
                | some (false, s, inp) => some (1, s, inp)
            else some (count, s, inp)) = some (0, sW, quiet [0xFF] ++ rest) ∧
          sent sW.log = sent s.log ++
            ((if decide (count ≠ 1 ∧ s.CardType &&& CT_SDC ≠ 0) = true then
              cmd_bytes CMD55 0 ++ cmd_bytes 23 count else []) ++
            (cmd_bytes CMD25
              (if s.CardType &&& CT_BLOCK = 0 then sector * 512 % 4294967296 else sector) ++
              (blocks_bytes (chunks buff 0 count) ++ [0xFF, 0xFD]))) := by
      intro t ht
      obtain ⟨s1, e1, l1⟩ := send_cmd_accept CMD25
        (if s.CardType &&& CT_BLOCK = 0 then sector * 512 % 4294967296 else sector) t
        (wblocks count ++ (quiet [0xFF, 0xFF] ++ (quiet [0xFF] ++ rest))) (by decide) (by decide)
      obtain ⟨s2, e2, l2⟩ := write_multi_accept count buff 0 s1
        (quiet [0xFF, 0xFF] ++ (quiet [0xFF] ++ rest))
      obtain ⟨s3, e3, l3⟩ := xmit_stop_accept s2 (quiet [0xFF] ++ rest)
      refine ⟨s3, ?_, ?_⟩
      · rw [e1]
        simp only [if_true]
        rw [e2]
        simp only []
        rw [e3]
      · rw [l3, l2, l1, ht]
        simp only [cmd_bytes, List.append_assoc]
    by_cases hsdc : s.CardType &&& CT_SDC ≠ 0
    · have hd : decide (count ≠ 1 ∧ s.CardType &&& CT_SDC ≠ 0) = true := by simp [h1, hsdc]
      have hstream : card_write_stream true count ++ rest
          = answer 0 ++ (answer 0 ++ (answer 0 ++ (wblocks count ++
              (quiet [0xFF, 0xFF] ++ (quiet [0xFF] ++ rest))))) := by
        simp only [card_write_stream, if_true, h1, if_false, List.append_assoc]
      obtain ⟨t, et, lt⟩ := send_cmd_app_accept ACMD23 count s
        (answer 0 ++ (wblocks count ++ (quiet [0xFF, 0xFF] ++ (quiet [0xFF] ++ rest))))
        (by decide) (by decide)
      obtain ⟨s3, e3, l3⟩ := tail t (by
        rw [lt, hd]
        simp only [if_true, cmd_bytes]
        rfl)
      obtain ⟨s4, e4, l4⟩ := deselect_sent s3 ⟨0xFF, 0⟩ rest
      rw [hd, hstream]
      refine ⟨s4, ?_, ?_⟩
      · unfold disk_write
        simp only [ne_eq, not_true_eq_false, hcount, or_self, if_false, hinit, hprot, h1, hsdc,
          not_false_eq_true, if_true]
        rw [et]
        simp only []
        rw [e3]
        simp only []
        rw [show quiet [0xFF] ++ rest = ⟨0xFF, 0⟩ :: rest from rfl, e4]
        simp
      · rw [l4, l3, hd]
        simp only [write_bytes, if_true, h1, if_false, hone, List.append_assoc]
    · have hd : decide (count ≠ 1 ∧ s.CardType &&& CT_SDC ≠ 0) = false := by simp [hsdc]
      have hstream : card_write_stream false count ++ rest
          = answer 0 ++ (wblocks count ++ (quiet [0xFF, 0xFF] ++ (quiet [0xFF] ++ rest))) := by
        simp only [card_write_stream, Bool.false_eq_true, if_false, h1, List.nil_append,
          List.append_assoc]
      obtain ⟨s3, e3, l3⟩ := tail s (by rw [hd]; simp)
      obtain ⟨s4, e4, l4⟩ := deselect_sent s3 ⟨0xFF, 0⟩ rest
      rw [hd, hstream]
      refine ⟨s4, ?_, ?_⟩
      · unfold disk_write
        simp only [ne_eq, not_true_eq_false, hcount, or_self, if_false, hinit, hprot, h1, hsdc]
        rw [e3]
        simp only []
        rw [show quiet [0xFF] ++ rest = ⟨0xFF, 0⟩ :: rest from rfl, e4]
        simp
      · rw [l4, l3, hd]
        simp only [write_bytes, Bool.false_eq_true, if_false, h1, hone, List.nil_append,
          List.append_assoc]

theorem card_run_append (stride : Nat) (c : Card) (l1 l2 : List Nat) :
    card_run stride c (l1 ++ l2) = card_run stride (card_run stride c l1) l2 := by
  simp [card_run, List.foldl_append]

theorem card_run_cons (stride : Nat) (c : Card) (b : Nat) (l : List Nat) :
    card_run stride c (b :: l) = card_run stride (card_step stride c b) l := rfl

theorem card_run_nil (stride : Nat) (c : Card) : card_run stride c [] = c := rfl

/-- The card ignores an idle byte while it waits for a command or a token. -/
theorem card_step_idle (stride : Nat) (c : Card)
    (h : c.phase = CardPhase.scan ∨ ∃ multi addr, c.phase = CardPhase.token multi addr) :
    card_step stride c 0xFF = c := by
  rcases h with h | ⟨multi, addr, h⟩
  · simp [card_step, h]
  · cases multi <;> simp [card_step, h]

/-- The card decodes a command packet. -/
theorem card_run_packet (stride : Nat) (c : Card) (cmd arg : Nat) (hcmd : cmd < 64)
    (h : c.phase = CardPhase.scan ∨ ∃ multi addr, c.phase = CardPhase.token multi addr) :
    card_run stride c (packet cmd arg)
      = if cmd = 24 then { c with phase := CardPhase.token false (arg % 4294967296) }
        else if cmd = 25 then { c with phase := CardPhase.token true (arg % 4294967296) }
        else if cmd = 17 ∨ cmd = 18 then
          { c with phase := CardPhase.scan, reading := some (arg % 4294967296) }
        else { c with phase := CardPhase.scan } := by
  have h40 : 0x40 ||| cmd = 64 + cmd := by interval_cases cmd <;> rfl
  have hd : (64 + cmd) / 64 = 1 := by omega
  have hm : (64 + cmd) % 64 = cmd := by omega
  have hne1 : 64 + cmd ≠ 0xFC := by omega
  have hne2 : 64 + cmd ≠ 0xFE := by omega
  have hne3 : 64 + cmd ≠ 0xFD := by omega
  have h1 : card_step stride c (0x40 ||| cmd) = { c with phase := CardPhase.args cmd [] } := by
    rw [h40]
    rcases h with h | ⟨multi, addr, h⟩
    · simp [card_step, h, hd, hm]
    · cases multi <;> simp [card_step, h, hd, hm, hne1, hne2, hne3]
  have hval : (arg >>> 24) % 256 * 2 ^ 24 + (arg >>> 16) % 256 * 2 ^ 16 +
      (arg >>> 8) % 256 * 2 ^ 8 + arg % 256 = arg % 4294967296 := by
    simp only [Nat.shiftRight_eq_div_pow]
    omega
  simp only [packet, card_run_cons, card_run_nil, h1]
  simp only [card_step, List.length_nil, List.nil_append, List.length_cons, List.cons_append,
    Nat.zero_lt_succ, if_true, Nat.lt_irrefl, if_false, List.getD_cons_zero, List.getD_cons_succ,
    Nat.reduceAdd, Nat.reduceLT, hval]

theorem mem_after_below (stride : Nat) (ps : List (List Nat)) (m : Nat → List Nat) (a x : Nat)
    (h : x < a) : mem_after stride m a ps x = m x := by
  induction ps generalizing m a with
  | nil => rfl
  | cons p ps ih =>
    rw [mem_after, ih _ _ (by omega)]
    simp [Nat.ne_of_lt h]

theorem mem_after_get (stride : Nat) (hs : 0 < stride) (ps : List (List Nat))
    (m : Nat → List Nat) (a i : Nat) (hi : i < ps.length) :
    mem_after stride m a ps (a + stride * i) = ps.getD i [] := by
  induction ps generalizing m a i with
  | nil => simp at hi
  | cons p ps ih =>
    cases i with
    | zero =>
      rw [mem_after, Nat.mul_zero, Nat.add_zero, mem_after_below _ _ _ _ _ (by omega)]
      simp
    | succ i =>
      have e : a + stride * (i + 1) = (a + stride) + stride * i := by
        rw [Nat.mul_succ]; omega
      rw [mem_after, e, ih _ _ _ (by simpa using hi)]
      simp

theorem card_run_idle (stride : Nat) (c : Card) (n : Nat)
    (h : c.phase = CardPhase.scan ∨ ∃ multi addr, c.phase = CardPhase.token multi addr) :
    card_run stride c (List.replicate n 0xFF) = c := by
  induction n with
  | zero => rfl
  | succ n ih => rw [List.replicate_succ, card_run_cons, card_step_idle stride c h, ih]

/-- The card collects data bytes. -/
theorem card_run_collect (stride : Nat) (multi : Bool) (addr : Nat) :
    ∀ (l got : List Nat) (c : Card), c.phase = CardPhase.data multi addr got →
    got.length + l.length < 512 →
    card_run stride c l = { c with phase := CardPhase.data multi addr (got ++ l) }
  | [], got, c, h, _ => by
    rw [card_run_nil, List.append_nil, ← h]
  | b :: l, got, c, h, hl => by
    have h1 : card_step stride c b = { c with phase := CardPhase.data multi addr (got ++ [b]) } := by
      simp only [card_step, h]
      rw [if_pos (by simp at hl; omega)]
    rw [card_run_cons, h1, card_run_collect stride multi addr l (got ++ [b]) _ rfl
      (by simp at hl ⊢; omega)]
    simp

/-- The card takes one data packet: token, 512 data bytes and two CRC bytes. -/
theorem card_run_block (stride : Nat) (multi : Bool) (addr : Nat) (c : Card) (p : List Nat)
    (x y : Nat) (hc : c.phase = CardPhase.token multi addr) (hp : p.length = 512) :
    card_run stride c ((if multi then 0xFC else 0xFE) :: (p ++ [x, y]))
      = { c with mem := fun a => if a = addr then p else c.mem a,
                 phase := if multi then CardPhase.token true (addr + stride)
                          else CardPhase.scan } := by
  have h1 : card_step stride c (if multi then 0xFC else 0xFE)
      = { c with phase := CardPhase.data multi addr [] } := by
    simp [card_step, hc]
  obtain ⟨q, b, rfl⟩ : ∃ q b, p = q ++ [b] := by
    have hne : p ≠ [] := by
      intro h
      rw [h] at hp
      simp at hp
    exact ⟨p.dropLast, p.getLast hne, (List.dropLast_append_getLast hne).symm⟩
  have hq : q.length = 511 := by simp at hp; omega
  rw [card_run_cons, h1, List.append_assoc, card_run_append,
    card_run_collect stride multi addr q [] _ rfl (by simp; omega)]
  simp only [List.nil_append, List.singleton_append, card_run_cons, card_run_nil, card_step]
  simp [hq]

theorem chunks_length (buff : List Nat) (off n : Nat) : (chunks buff off n).length = n := by
  induction n generalizing off with
  | zero => rfl
  | succ n ih => simp [chunks, ih]

theorem slice_lt (buff : List Nat) (off k : Nat) : ∀ b ∈ slice buff off k, b < 256 := by
  induction k generalizing off with
  | zero => simp [slice]
  | succ k ih =>
    intro b hb
    rcases List.mem_cons.mp hb with rfl | hb
    · exact Nat.mod_lt _ (by decide)
    · exact ih _ b hb

theorem chunks_block (buff : List Nat) (off n : Nat) :
    ∀ p ∈ chunks buff off n, p.length = 512 ∧ ∀ b ∈ p, b < 256 := by
  induction n generalizing off with
  | zero => simp [chunks]
  | succ n ih =>
    intro p hp
    rcases List.mem_cons.mp hp with rfl | hp
    · exact ⟨slice_length _ _ _, slice_lt _ _ _⟩
    · exact ih _ p hp

theorem chunks_flatten (buff : List Nat) (off n : Nat) (hb : ∀ b ∈ buff, b < 256)
    (hl : off + 512 * n ≤ buff.length) :
    (chunks buff off n).flatten = (buff.drop off).take (512 * n) := by
  induction n generalizing off with
  | zero => simp [chunks]
  | succ n ih =>
    rw [chunks, List.flatten_cons, ih (off + 512) (by omega), slice_eq buff off 512 hb (by omega)]
    have e : 512 * (n + 1) = 512 + 512 * n := by omega
    rw [e, List.take_add, List.drop_drop]

/-- The card stores the data blocks of a multi-block write at consecutive addresses. -/
theorem card_run_blocks (stride : Nat) : ∀ (ps : List (List Nat)) (c : Card) (a : Nat),
    c.phase = CardPhase.token true a → (∀ p ∈ ps, p.length = 512) →
    card_run stride c (blocks_bytes ps)
      = { c with mem := mem_after stride c.mem a ps,
                 phase := CardPhase.token true (a + stride * ps.length) }
  | [], c, a, hc, _ => by
    simp only [blocks_bytes, card_run_nil, mem_after, List.length_nil, Nat.mul_zero,
      Nat.add_zero, ← hc]
  | p :: ps, c, a, hc, hp => by
    have e : blocks_bytes (p :: ps)
        = List.replicate 1 0xFF ++ ((if true then 0xFC else 0xFE) :: (p ++ [0xFF, 0xFF]) ++
            (List.replicate 1 0xFF ++ blocks_bytes ps)) := by
      simp [blocks_bytes]
    rw [e, card_run_append, card_run_idle stride c 1 (Or.inr ⟨_, _, hc⟩), card_run_append,
      card_run_block stride true a c p 0xFF 0xFF hc (hp p (List.mem_cons_self _ _)),
      card_run_append, card_run_idle stride _ 1 (Or.inr ⟨_, _, rfl⟩),
      card_run_blocks stride ps _ (a + stride) rfl
        (fun q hq => hp q (List.mem_cons_of_mem _ hq))]
    simp only [if_true, mem_after, List.length_cons, Nat.mul_succ]
    congr 2
    omega

/-- The card takes the bytes of an accepted command that is not a read or write command. -/
theorem card_run_cmd_other (stride : Nat) (c : Card) (cmd arg : Nat) (hcmd : cmd < 64)
    (h24 : cmd ≠ 24) (h25 : cmd ≠ 25) (h17 : cmd ≠ 17) (h18 : cmd ≠ 18)
    (hc : c.phase = CardPhase.scan) :
    card_run stride c (cmd_bytes cmd arg) = c := by
  have e : cmd_bytes cmd arg = List.replicate 3 0xFF ++ (packet cmd arg ++ List.replicate 1 0xFF) := by
    simp [cmd_bytes, List.replicate]
  rw [e, card_run_append, card_run_idle stride c 3 (Or.inl hc), card_run_append,
    card_run_packet stride c cmd arg hcmd (Or.inl hc)]
  simp only [h24, h25, h17, h18, or_self, if_false]
  rw [card_run_idle stride _ 1 (Or.inl rfl), ← hc]

/-- The card takes the bytes of `disk_write`: afterwards its memory holds the blocks sent, at
the address of the write command and the following addresses. -/
theorem card_run_write (stride : Nat) (pre : Bool) (addr : Nat) (buff : List Nat) (count : Nat)
    (c : Card) (hc : c.phase = CardPhase.scan) (hcount : count ≠ 0) (haddr : addr < 4294967296) :
    card_run stride c (write_bytes pre addr buff count)
      = { c with mem := mem_after stride c.mem addr (chunks buff 0 count) } := by
  have hpre : card_run stride c (if pre = true then cmd_bytes CMD55 0 ++ cmd_bytes 23 count else [])
      = c := by
    cases pre with
    | false => rfl
    | true =>
      rw [if_pos rfl, card_run_append,
        card_run_cmd_other stride c CMD55 0 (by decide) (by decide) (by decide) (by decide)
          (by decide) hc,
        card_run_cmd_other stride c 23 count (by decide) (by decide) (by decide) (by decide)
          (by decide) hc]
  have hmod : addr % 4294967296 = addr := Nat.mod_eq_of_lt haddr
  unfold write_bytes
  rw [card_run_append, hpre]
  by_cases h1 : count = 1
  · subst h1
    have e : cmd_bytes CMD24 addr ++ ([0xFF, 0xFE] ++ slice buff 0 512 ++ [0xFF, 0xFF, 0xFF] ++
        [0xFF]) = List.replicate 3 0xFF ++ (packet CMD24 addr ++ (List.replicate 2 0xFF ++
          ((if false then 0xFC else 0xFE) :: (slice buff 0 512 ++ [0xFF, 0xFF]) ++
            List.replicate 2 0xFF))) := by
      simp [cmd_bytes, List.replicate]
    simp only [if_true]
    rw [e, card_run_append, card_run_idle stride c 3 (Or.inl hc), card_run_append,
      card_run_packet stride c CMD24 addr (by decide) (Or.inl hc), if_pos rfl, hmod,
      card_run_append, card_run_idle stride _ 2 (Or.inr ⟨_, _, rfl⟩), card_run_append,
      card_run_block stride false addr _ (slice buff 0 512) 0xFF 0xFF rfl (slice_length _ _ _),
      card_run_idle stride _ 2 (Or.inl rfl)]
    simp [chunks, mem_after, hc]
  · have e : cmd_bytes CMD25 addr ++ (blocks_bytes (chunks buff 0 count) ++ [0xFF, 0xFD] ++
        [0xFF]) = List.replicate 3 0xFF ++ (packet CMD25 addr ++ (List.replicate 1 0xFF ++
          (blocks_bytes (chunks buff 0 count) ++ (List.replicate 1 0xFF ++
            ([0xFD] ++ List.replicate 1 0xFF))))) := by
      simp [cmd_bytes, List.replicate]
    simp only [h1, if_false]
    rw [e, card_run_append, card_run_idle stride c 3 (Or.inl hc), card_run_append,
      card_run_packet stride c CMD25 addr (by decide) (Or.inl hc), if_neg (by decide),
      if_pos rfl, hmod, card_run_append, card_run_idle stride _ 1 (Or.inr ⟨_, _, rfl⟩),
      card_run_append,
      card_run_blocks stride (chunks buff 0 count) _ addr rfl
        (fun p hp => (chunks_block buff 0 count p hp).1),
      card_run_append, card_run_idle stride _ 1 (Or.inr ⟨_, _, rfl⟩), card_run_append]
    simp only [card_run_cons, card_run_nil, card_step]
    simp only [if_true, Nat.reduceEqDiff, if_false, and_self, true_and]
    rw [card_run_idle stride _ 1 (Or.inl rfl)]
    simp [hc]

theorem quiet_append (a b : List Nat) : quiet (a ++ b) = quiet a ++ quiet b := by
  simp [quiet]

theorem quiet_length (l : List Nat) : (quiet l).length = l.length := by
  simp [quiet]

theorem quiet_val (l : List Nat) (h : ∀ b ∈ l, b < 256) : (quiet l).map Event.val = l := by
  induction l with
  | nil => rfl
  | cons b l ih =>
    have hb : b % 256 = b := Nat.mod_eq_of_lt (h b (List.mem_cons_self _ _))
    have := ih (fun x hx => h x (List.mem_cons_of_mem _ hx))
    simp only [quiet, List.map_cons, List.map_map] at this ⊢
    rw [this]
    simp [Event.val, hb]

theorem clock_sent (es : List Event) (s : Drv) :
    sent (clock s es).log = sent s.log ++ List.replicate es.length 0xFF := by
  induction es generalizing s with
  | nil => simp [clock]
  | cons e es ih =>
    have h : clock s (e :: es) = clock (exch 0xFF e s) es := rfl
    rw [h, ih, sent_exch, List.length_cons, List.replicate_succ]
    simp

/-- One data block received from a card that sends the start token at once. -/
theorem rcvr_datablock_block (buff : List Nat) (off : Nat) (s : Drv) (p : List Nat)
    (rest : List Event) (hp : p.length = 512) (hb : ∀ b ∈ p, b < 256) :
    ∃ s1, rcvr_datablock buff off 512 s (quiet (0xFE :: (p ++ [0, 0])) ++ rest)
        = some (true, store buff off p, s1, rest) ∧
      sent s1.log = sent s.log ++ List.replicate 515 0xFF := by
  have hq : quiet (0xFE :: (p ++ [0, 0])) ++ rest
      = ⟨0xFE, 0⟩ :: (quiet p ++ (⟨0, 0⟩ :: ⟨0, 0⟩ :: rest)) := by
    simp [quiet]
  have htok : rcvr_token_loop { s with Timer1 := 200 }
      (⟨0xFE, 0⟩ :: (quiet p ++ (⟨0, 0⟩ :: ⟨0, 0⟩ :: rest)))
      = some (0xFE, exch 0xFF ⟨0xFE, 0⟩ { s with Timer1 := 200 },
          quiet p ++ (⟨0, 0⟩ :: ⟨0, 0⟩ :: rest)) := by
    rw [rcvr_token_loop]
    simp
  have hlen : 2 * (255 + 1) ≤ (quiet p ++ (⟨0, 0⟩ :: ⟨0, 0⟩ :: rest)).length := by
    rw [List.length_append, quiet_length, hp]
    omega
  have hmul := rcvr_spi_multi_eq 255 buff off (exch 0xFF ⟨0xFE, 0⟩ { s with Timer1 := 200 })
    (quiet p ++ (⟨0, 0⟩ :: ⟨0, 0⟩ :: rest)) (by decide)
  rw [if_pos hlen] at hmul
  have e512 : (2 * (255 + 1) : Nat) = 512 := rfl
  rw [e512] at hmul
  have htake : (quiet p ++ (⟨0, 0⟩ :: ⟨0, 0⟩ :: rest)).take 512 = quiet p := by
    rw [List.take_append_of_le_length (by rw [quiet_length, hp]),
      List.take_of_length_le (by rw [quiet_length, hp])]
  have hdrop : (quiet p ++ (⟨0, 0⟩ :: ⟨0, 0⟩ :: rest)).drop 512 = ⟨0, 0⟩ :: ⟨0, 0⟩ :: rest := by
    rw [List.drop_append_of_le_length (by rw [quiet_length, hp]),
      List.drop_of_length_le (by rw [quiet_length, hp])]
    rfl
  rw [htake, hdrop, quiet_val p hb] at hmul
  refine ⟨exch 0xFF ⟨0, 0⟩ (exch 0xFF ⟨0, 0⟩
    (clock (exch 0xFF ⟨0xFE, 0⟩ { s with Timer1 := 200 }) (quiet p))), ?_, ?_⟩
  · rw [hq]
    unfold rcvr_datablock
    rw [htok]
    simp only [ne_eq, not_true_eq_false, if_false, hmul, SPI_u8ExchangeByte]
  · rw [sent_exch, sent_exch, clock_sent, sent_exch, quiet_length, hp]
    have e : List.replicate 515 (0xFF : Nat)
        = [0xFF] ++ (List.replicate 512 0xFF ++ [0xFF, 0xFF]) := by
      rw [show (515 : Nat) = 1 + (512 + 2) from rfl, List.replicate_add, List.replicate_add]
      rfl
    rw [e]
    simp only [List.append_assoc, List.singleton_append, List.cons_append, List.nil_append]

theorem store_mid (pre mid post p : List Nat) (hp : p.length = 512) (hm : 512 ≤ mid.length) :
    store (pre ++ mid ++ post) pre.length p = (pre ++ p) ++ mid.drop 512 ++ post := by
  have hsplit : mid = mid.take 512 ++ mid.drop 512 := (List.take_append_drop 512 mid).symm
  have h := store_append pre (mid.take 512) (mid.drop 512 ++ post) p
    (by rw [List.length_take, hp]; omega)
  conv_lhs => rw [hsplit]
  simp only [List.append_assoc] at h ⊢
  exact h

/-- The blocks `ps` received one after the other into consecutive slots of the buffer. -/
theorem blocks_received_events : ∀ (ps : List (List Nat)) (pre mid post : List Nat) (s : Drv)
    (rest : List Event), (∀ p ∈ ps, p.length = 512 ∧ ∀ b ∈ p, b < 256) →
    mid.length = 512 * ps.length →
    ∃ s1, blocks_received ps.length (pre ++ mid ++ post) pre.length s (block_events ps ++ rest)
        = some (pre ++ ps.flatten ++ post, s1, rest) ∧
      sent s1.log = sent s.log ++ List.replicate (515 * ps.length) 0xFF
  | [], pre, mid, post, s, rest, _, hm => by
    have : mid = [] := List.length_eq_zero.mp (by simpa using hm)
    subst this
    exact ⟨s, by simp [blocks_received, block_events], by simp⟩
  | p :: ps, pre, mid, post, s, rest, hp, hm => by
    obtain ⟨hp1, hp2⟩ := hp p (List.mem_cons_self _ _)
    have hm2 : 512 ≤ mid.length := by rw [hm, List.length_cons]; omega
    obtain ⟨s1, e1, l1⟩ := rcvr_datablock_block (pre ++ mid ++ post) pre.length s p
      (block_events ps ++ rest) hp1 hp2
    rw [store_mid pre mid post p hp1 hm2] at e1
    obtain ⟨s2, e2, l2⟩ := blocks_received_events ps (pre ++ p) (mid.drop 512) post s1 rest
      (fun q hq => hp q (List.mem_cons_of_mem _ hq))
      (by rw [List.length_drop, hm, List.length_cons]; omega)
    refine ⟨s2, ?_, ?_⟩
    · simp only [List.length_cons, blocks_received, block_events, List.append_assoc] at e1 ⊢
      rw [e1]
      simp only []
      have hl : (pre ++ p).length = pre.length + 512 := by rw [List.length_append, hp1]
      rw [hl] at e2
      simp only [List.append_assoc] at e2
      rw [e2]
      simp
    · rw [l2, l1, List.append_assoc, ← List.replicate_add, List.length_cons]
      congr 2
      omega

/-- CMD12 to a card that sends a stuff byte and then answers 0. -/
theorem send_cmd_stop_accept (s : Drv) (rest : List Event) :
    ∃ s1, send_cmd CMD12 0 s (quiet (List.replicate 6 0xFF ++ [0xFF, 0]) ++ rest)
        = some (0, s1, rest) ∧
      sent s1.log = sent s.log ++ (packet CMD12 0 ++ [0xFF, 0xFF]) := by
  have hq : quiet (List.replicate 6 0xFF ++ [0xFF, 0]) ++ rest
      = ⟨0xFF, 0⟩ :: ⟨0xFF, 0⟩ :: ⟨0xFF, 0⟩ :: ⟨0xFF, 0⟩ :: ⟨0xFF, 0⟩ :: ⟨0xFF, 0⟩ ::
        (⟨0xFF, 0⟩ :: ⟨0, 0⟩ :: rest) := rfl
  rw [hq, send_cmd_selected (by decide) (Or.inl ⟨rfl, rfl, rfl⟩), send_cmd_packet_six,
    if_pos rfl]
  refine ⟨clock (exch 0xFF ⟨0xFF, 0⟩ (packet_state CMD12 0 ⟨0xFF, 0⟩ ⟨0xFF, 0⟩ ⟨0xFF, 0⟩
    ⟨0xFF, 0⟩ ⟨0xFF, 0⟩ ⟨0xFF, 0⟩ s)) [⟨0, 0⟩], ?_, ?_⟩
  · simp only [SPI_u8ExchangeByte]
    exact (send_cmd_resp_spec _ _ _ _ _ _).mpr
      ⟨[], ⟨0, 0⟩, rfl, by simp, by decide, rfl, Or.inl (by decide), rfl⟩
  · simp only [clock_log, packet_state_log, exch_log, sent_append]
    simp [sent, packet, packet_trace, polls, crc_byte_eq]

theorem mem_after_range (stride : Nat) (hs : 0 < stride) (ps : List (List Nat))
    (m : Nat → List Nat) (a : Nat) :
    (List.range ps.length).map (fun i => mem_after stride m a ps (a + stride * i)) = ps := by
  apply List.ext_getElem
  · simp
  · intro i h1 h2
    simp only [List.getElem_map, List.getElem_range]
    rw [mem_after_get stride hs ps m a i h2, List.getD_eq_getElem _ _ h2]

/-- The run of `disk_read` against a card that answers 0 to the read command, sends the blocks
`ps` and answers 0 to CMD12: it returns `RES_OK` with the blocks in the buffer, and apart from
the packets everything on the wire is a dummy clock. -/
theorem disk_read_accept (buf : List Nat) (sector count : Nat) (s : Drv) (ps : List (List Nat))
    (rest : List Event) (hcount : count ≠ 0) (hinit : s.Stat &&& STA_NOINIT = 0)
    (hps : ps.length = count) (hblk : ∀ p ∈ ps, p.length = 512 ∧ ∀ b ∈ p, b < 256)
    (hbuf : buf.length = 512 * count) :
    ∃ sR, disk_read 0 buf sector count s
        (answer 0 ++ (block_events ps ++
          ((if count = 1 then [] else quiet (List.replicate 6 0xFF ++ [0xFF, 0])) ++
            quiet [0xFF])) ++ rest)
        = some (RES_OK, ps.flatten, sR, rest) ∧
      sent sR.log = sent s.log ++
        (cmd_bytes (if count = 1 then CMD17 else CMD18)
            (if s.CardType &&& CT_BLOCK = 0 then sector * 512 % 4294967296 else sector) ++
          (List.replicate (515 * count) 0xFF ++
            ((if count = 1 then [] else packet CMD12 0 ++ [0xFF, 0xFF]) ++ [0xFF]))) := by
  subst hps
  have h7 : (if ps.length = 1 then CMD17 else CMD18) &&& 0x80 = 0 := by split <;> decide
  have hc : (if ps.length = 1 then CMD17 else CMD18) ≠ CMD12 := by split <;> decide
  obtain ⟨s1, e1, l1⟩ := send_cmd_accept (if ps.length = 1 then CMD17 else CMD18)
    (if s.CardType &&& CT_BLOCK = 0 then sector * 512 % 4294967296 else sector) s
    (block_events ps ++ ((if ps.length = 1 then []
      else quiet (List.replicate 6 0xFF ++ [0xFF, 0])) ++ (quiet [0xFF] ++ rest))) h7 hc
  obtain ⟨s2, e2, l2⟩ := blocks_received_events ps [] buf [] s1
    ((if ps.length = 1 then [] else quiet (List.replicate 6 0xFF ++ [0xFF, 0])) ++
      (quiet [0xFF] ++ rest)) hblk hbuf
  simp only [List.nil_append, List.append_nil, List.length_nil] at e2
  have hstop : ∃ s3, (if ps.length = 1 then some (s2,
        (if ps.length = 1 then [] else quiet (List.replicate 6 0xFF ++ [0xFF, 0])) ++
          (quiet [0xFF] ++ rest))
      else (send_cmd CMD12 0 s2 ((if ps.length = 1 then []
        else quiet (List.replicate 6 0xFF ++ [0xFF, 0])) ++ (quiet [0xFF] ++ rest))).map
          (fun x => (x.2.1, x.2.2))) = some (s3, quiet [0xFF] ++ rest) ∧
      sent s3.log = sent s2.log ++
        (if ps.length = 1 then [] else packet CMD12 0 ++ [0xFF, 0xFF]) := by
    by_cases h1 : ps.length = 1
    · exact ⟨s2, by simp only [h1, if_true, List.nil_append], by simp [h1]⟩
    · obtain ⟨s3, e3, l3⟩ := send_cmd_stop_accept s2 (quiet [0xFF] ++ rest)
      refine ⟨s3, ?_, ?_⟩
      · simp only [h1, if_false, e3, Option.map_some']
      · rw [l3, if_neg h1]
  obtain ⟨s3, e3, l3⟩ := hstop
  obtain ⟨s4, e4, l4⟩ := deselect_sent s3 ⟨0xFF, 0⟩ rest
  refine ⟨s4, ?_, ?_⟩
  · have hstream : answer 0 ++ (block_events ps ++ ((if ps.length = 1 then []
          else quiet (List.replicate 6 0xFF ++ [0xFF, 0])) ++ quiet [0xFF])) ++ rest
        = answer 0 ++ (block_events ps ++ ((if ps.length = 1 then []
          else quiet (List.replicate 6 0xFF ++ [0xFF, 0])) ++ (quiet [0xFF] ++ rest))) := by
      simp only [List.append_assoc]
    rw [hstream]
    exact disk_read_all_blocks buf ps.flatten sector ps.length s s1 s2 s3 s4 _ _ _ _ _
      (Nat.one_le_iff_ne_zero.mpr hcount) hinit e1 e2 e3 e4
  · rw [l4, l3, l2, l1]
    simp only [cmd_bytes, List.append_assoc]

/-- The card takes the bytes of `disk_read`: it stores nothing and notes the read address. -/
theorem card_run_read (stride : Nat) (c : Card) (addr count k : Nat)
    (hc : c.phase = CardPhase.scan) (haddr : addr < 4294967296) :
    card_run stride c (cmd_bytes (if count = 1 then CMD17 else CMD18) addr ++
        (List.replicate k 0xFF ++
          ((if count = 1 then [] else packet CMD12 0 ++ [0xFF, 0xFF]) ++ [0xFF])))
      = { c with reading := some addr } := by
  have hmod : addr % 4294967296 = addr := Nat.mod_eq_of_lt haddr
  have hcmd : card_run stride c (cmd_bytes (if count = 1 then CMD17 else CMD18) addr)
      = { c with reading := some addr } := by
    have e : cmd_bytes (if count = 1 then CMD17 else CMD18) addr
        = List.replicate 3 0xFF ++ (packet (if count = 1 then CMD17 else CMD18) addr ++
            List.replicate 1 0xFF) := by
      simp [cmd_bytes, List.replicate]
    rw [e, card_run_append, card_run_idle stride c 3 (Or.inl hc), card_run_append,
      card_run_packet stride c _ addr (by split <;> decide) (Or.inl hc)]
    have h17 : (if (if count = 1 then CMD17 else CMD18) = 24 then
          { c with phase := CardPhase.token false (addr % 4294967296) }
        else if (if count = 1 then CMD17 else CMD18) = 25 then
          { c with phase := CardPhase.token true (addr % 4294967296) }
        else if (if count = 1 then CMD17 else CMD18) = 17 ∨
            (if count = 1 then CMD17 else CMD18) = 18 then
          { c with phase := CardPhase.scan, reading := some (addr % 4294967296) }
        else { c with phase := CardPhase.scan })
        = { c with phase := CardPhase.scan, reading := some addr } := by
      rw [hmod]
      by_cases h1 : count = 1 <;> simp [h1]
    rw [h17, card_run_idle stride _ 1 (Or.inl rfl), ← hc]
  have hc2 : ({ c with reading := some addr } : Card).phase = CardPhase.scan := hc
  rw [card_run_append, hcmd, card_run_append, card_run_idle stride _ k (Or.inl hc2),
    card_run_append]
  by_cases h1 : count = 1
  · simp only [h1, if_true, card_run_nil]
    exact card_run_idle stride _ 1 (Or.inl hc2)
  · have e : packet CMD12 0 ++ [0xFF, 0xFF] = packet CMD12 0 ++ List.replicate 2 0xFF := rfl
    simp only [h1, if_false]
    rw [e, card_run_append, card_run_packet stride _ CMD12 0 (by decide) (Or.inl hc2)]
    simp only [show CMD12 ≠ 24 from by decide, show CMD12 ≠ 25 from by decide,
      show CMD12 ≠ 17 from by decide, show CMD12 ≠ 18 from by decide, or_self, if_false]
    rw [card_run_idle stride _ 2 (Or.inl rfl)]
    have e1 : ([0xFF] : List Nat) = List.replicate 1 0xFF := rfl
    rw [e1, card_run_idle stride _ 1 (Or.inl rfl)]
    simp [hc]

theorem ticks_sum_cons (e : Event) (es : List Event) :
    ticks_sum (e :: es) = e.ticks + ticks_sum es := by
  simp [ticks_sum]

theorem exch_Timer1 (out : Nat) (e : Event) (s : Drv) (h : s.Timer1 < 65536) :
    (exch out e s).Timer1 = s.Timer1 - e.ticks := by
  unfold exch
  exact ticks_Timer1 _ _ h

theorem clock_cons (s : Drv) (e : Event) (es : List Event) :
    clock s (e :: es) = clock (exch 0xFF e s) es := rfl

theorem clock_append (s : Drv) (l1 l2 : List Event) :
    clock s (l1 ++ l2) = clock (clock s l1) l2 := by
  simp [clock, List.foldl_append]

/-- The token wait of `rcvr_datablock` with a running timer: the call returns exactly on the
streams that begin with bytes `0xFF` during which the timer keeps running (`idle`), followed by
a byte `e` that is not `0xFF` or during which the timer reaches zero. -/
theorem rcvr_token_loop_spec : ∀ (inp : List Event) (s : Drv), 0 < s.Timer1 → s.Timer1 < 65536 →
    ∀ (tok : Nat) (s1 : Drv) (rest : List Event),
    (rcvr_token_loop s inp = some (tok, s1, rest) ↔
      ∃ idle e, inp = idle ++ e :: rest ∧ (∀ x ∈ idle, x.val = 0xFF) ∧
        ticks_sum idle < s.Timer1 ∧ (e.val ≠ 0xFF ∨ s.Timer1 ≤ ticks_sum idle + e.ticks) ∧
        tok = e.val ∧ s1 = clock s (idle ++ [e]))
  | [], s, _, _, tok, s1, rest => by
    simp [rcvr_token_loop]
  | e :: r, s, h0, h1, tok, s1, rest => by
    have hT := exch_Timer1 0xFF e s h1
    simp only [rcvr_token_loop]
    by_cases hc : e.byte % 256 = 0xFF ∧ (exch 0xFF e s).Timer1 ≠ 0
    · rw [if_pos hc]
      have hlt : e.ticks < s.Timer1 := by
        have := hc.2
        rw [hT] at this
        omega
      rw [rcvr_token_loop_spec r (exch 0xFF e s) (by rw [hT]; omega) (by rw [hT]; omega)]
      constructor
      · rintro ⟨idle, e2, rfl, h2, h3, h4, h5, h6⟩
        refine ⟨e :: idle, e2, rfl, ?_, ?_, ?_, h5, ?_⟩
        · intro x hx
          rcases List.mem_cons.mp hx with rfl | hx
          · exact hc.1
          · exact h2 x hx
        · rw [ticks_sum_cons]
          rw [hT] at h3
          omega
        · rw [ticks_sum_cons]
          rw [hT] at h4
          rcases h4 with h4 | h4
          · exact Or.inl h4
          · right; omega
        · rw [h6]; rfl
      · rintro ⟨idle, e2, h2, h3, h4, h5, h6, h7⟩
        rcases idle with _ | ⟨x, idle⟩
        · simp only [List.nil_append, List.cons.injEq] at h2
          obtain ⟨rfl, rfl⟩ := h2
          exfalso
          rcases h5 with h5 | h5
          · exact h5 hc.1
          · simp [ticks_sum] at h5
            omega
        · simp only [List.cons_append, List.cons.injEq] at h2
          obtain ⟨rfl, rfl⟩ := h2
          rw [ticks_sum_cons] at h4 h5
          refine ⟨idle, e2, rfl, fun y hy => h3 y (List.mem_cons_of_mem _ hy), ?_, ?_, h6, ?_⟩
          · rw [hT]; omega
          · rw [hT]
            rcases h5 with h5 | h5
            · exact Or.inl h5
            · right; omega
          · rw [h7]; rfl
    · rw [if_neg hc]
      simp only [Option.some.injEq, Prod.mk.injEq]
      constructor
      · rintro ⟨rfl, rfl, rfl⟩
        refine ⟨[], e, rfl, by simp, by simpa [ticks_sum] using h0, ?_, rfl, rfl⟩
        by_cases hv : e.val = 0xFF
        · right
          have : ¬ (exch 0xFF e s).Timer1 ≠ 0 := fun h => hc ⟨hv, h⟩
          rw [hT] at this
          simp only [ticks_sum, List.map_nil, List.sum_nil]
          omega
        · exact Or.inl hv
      · rintro ⟨idle, e2, h2, h3, h4, h5, h6, h7⟩
        rcases idle with _ | ⟨x, idle⟩
        · simp only [List.nil_append, List.cons.injEq] at h2
          obtain ⟨rfl, rfl⟩ := h2
          exact ⟨h6.symm, h7.symm, rfl⟩
        · simp only [List.cons_append, List.cons.injEq] at h2
          obtain ⟨rfl, rfl⟩ := h2
          exfalso
          apply hc
          refine ⟨h3 e (List.mem_cons_self _ _), ?_⟩
          rw [hT, ticks_sum_cons] at *
          omega

/-- Every call of `rcvr_datablock` for an even length that returns reads idle bytes, a token
and, when the token is `0xFE`, the data and two more bytes; and every such stream makes the
call return. -/
theorem rcvr_datablock_spec (buff : List Nat) (off m : Nat) (s : Drv) (inp : List Event)
    (hm : 2 * (m + 1) < 4294967296) (ok : Bool) (b1 : List Nat) (s1 : Drv)
    (rest : List Event) :
    rcvr_datablock buff off (2 * (m + 1)) s inp = some (ok, b1, s1, rest) ↔
      ∃ idle tok, (∀ x ∈ idle, x.val = 0xFF) ∧ ticks_sum idle < 200 ∧
        (tok.val ≠ 0xFF ∨ 200 ≤ ticks_sum idle + tok.ticks) ∧
        ((tok.val = 0xFE ∧ ok = true ∧ ∃ data c1 c2, data.length = 2 * (m + 1) ∧
            inp = idle ++ tok :: (data ++ c1 :: c2 :: rest) ∧
            b1 = store buff off (data.map Event.val) ∧
            s1 = clock { s with Timer1 := 200 } (idle ++ tok :: (data ++ [c1, c2]))) ∨
         (tok.val ≠ 0xFE ∧ ok = false ∧ inp = idle ++ tok :: rest ∧ b1 = buff ∧
            s1 = clock { s with Timer1 := 200 } (idle ++ [tok]))) := by
  have hspec := rcvr_token_loop_spec inp { s with Timer1 := 200 }
    (show 0 < 200 by decide) (show 200 < 65536 by decide)
  simp only at hspec
  constructor
  · intro h
    unfold rcvr_datablock at h
    split at h
    · simp at h
    · rename_i tok s2 i2 ht
      obtain ⟨idle, e, h1, h2, h3, h4, h5, h6⟩ := (hspec _ _ _).mp ht
      refine ⟨idle, e, h2, h3, h4, ?_⟩
      split at h
      · rename_i htok
        simp only [Option.some.injEq, Prod.mk.injEq] at h
        obtain ⟨rfl, rfl, rfl, rfl⟩ := h
        exact Or.inr ⟨by rw [← h5]; exact htok, rfl, h1, rfl, h6⟩
      · rename_i htok
        rw [rcvr_spi_multi_eq m _ _ _ _ hm] at h
        by_cases hl : 2 * (m + 1) ≤ i2.length
        · rw [if_pos hl] at h
          simp only at h
          split at h
          · simp at h
          · rename_i x s4 i4 hx
            split at h
            · simp at h
            · rename_i y s5 i5 hy
              simp only [Option.some.injEq, Prod.mk.injEq] at h
              obtain ⟨rfl, rfl, rfl, rfl⟩ := h
              obtain ⟨c1, hc1, -, rfl⟩ := xchg_some hx
              obtain ⟨c2, hc2, -, rfl⟩ := xchg_some hy
              have hi : i2 = i2.take (2 * (m + 1)) ++ c1 :: c2 :: i5 := by
                have := List.take_append_drop (2 * (m + 1)) i2
                rw [hc1, hc2] at this
                exact this.symm
              refine Or.inl ⟨by rw [← h5]; exact not_not.mp htok, rfl,
                i2.take (2 * (m + 1)), c1, c2, ?_, ?_, rfl, ?_⟩
              · simp [List.length_take, hl]
              · rw [h1]
                congr 2
              · rw [h6]
                simp [clock, List.foldl_append]
        · rw [if_neg hl] at h
          simp at h
  · rintro ⟨idle, tok, h2, h3, h4, h | h⟩
    · obtain ⟨htok, rfl, data, c1, c2, hd, rfl, rfl, rfl⟩ := h
      have ht := (hspec tok.val (clock { s with Timer1 := 200 } (idle ++ [tok]))
        (data ++ c1 :: c2 :: rest)).mpr ⟨idle, tok, rfl, h2, h3, h4, rfl, rfl⟩
      unfold rcvr_datablock
      rw [ht]
      simp only [ne_eq, htok, not_true_eq_false, if_false]
      rw [rcvr_spi_multi_eq m _ _ _ _ hm, if_pos (by simp [hd])]
      have e1 : (data ++ c1 :: c2 :: rest).take (2 * (m + 1)) = data := by
        rw [← hd]; simp
      have e2 : (data ++ c1 :: c2 :: rest).drop (2 * (m + 1)) = c1 :: c2 :: rest := by
        rw [← hd]; simp
      rw [e1, e2]
      simp only [SPI_u8ExchangeByte]
      simp [clock, List.foldl_append]
    · obtain ⟨htok, rfl, rfl, rfl, rfl⟩ := h
      have ht := (hspec tok.val (clock { s with Timer1 := 200 } (idle ++ [tok]))
        rest).mpr ⟨idle, tok, rfl, h2, h3, h4, rfl, rfl⟩
      unfold rcvr_datablock
      rw [ht]
      simp only [ne_eq, htok, not_false_eq_true, if_true]

theorem xmit_clock_log (buff : List Nat) (off : Nat) (s : Drv) (es : List Event) :
    (xmit_clock buff off s es).log = s.log ++ data_trace buff off es := by
  induction es generalizing off s with
  | nil => simp [xmit_clock, data_trace]
  | cons e es ih =>
    rw [xmit_clock, ih, exch_log]
    simp [data_trace, Event.val]

theorem data_trace_sent (buff : List Nat) (off : Nat) (es : List Event) :
    sent (data_trace buff off es) = slice buff off es.length := by
  induction es generalizing off with
  | nil => rfl
  | cons e es ih =>
    rw [data_trace, List.length_cons, slice, ← ih]
    rfl

theorem xmit_spi_multi_eq : ∀ (m : Nat) (buff : List Nat) (off : Nat) (s : Drv)
    (inp : List Event), 2 * (m + 1) < 4294967296 →
    xmit_spi_multi buff off (2 * (m + 1)) s inp =
      if 2 * (m + 1) ≤ inp.length then
        some (xmit_clock buff off s (inp.take (2 * (m + 1))), inp.drop (2 * (m + 1)))
      else none := by
  intro m
  induction m with
  | zero =>
    intro buff off s inp _
    rcases inp with _ | ⟨e1, _ | ⟨e2, r⟩⟩
    · simp [xmit_spi_multi]
    · simp [xmit_spi_multi]
    · simp [xmit_spi_multi, xmit_clock]
  | succ m ih =>
    intro buff off s inp hm
    rcases inp with _ | ⟨e1, _ | ⟨e2, r⟩⟩
    · simp [xmit_spi_multi]
    · have : ¬ 2 * (m + 1 + 1) ≤ [e1].length := by simp only [List.length_singleton]; omega
      rw [if_neg this]
      simp [xmit_spi_multi]
    · have hb : (2 * (m + 1 + 1) + 4294967296 - 2) % 4294967296 = 2 * (m + 1) := by omega
      have hne : 2 * (m + 1) ≠ 0 := by omega
      rw [xmit_spi_multi]
      simp only [hb, ne_eq, hne, not_false_eq_true, if_true]
      rw [ih _ _ _ _ (by omega)]
      have e : 2 * (m + 1 + 1) = 2 * (m + 1) + 1 + 1 := by omega
      by_cases hl : 2 * (m + 1) ≤ r.length
      · have hl2 : 2 * (m + 1 + 1) ≤ (e1 :: e2 :: r).length := by simp only [List.length_cons]; omega
        rw [if_pos hl, if_pos hl2, e]
        simp [xmit_clock]
      · have hl2 : ¬ 2 * (m + 1 + 1) ≤ (e1 :: e2 :: r).length := by
          simp only [List.length_cons]; omega
        rw [if_neg hl, if_neg hl2]

theorem xmit_spi_multi_block (buff : List Nat) (off : Nat) (s : Drv) (inp : List Event) :
    xmit_spi_multi buff off 512 s inp =
      if 512 ≤ inp.length then some (xmit_clock buff off s (inp.take 512), inp.drop 512)
      else none :=
  xmit_spi_multi_eq 255 buff off s inp (by decide)

/-- The ready wait with a running timer: the call returns exactly on the streams that begin
with bytes other than `0xFF` during which the timer keeps running (`waits`), followed by a byte
`e` that is `0xFF` or during which the timer reaches zero. -/
theorem wait_ready_loop_spec : ∀ (inp : List Event) (s : Drv), 0 < s.Timer2 → s.Timer2 < 65536 →
    ∀ (d : Nat) (s1 : Drv) (rest : List Event),
    (wait_ready_loop s inp = some (d, s1, rest) ↔
      ∃ waits e, inp = waits ++ e :: rest ∧ (∀ x ∈ waits, x.val ≠ 0xFF) ∧
        ticks_sum waits < s.Timer2 ∧ (e.val = 0xFF ∨ s.Timer2 ≤ ticks_sum waits + e.ticks) ∧
        d = e.val ∧ s1 = clock s (waits ++ [e]))
  | [], s, _, _, tok, s1, rest => by
    simp [wait_ready_loop]
  | e :: r, s, h0, h1, tok, s1, rest => by
    have hT := exch_Timer2 0xFF e s h1
    simp only [wait_ready_loop]
    by_cases hc : e.byte % 256 ≠ 0xFF ∧ (exch 0xFF e s).Timer2 ≠ 0
    · rw [if_pos hc]
      have hlt : e.ticks < s.Timer2 := by
        have := hc.2
        rw [hT] at this
        omega
      rw [wait_ready_loop_spec r (exch 0xFF e s) (by rw [hT]; omega) (by rw [hT]; omega)]
      constructor
      · rintro ⟨idle, e2, rfl, h2, h3, h4, h5, h6⟩
        refine ⟨e :: idle, e2, rfl, ?_, ?_, ?_, h5, ?_⟩
        · intro x hx
          rcases List.mem_cons.mp hx with rfl | hx
          · exact hc.1
          · exact h2 x hx
        · rw [ticks_sum_cons]
          rw [hT] at h3
          omega
        · rw [ticks_sum_cons]
          rw [hT] at h4
          rcases h4 with h4 | h4
          · exact Or.inl h4
          · right; omega
        · rw [h6]; rfl
      · rintro ⟨idle, e2, h2, h3, h4, h5, h6, h7⟩
        rcases idle with _ | ⟨x, idle⟩
        · simp only [List.nil_append, List.cons.injEq] at h2
          obtain ⟨rfl, rfl⟩ := h2
          exfalso
          rcases h5 with h5 | h5
          · exact hc.1 h5
          · simp [ticks_sum] at h5
            omega
        · simp only [List.cons_append, List.cons.injEq] at h2
          obtain ⟨rfl, rfl⟩ := h2
          rw [ticks_sum_cons] at h4 h5
          refine ⟨idle, e2, rfl, fun y hy => h3 y (List.mem_cons_of_mem _ hy), ?_, ?_, h6, ?_⟩
          · rw [hT]; omega
          · rw [hT]
            rcases h5 with h5 | h5
            · exact Or.inl h5
            · right; omega
          · rw [h7]; rfl
    · rw [if_neg hc]
      simp only [Option.some.injEq, Prod.mk.injEq]
      constructor
      · rintro ⟨rfl, rfl, rfl⟩
        refine ⟨[], e, rfl, by simp, by simpa [ticks_sum] using h0, ?_, rfl, rfl⟩
        by_cases hv : e.val = 0xFF
        · exact Or.inl hv
        · right
          have : ¬ (exch 0xFF e s).Timer2 ≠ 0 := fun h => hc ⟨hv, h⟩
          rw [hT] at this
          simp only [ticks_sum, List.map_nil, List.sum_nil]
          omega
      · rintro ⟨idle, e2, h2, h3, h4, h5, h6, h7⟩
        rcases idle with _ | ⟨x, idle⟩
        · simp only [List.nil_append, List.cons.injEq] at h2
          obtain ⟨rfl, rfl⟩ := h2
          exact ⟨h6.symm, h7.symm, rfl⟩
        · simp only [List.cons_append, List.cons.injEq] at h2
          obtain ⟨rfl, rfl⟩ := h2
          exfalso
          apply hc
          refine ⟨h3 e (List.mem_cons_self _ _), ?_⟩
          rw [hT, ticks_sum_cons] at *
          omega

/-- The ready wait of 500 ms: `wait_ready(500)` returns exactly on the streams `waits ++ e ::
rest` of `wait_ready_loop_spec`, with 1 when `e` is `0xFF` and 0 otherwise. -/
theorem wait_ready_spec (s : Drv) (inp : List Event) (b : Bool) (s1 : Drv) (rest : List Event) :
    wait_ready 500 s inp = some (b, s1, rest) ↔
      ∃ waits e, inp = waits ++ e :: rest ∧ (∀ x ∈ waits, x.val ≠ 0xFF) ∧
        ticks_sum waits < 500 ∧ (e.val = 0xFF ∨ 500 ≤ ticks_sum waits + e.ticks) ∧
        b = decide (e.val = 0xFF) ∧ s1 = clock { s with Timer2 := 500 } (waits ++ [e]) := by
  have hspec := wait_ready_loop_spec inp { s with Timer2 := 500 }
    (show 0 < 500 by decide) (show 500 < 65536 by decide)
  simp only at hspec
  unfold wait_ready
  constructor
  · intro h
    split at h
    · simp at h
    · rename_i d s2 i2 hd
      simp only [Option.some.injEq, Prod.mk.injEq] at h
      obtain ⟨rfl, rfl, rfl⟩ := h
      obtain ⟨waits, e, h1, h2, h3, h4, h5, h6⟩ := (hspec _ _ _).mp hd
      exact ⟨waits, e, h1, h2, h3, h4, by rw [h5], h6⟩
  · rintro ⟨waits, e, h1, h2, h3, h4, rfl, rfl⟩
    rw [(hspec e.val _ rest).mpr ⟨waits, e, h1, h2, h3, h4, rfl, rfl⟩]

/-- Every call of `xmit_datablock` that returns polled the card (`waits`, `e`) and then either
gave up, or sent the token alone (`0xFD`), or sent the token, 512 data bytes and two bytes
`0xFF` and read one response byte; and every such stream makes the call return. -/
theorem xmit_datablock_spec (buff : List Nat) (off token : Nat) (s : Drv) (inp : List Event)
    (ok : Bool) (s1 : Drv) (rest : List Event) :
    xmit_datablock buff off token s inp = some (ok, s1, rest) ↔
      ∃ waits e, (∀ x ∈ waits, x.val ≠ 0xFF) ∧ ticks_sum waits < 500 ∧
        ((e.val ≠ 0xFF ∧ 500 ≤ ticks_sum waits + e.ticks ∧ ok = false ∧
            inp = waits ++ e :: rest ∧
            s1 = clock { s with Timer2 := 500 } (waits ++ [e])) ∨
         (e.val = 0xFF ∧ token = 0xFD ∧ ok = true ∧ ∃ eT, inp = waits ++ e :: eT :: rest ∧
            s1 = exch 0xFD eT (clock { s with Timer2 := 500 } (waits ++ [e]))) ∨
         (e.val = 0xFF ∧ token ≠ 0xFD ∧ ∃ eT data c1 c2 r, data.length = 512 ∧
            inp = waits ++ e :: eT :: (data ++ c1 :: c2 :: r :: rest) ∧
            ok = decide (r.val &&& 0x1F = 0x05) ∧
            s1 = exch 0xFF r (exch 0xFF c2 (exch 0xFF c1 (xmit_clock buff off
              (exch token eT (clock { s with Timer2 := 500 } (waits ++ [e]))) data))))) := by
  constructor
  · intro h
    unfold xmit_datablock at h
    split at h
    · simp at h
    · rename_i s2 i2 hw
      obtain ⟨waits, e, h1, h2, h3, h4, h5, h6⟩ := (wait_ready_spec _ _ _ _ _).mp hw
      simp only [Option.some.injEq, Prod.mk.injEq] at h
      obtain ⟨rfl, rfl, rfl⟩ := h
      have hv : e.val ≠ 0xFF := by simpa using h5.symm
      refine ⟨waits, e, h2, h3, Or.inl ⟨hv, ?_, rfl, h1, h6⟩⟩
      rcases h4 with h4 | h4
      · exact absurd h4 hv
      · exact h4
    · rename_i s2 i2 hw
      obtain ⟨waits, e, h1, h2, h3, h4, h5, h6⟩ := (wait_ready_spec _ _ _ _ _).mp hw
      have hv : e.val = 0xFF := by simpa using h5.symm
      refine ⟨waits, e, h2, h3, Or.inr ?_⟩
      split at h
      · simp at h
      · rename_i x s3 i3 hx
        obtain ⟨eT, hT, -, rfl⟩ := xchg_some hx
        by_cases ht : token = 0xFD
        · rw [if_neg (by simpa using ht)] at h
          simp only [Option.some.injEq, Prod.mk.injEq] at h
          obtain ⟨rfl, rfl, rfl⟩ := h
          refine Or.inl ⟨hv, ht, rfl, eT, by rw [h1, hT], ?_⟩
          rw [h6, ht]
        · rw [if_pos ht, xmit_spi_multi_block] at h
          by_cases hl : 512 ≤ i3.length
          · rw [if_pos hl] at h
            simp only at h
            split at h
            · simp at h
            · rename_i y1 s4 i4 hy1
              obtain ⟨c1, hc1, -, rfl⟩ := xchg_some hy1
              split at h
              · simp at h
              · rename_i y2 s5 i5 hy2
                obtain ⟨c2, hc2, -, rfl⟩ := xchg_some hy2
                split at h
                · simp at h
                · rename_i resp s6 i6 hy3
                  obtain ⟨r, hr, hresp, rfl⟩ := xchg_some hy3
                  have hi : i3 = i3.take 512 ++ c1 :: c2 :: r :: i6 := by
                    have := List.take_append_drop 512 i3
                    rw [hc1, hc2, hr] at this
                    exact this.symm
                  have hfin : ok = decide (r.val &&& 0x1F = 0x05) ∧
                      exch 0xFF r (exch 0xFF c2 (exch 0xFF c1
                        (xmit_clock buff off (exch token eT s2) (i3.take 512)))) = s1 ∧
                      i6 = rest := by
                    rw [Event.val, ← hresp]
                    split at h
                    · rename_i hne
                      simp only [Option.some.injEq, Prod.mk.injEq] at h
                      obtain ⟨rfl, e1, e2⟩ := h
                      exact ⟨by simpa using hne, e1, e2⟩
                    · rename_i hne
                      simp only [Option.some.injEq, Prod.mk.injEq] at h
                      obtain ⟨rfl, e1, e2⟩ := h
                      exact ⟨by simpa using hne, e1, e2⟩
                  obtain ⟨hok, hs1, rfl⟩ := hfin
                  refine Or.inr ⟨hv, ht, eT, i3.take 512, c1, c2, r, ?_, ?_, hok, ?_⟩
                  · simp [List.length_take, hl]
                  · rw [h1, hT]
                    congr 3
                  · rw [← hs1, h6]
          · rw [if_neg hl] at h
            simp at h
  · rintro ⟨waits, e, h2, h3, h | h | h⟩
    · obtain ⟨hv, h4, rfl, rfl, rfl⟩ := h
      have hw := (wait_ready_spec s (waits ++ e :: rest) false _ rest).mpr
        ⟨waits, e, rfl, h2, h3, Or.inr h4, by simp [hv], rfl⟩
      unfold xmit_datablock
      rw [hw]
    · obtain ⟨hv, rfl, rfl, eT, rfl, rfl⟩ := h
      have hw := (wait_ready_spec s (waits ++ e :: eT :: rest) true _ (eT :: rest)).mpr
        ⟨waits, e, rfl, h2, h3, Or.inl hv, by simp [hv], rfl⟩
      unfold xmit_datablock
      rw [hw]
      simp [SPI_u8ExchangeByte]
    · obtain ⟨hv, ht, eT, data, c1, c2, r, hd, rfl, rfl, rfl⟩ := h
      have hw := (wait_ready_spec s (waits ++ e :: eT :: (data ++ c1 :: c2 :: r :: rest)) true _
        (eT :: (data ++ c1 :: c2 :: r :: rest))).mpr
        ⟨waits, e, rfl, h2, h3, Or.inl hv, by simp [hv], rfl⟩
      unfold xmit_datablock
      rw [hw]
      simp only [SPI_u8ExchangeByte, ne_eq, ht, not_false_eq_true, if_true]
      rw [xmit_spi_multi_block, if_pos (by simp [hd])]
      have e1 : (data ++ c1 :: c2 :: r :: rest).take 512 = data := by
        rw [← hd]; simp
      have e2 : (data ++ c1 :: c2 :: r :: rest).drop 512 = c1 :: c2 :: r :: rest := by
        rw [← hd]; simp
      rw [e1, e2]
      simp only [SPI_u8ExchangeByte, Event.val]
      by_cases hr : r.byte % 256 &&& 0x1F = 0x05
      · simp [hr]
      · simp [hr]

/-- The trace of a data block sent after the ready polls `es`: the polls, the token, the data
and three dummy exchanges. -/
theorem xmit_block_log (buff : List Nat) (off token : Nat) (s : Drv) (es data : List Event)
    (eT c1 c2 r : Event) :
    (exch 0xFF r (exch 0xFF c2 (exch 0xFF c1 (xmit_clock buff off
      (exch token eT (clock { s with Timer2 := 500 } es)) data)))).log
      = s.log ++ polls es ++ [Action.xchg token eT.val] ++ data_trace buff off data ++
        polls [c1, c2, r] := by
  rw [exch_log, exch_log, exch_log, xmit_clock_log, exch_log, clock_log]
  simp [polls, Event.val]

/-- The trace of a stop token sent after the ready polls `es`. -/
theorem xmit_stop_token_log (s : Drv) (es : List Event) (eT : Event) :
    (exch 0xFD eT (clock { s with Timer2 := 500 } es)).log
      = s.log ++ polls es ++ [Action.xchg 0xFD eT.val] := by
  rw [exch_log, clock_log]
  rfl

/-! ## The claims -/

/-- C1: when `disk_initialize(0)` runs with a card present, `STA_NOINIT` is clear in the
returned status exactly when a card type was established, `disk_status(0)` called afterwards
returns the same value, and when CMD0 does not answer 1 the call returns with `CardType = 0`
and the status exactly `STA_NOINIT`. -/
theorem C1_initialize_status (s : Drv) (inp : List Event) (hdisk : s.Stat &&& STA_NODISK = 0) :
    (∀ r s1 rest, disk_initialize 0 s inp = some (r, s1, rest) →
      (r &&& STA_NOINIT = 0 ↔ s1.CardType ≠ 0) ∧ disk_status 0 s1 = r) ∧
    (∀ sd id r0 s0 i0 sE iE, dummy_clocks 10 s inp = some ((), sd, id) →
      send_cmd CMD0 0 sd id = some (r0, s0, i0) → r0 ≠ 1 →
      deselect { s0 with CardType := 0 } i0 = some ((), sE, iE) →
      disk_initialize 0 s inp = some (STA_NOINIT, { sE with Stat := STA_NOINIT }, iE) ∧
      sE.CardType = 0) := by
  constructor
  · intro r s1 rest h
    unfold disk_initialize at h
    simp only [ne_eq, not_true_eq_false, if_false, hdisk] at h
    split at h
    · simp at h
    · rename_i u sd id hd
      split at h
      · simp at h
      · rename_i ty st it ht
        split at h
        · simp at h
        · rename_i u2 sE iE hE
          have hct := deselect_CardType hE
          simp only [Option.some.injEq, Prod.mk.injEq] at h
          obtain ⟨hr, hs, -⟩ := h
          by_cases hty : ty = 0
          · subst hty
            simp only [not_true_eq_false, if_false] at hr hs
            subst hs
            subst hr
            simp [disk_status, hct]
          · simp only [hty, not_false_eq_true, if_true] at hr hs
            subst hs
            subst hr
            simp only [disk_status, ne_eq, not_true_eq_false, if_false, and_true]
            simp only [hct]
            exact ⟨fun _ => hty, fun _ => and_254_and_1 _⟩
  · intro sd id r0 s0 i0 sE iE hd h0 hr hE
    have hct := deselect_CardType hE
    refine ⟨?_, hct⟩
    unfold disk_initialize
    simp only [ne_eq, not_true_eq_false, if_false, hdisk, hd]
    have hty : init_card_type sd id = some (0, s0, i0) := by
      unfold init_card_type
      rw [h0]
      simp [hr]
    simp [hty, hE]

/-- Witness of C1 at power-up state: an SD v2 card that initialises, and a card that rejects
CMD0. -/
theorem C1_initialize_status_witness :
    Drv.init.Stat &&& STA_NODISK = 0 ∧
    (∃ r s1 rest, disk_initialize 0 Drv.init sdv2_stream = some (r, s1, rest) ∧
      (r &&& STA_NOINIT = 0 ↔ s1.CardType ≠ 0) ∧ disk_status 0 s1 = r) ∧
    (∃ (sE : Drv) (iE : List Event), disk_initialize 0 Drv.init reject_stream
        = some (STA_NOINIT, { sE with Stat := STA_NOINIT }, iE) ∧ sE.CardType = 0) := by
  refine ⟨by decide, ?_, ?_⟩
  · obtain ⟨⟨r, s1, rest⟩, hres⟩ : ∃ x, disk_initialize 0 Drv.init sdv2_stream = some x :=
      Option.isSome_iff_exists.mp (by decide)
    exact ⟨r, s1, rest, hres, (C1_initialize_status Drv.init sdv2_stream (by decide)).1 r s1 rest hres⟩
  · have hd : dummy_clocks 10 Drv.init reject_stream
        = some ((), (exch 0xFF ⟨0xFF, 0⟩)^[10] Drv.init, answer 5 ++ quiet [0xFF]) := by decide
    obtain ⟨⟨r0, s0, i0⟩, h0⟩ : ∃ x, send_cmd CMD0 0 ((exch 0xFF ⟨0xFF, 0⟩)^[10] Drv.init)
        (answer 5 ++ quiet [0xFF]) = some x := Option.isSome_iff_exists.mp (by decide)
    have hr : r0 = 5 ∧ i0 = quiet [0xFF] := by
      have h := congrArg (Option.map fun x => (x.1, x.2.2)) h0
      have h2 : (send_cmd CMD0 0 ((exch 0xFF ⟨0xFF, 0⟩)^[10] Drv.init)
          (answer 5 ++ quiet [0xFF])).map (fun x => (x.1, x.2.2)) = some (5, quiet [0xFF]) := by
        decide
      rw [h2] at h
      simp only [Option.map_some', Option.some.injEq, Prod.mk.injEq] at h
      exact ⟨h.1.symm, h.2.symm⟩
    obtain ⟨rfl, rfl⟩ := hr
    exact ⟨_, _, (C1_initialize_status Drv.init reject_stream (by decide)).2 _ _ 5 s0 _ _ _ hd h0
      (by decide) rfl⟩

/-- C5: for every drive index other than 0, `disk_read`, `disk_write` and `disk_ioctl` return
`RES_PARERR`; no byte is exchanged, no chip-select action happens, and the driver state, the
caller's buffer and the incoming stream are untouched. -/
theorem C5_bad_drive (c : IoctlCodes) (depth drv cmd sector count : Nat) (buff : List Nat)
    (s : Drv) (inp : List Event) (hdrv : drv ≠ 0) :
    disk_read drv buff sector count s inp = some (RES_PARERR, buff, s, inp) ∧
    disk_write drv buff sector count s inp = some (RES_PARERR, s, inp) ∧
    disk_ioctl c (depth + 1) drv cmd buff s inp = some (RES_PARERR, buff, s, inp) := by
  refine ⟨?_, ?_, ?_⟩
  · simp [disk_read, hdrv]
  · simp [disk_write, hdrv]
  · simp [disk_ioctl, hdrv]

/-- Witness of C5: drive 1 on an initialised SD v2 card. -/
theorem C5_bad_drive_witness :
    (1 : Nat) ≠ 0 ∧
    disk_read 1 [7] 5 1 { Drv.init with Stat := 0, CardType := 12 } sdv2_stream
      = some (RES_PARERR, [7], { Drv.init with Stat := 0, CardType := 12 }, sdv2_stream) ∧
    disk_write 1 [7] 5 1 { Drv.init with Stat := 0, CardType := 12 } sdv2_stream
      = some (RES_PARERR, { Drv.init with Stat := 0, CardType := 12 }, sdv2_stream) ∧
    disk_ioctl fatfsCodes (0 + 1) 1 0 [7] { Drv.init with Stat := 0, CardType := 12 } sdv2_stream
      = some (RES_PARERR, [7], { Drv.init with Stat := 0, CardType := 12 }, sdv2_stream) :=
  ⟨by decide, C5_bad_drive fatfsCodes 0 1 0 5 1 [7] _ sdv2_stream (by decide)⟩

/-- C6 as stated fails: for drive 1, `disk_initialize` and `disk_status` return the status
value `STA_NOINIT`, which is not the value of the result code `RES_PARERR`. -/
theorem C6_counterexample :
    disk_initialize 1 Drv.init sdv2_stream = some (STA_NOINIT, Drv.init, sdv2_stream) ∧
    disk_status 1 Drv.init = STA_NOINIT ∧ STA_NOINIT ≠ DRESULT.toNat RES_PARERR := by
  decide

/-- C6 amended: for every drive index other than 0, `disk_initialize` and `disk_status` return
the status `STA_NOINIT`; no byte is exchanged and the driver state is unchanged. -/
theorem C6_bad_drive_status (drv : Nat) (s : Drv) (inp : List Event) (hdrv : drv ≠ 0) :
    disk_initialize drv s inp = some (STA_NOINIT, s, inp) ∧ disk_status drv s = STA_NOINIT := by
  constructor
  · simp [ disk_initialize, hdrv]
  · simp [disk_status, hdrv]

/-- Witness of C6 amended: drive 3 on an initialised card. -/
theorem C6_bad_drive_status_witness :
    (3 : Nat) ≠ 0 ∧
    disk_initialize 3 { Drv.init with Stat := 0, CardType := 12 } sdv2_stream
      = some (STA_NOINIT, { Drv.init with Stat := 0, CardType := 12 }, sdv2_stream) ∧
    disk_status 3 { Drv.init with Stat := 0, CardType := 12 } = STA_NOINIT :=
  ⟨by decide, C6_bad_drive_status 3 _ sdv2_stream (by decide)⟩

/-- C7: with `count == 0`, `disk_read` and `disk_write` return `RES_PARERR` for every drive
index and every drive status, exchange nothing and leave state, buffer and stream untouched. -/
theorem C7_zero_count (drv sector : Nat) (buff : List Nat) (s : Drv) (inp : List Event) :
    disk_read drv buff sector 0 s inp = some (RES_PARERR, buff, s, inp) ∧
    disk_write drv buff sector 0 s inp = some (RES_PARERR, s, inp) := by
  constructor
  · simp [disk_read]
  · simp [disk_write]

/-- C8: on drive 0 with `count >= 1`, a set `STA_NOINIT` makes `disk_read`, `disk_write` and
`disk_ioctl` (any command code) return `RES_NOTRDY`, and a set `STA_PROTECT` with `STA_NOINIT`
clear makes `disk_write` return `RES_WRPRT`; both rejections exchange nothing and change
nothing. `disk_read` is not rejected by `STA_PROTECT`: whenever it returns, the result is
`RES_OK` or `RES_ERROR` and the bus was driven, starting with a deselect. -/
theorem C8_not_ready_write_protect (c : IoctlCodes) (depth cmd sector count : Nat)
    (buff : List Nat) (s : Drv) (inp : List Event) (hcount : 1 ≤ count) :
    (s.Stat &&& STA_NOINIT ≠ 0 →
      disk_read 0 buff sector count s inp = some (RES_NOTRDY, buff, s, inp) ∧
      disk_write 0 buff sector count s inp = some (RES_NOTRDY, s, inp) ∧
      disk_ioctl c (depth + 1) 0 cmd buff s inp = some (RES_NOTRDY, buff, s, inp)) ∧
    (s.Stat &&& STA_NOINIT = 0 → s.Stat &&& STA_PROTECT ≠ 0 →
      disk_write 0 buff sector count s inp = some (RES_WRPRT, s, inp) ∧
      ∀ r b1 s1 rest, disk_read 0 buff sector count s inp = some (r, b1, s1, rest) →
        (r = RES_OK ∨ r = RES_ERROR) ∧ ∃ l, s1.log = s.log ++ Action.desel :: l) := by
  have hc : count ≠ 0 := by omega
  refine ⟨fun hn => ⟨?_, ?_, ?_⟩, fun hn hp => ⟨?_, ?_⟩⟩
  · simp only [disk_read, ne_eq, not_true_eq_false, hc, or_self, if_false, hn, not_false_eq_true,
      if_true]
  · simp only [disk_write, ne_eq, not_true_eq_false, hc, or_self, if_false, hn,
      not_false_eq_true, if_true]
  · simp only [disk_ioctl, ne_eq, not_true_eq_false, if_false, hn, not_false_eq_true, if_true]
  · simp only [disk_write, ne_eq, not_true_eq_false, hc, or_self, if_false, hn, hp,
      not_false_eq_true, if_true]
  · intro r b1 s1 rest h
    exact disk_read_result hc hn h

/-- Witness of C8: a write-protected, initialised card still reads a block. -/
theorem C8_not_ready_write_protect_witness :
    (1 : Nat) ≤ 1 ∧
    disk_ioctl fatfsCodes (0 + 1) 0 fatfsCodes.CTRL_SYNC [] Drv.init sdv2_stream
      = some (RES_NOTRDY, [], Drv.init, sdv2_stream) ∧
    disk_write 0 (List.replicate 512 0) 5 1 { sd_card with Stat := STA_PROTECT }
      (single_read_stream 7)
      = some (RES_WRPRT, { sd_card with Stat := STA_PROTECT }, single_read_stream 7) ∧
    ∃ b1 s1 rest, disk_read 0 (List.replicate 512 0) 5 1 { sd_card with Stat := STA_PROTECT }
      (single_read_stream 7) = some (RES_OK, b1, s1, rest) ∧
      ∃ l, s1.log = Action.desel :: l := by
  refine ⟨by decide, ?_, ?_, ?_⟩
  · exact ((C8_not_ready_write_protect fatfsCodes 0 fatfsCodes.CTRL_SYNC 5 1 [] Drv.init
      sdv2_stream (by decide)).1 (by decide)).2.2
  · exact ((C8_not_ready_write_protect fatfsCodes 0 0 5 1 (List.replicate 512 0)
      { sd_card with Stat := STA_PROTECT } (single_read_stream 7) (by decide)).2
      (by decide) (by decide)).1
  · have hok := single_read_ok
    cases hres : disk_read 0 (List.replicate 512 0) 5 1 { sd_card with Stat := STA_PROTECT }
        (single_read_stream 7) with
    | none => rw [hres] at hok; cases hok
    | some x =>
      obtain ⟨r, b1, s1, rest⟩ := x
      rw [hres] at hok
      simp only [Option.map_some', Option.some.injEq, Prod.mk.injEq] at hok
      obtain ⟨rfl, -⟩ := hok
      exact ⟨b1, s1, rest, rfl, ((C8_not_ready_write_protect fatfsCodes 0 0 5 1
        (List.replicate 512 0) { sd_card with Stat := STA_PROTECT } (single_read_stream 7)
        (by decide)).2 (by decide) (by decide)).2 _ b1 s1 rest hres |>.2⟩

/-- C10 on the code: `CTRL_TRIM` on an initialised SD card never reaches the erase commands.
The CSD request of line 456 is `disk_ioctl(drv, MMC_GET_CSD, csd)`, the `switch` has no
`MMC_GET_CSD` case, so the inner call deselects and returns `RES_PARERR`, and the outer call
breaks with `RES_ERROR`: the whole bus traffic is two deselects with their dummy clock. -/
theorem C10_trim_never_erases (c : IoctlCodes) (depth : Nat) (buff : List Nat) (s : Drv)
    (e1 e2 : Event) (rest : List Event) (hc : c.Distinct) (hinit : s.Stat &&& STA_NOINIT = 0)
    (hsd : s.CardType &&& CT_SDC ≠ 0) :
    disk_ioctl c (depth + 2) 0 c.CTRL_TRIM buff s (e1 :: e2 :: rest)
      = some (RES_ERROR, buff, exch 0xFF e2 (SPI_vDeselect (exch 0xFF e1 (SPI_vDeselect s))),
          rest) := by
  obtain ⟨h1, h2, h3, h4, h5, h6, h7, h8, h9, h10⟩ := hc
  have hin : disk_ioctl c (depth + 1) 0 c.MMC_GET_CSD (List.replicate 16 0) s (e1 :: e2 :: rest)
      = some (RES_PARERR, List.replicate 16 0, exch 0xFF e1 (SPI_vDeselect s), e2 :: rest) := by
    simp only [disk_ioctl, ne_eq, not_true_eq_false, if_false, hinit, h7, h8, h9, h10, deselect,
      SPI_u8ExchangeByte]
  rw [disk_ioctl]
  simp only [ne_eq, not_true_eq_false, if_false, hinit, h3.symm, h5.symm, h6.symm, if_true, hsd,
    hin, reduceCtorEq, not_false_eq_true, deselect, SPI_u8ExchangeByte]

/-- Witness of C10 on the code, with the control codes of the FatFs distribution: an
initialised SD v2 card that idles at `0xFF`; trim of sectors 0..7. -/
theorem C10_trim_never_erases_witness :
    fatfsCodes.Distinct ∧ sd_card.Stat &&& STA_NOINIT = 0 ∧ sd_card.CardType &&& CT_SDC ≠ 0 ∧
    disk_ioctl fatfsCodes (0 + 2) 0 fatfsCodes.CTRL_TRIM [0, 7] sd_card
        (quiet [0xFF, 0xFF] ++ quiet (List.replicate 40 0xFF))
      = some (RES_ERROR, [0, 7],
          { sd_card with log := [Action.desel, Action.xchg 0xFF 0xFF, Action.desel,
              Action.xchg 0xFF 0xFF] },
          quiet (List.replicate 40 0xFF)) :=
  ⟨by decide, by decide, by decide,
    C10_trim_never_erases fatfsCodes 0 [0, 7] sd_card ⟨0xFF, 0⟩ ⟨0xFF, 0⟩ _ (by decide) (by decide)
      (by decide)⟩

/-- C9 as stated fails at the maximum `C_SIZE = 0x3FFFFF`: the card accepts CMD9 and returns a
version 2 CSD, `disk_ioctl(0, GET_SECTOR_COUNT)` returns `RES_OK` and stores 0, and the exact
capacity `(C_SIZE + 1) * 1024` is 4294967296. -/
theorem C9_counterexample :
    csd_max.getD 0 0 >>> 6 = 1 ∧ csize_v2 csd_max = 0x3FFFFF ∧
    (disk_ioctl fatfsCodes 1 0 fatfsCodes.GET_SECTOR_COUNT [12345] sd_card
      (csd_stream csd_max)).map (fun x => (x.1, x.2.1)) = some (RES_OK, [0]) ∧
    (csize_v2 csd_max + 1) * 1024 ≠ 0 := by
  decide

/-- C9 amended: for a version 2 CSD returned by an initialised card that accepts CMD9,
`disk_ioctl(0, GET_SECTOR_COUNT)` returns `RES_OK` and stores `(C_SIZE + 1) * 1024` reduced
modulo 2^32 (the result is a `DWORD`); that is the exact capacity for every `C_SIZE` below the
maximum `0x3FFFFF`, and 0 at the maximum. -/
theorem C9_sector_count_v2 (c : IoctlCodes) (depth : Nat) (buff csd : List Nat)
    (s s1 s2 sE : Drv) (inp i1 i2 iE : List Event) (hc : c.Distinct)
    (hinit : s.Stat &&& STA_NOINIT = 0)
    (h9 : send_cmd CMD9 0 s inp = some (0, s1, i1))
    (hrc : rcvr_datablock (List.replicate 16 0) 0 16 s1 i1 = some (true, csd, s2, i2))
    (hv : csd.getD 0 0 >>> 6 = 1)
    (hd : deselect s2 i2 = some ((), sE, iE)) :
    disk_ioctl c (depth + 1) 0 c.GET_SECTOR_COUNT buff s inp
      = some (RES_OK, buff.set 0 ((csize_v2 csd + 1) * 1024 % 4294967296), sE, iE) ∧
    csize_v2 csd ≤ 0x3FFFFF ∧
    (csize_v2 csd < 0x3FFFFF → (csize_v2 csd + 1) * 1024 % 4294967296 = (csize_v2 csd + 1) * 1024) ∧
    (csize_v2 csd = 0x3FFFFF → (csize_v2 csd + 1) * 1024 % 4294967296 = 0) := by
  obtain ⟨hsum, hle⟩ := csize_v2_eq (csd.getD 7 0) (csd.getD 8 0) (csd.getD 9 0)
    (rcvr_csd_bytes hrc 8) (rcvr_csd_bytes hrc 9)
  have hsc : sector_count csd = some ((csize_v2 csd + 1) * 1024 % 4294967296) := by
    unfold sector_count csize_v2
    rw [if_pos hv, hsum]
    simp only [Nat.shiftLeft_eq]
  refine ⟨?_, hle, fun h => Nat.mod_eq_of_lt (by omega), fun h => by rw [h]⟩
  rw [disk_ioctl]
  simp only [ne_eq, not_true_eq_false, if_false, hinit, hc.1.symm, if_true, h9, hrc, hsc, hd]

/-- Witness of C9 amended: an 8 GB card, `C_SIZE = 0x3B37`, capacity 15523840 sectors. -/
theorem C9_sector_count_v2_witness :
    fatfsCodes.Distinct ∧ sd_card.Stat &&& STA_NOINIT = 0 ∧ csd_8g.getD 0 0 >>> 6 = 1 ∧
    csize_v2 csd_8g = 0x3B37 ∧
    (disk_ioctl fatfsCodes (0 + 1) 0 fatfsCodes.GET_SECTOR_COUNT [12345] sd_card
      (csd_stream csd_8g)).map (fun x => (x.1, x.2.1)) = some (RES_OK, [(0x3B37 + 1) * 1024]) := by
  refine ⟨by decide, by decide, by decide, by decide, ?_⟩
  have h := C9_sector_count_v2 fatfsCodes 0 [12345] csd_8g sd_card csd_8g_cmd.1 csd_8g_blk.1
    csd_8g_end.1 (csd_stream csd_8g) csd_8g_cmd.2 csd_8g_blk.2 csd_8g_end.2
    (by decide) (by decide) (by decide) (by decide) (by decide) (by decide)
  rw [h.1]
  decide

/-- C2: in a multi-block read whose CMD18 is accepted and whose block transfer for sector `k`
fails after `k` blocks were received, `disk_read` sends CMD12 with argument 0 once, right after
the failed block, attempts no further block, deselects and returns `RES_ERROR`. -/
theorem C2_multi_read_failure (buff bK bF : List Nat) (sector count k r12 : Nat)
    (s s1 sK sF s12 sE : Drv) (inp i1 iK iF i12 iE : List Event)
    (hcount : 1 < count) (hk : k < count) (hinit : s.Stat &&& STA_NOINIT = 0)
    (h18 : send_cmd CMD18 (if s.CardType &&& CT_BLOCK = 0 then sector * 512 % 4294967296
      else sector) s inp = some (0, s1, i1))
    (hok : read_multi k buff 0 s1 i1 = some (0, bK, sK, iK))
    (hfail : rcvr_datablock bK (512 * k) 512 sK iK = some (false, bF, sF, iF))
    (h12 : send_cmd CMD12 0 sF iF = some (r12, s12, i12))
    (hd : deselect s12 i12 = some ((), sE, iE)) :
    disk_read 0 buff sector count s inp = some (RES_ERROR, bK, sE, iE) ∧
    ∃ tr m b, sE.log = sF.log ++ tr ++ [Action.desel, Action.xchg 0xFF b] ∧
      sent tr = [0x4C, 0, 0, 0, 0, 0x01] ++ List.replicate m 0xFF ∧ 2 ≤ m ∧ m ≤ 11 ∧
      chip_selects tr = [] ∧ (sent tr).count 0x4C = 1 := by
  have hbF := rcvr_datablock_fail_buff hfail
  subst hbF
  constructor
  · obtain ⟨m, rfl⟩ : ∃ m, count = k + (m + 1) := ⟨count - k - 1, by omega⟩
    have hm : read_multi (k + (m + 1)) buff 0 s1 i1 = some (m + 1, bF, sF, iF) := by
      rw [read_multi_add k (m + 1) _ _ _ _ _ _ _ hok]
      simp only [read_multi, Nat.zero_add, hfail]
    have h0 : k + (m + 1) ≠ 0 := by omega
    have h1 : k + (m + 1) ≠ 1 := by omega
    unfold disk_read
    simp only [ne_eq, not_true_eq_false, h0, or_self, if_false, hinit, h1, h18, if_true, hm, h12,
      hd, Nat.add_one_ne_zero, not_false_eq_true]
  · obtain ⟨tr, m, hl, hs, h2, h11, hcs⟩ := send_cmd_stop_log h12
    obtain ⟨b, hb⟩ := deselect_log hd
    refine ⟨tr, m, b, by rw [hb, hl], hs, h2, h11, hcs, ?_⟩
    rw [hs, List.count_append, List.count_replicate]
    simp

set_option maxRecDepth 100000 in
/-- Witness of C2: two blocks requested, the first arrives, the second start token is lost. -/
theorem C2_multi_read_failure_witness :
    1 < 2 ∧ 1 < 2 ∧ sd_card.Stat &&& STA_NOINIT = 0 ∧
    disk_read 0 (List.replicate 1024 0) 5 2 sd_card (dropped_token_stream 7)
      = some (RES_ERROR, dropped_blk.1, dropped_end.1, dropped_end.2) ∧
    dropped_end.2 = [] :=
  ⟨by decide, by decide, by decide,
    (C2_multi_read_failure (List.replicate 1024 0) dropped_blk.1 dropped_fail.1 5 2 1 0 sd_card
      dropped_cmd.1 dropped_blk.2.1 dropped_fail.2.1 dropped_stop.1 dropped_end.1
      (dropped_token_stream 7) dropped_cmd.2 dropped_blk.2.2 dropped_fail.2.2 dropped_stop.2
      dropped_end.2 (by decide) (by decide) (by decide)
      (after_spec _ 0 (by decide)) (after_data_spec _ 0 (by decide))
      (after_data_spec _ false (by decide)) (after_spec _ 0 (by decide))
      (after_spec _ () (by decide))).1,
    by decide⟩

/-- C3: for `count >= 1` on an initialised drive 0, a call of `disk_read` that returns gives
`RES_OK` exactly when the read command (CMD17 for one block, CMD18 otherwise) answered 0 and
all `count` block transfers succeeded; then the buffer holds, block after block, the 512
payload bytes that followed each start token, and the bytes beyond `count * 512` are as
before. Conversely, when the command answers 0, all transfers succeed and the stream lasts
for the stop command and the deselect, the call does return `RES_OK`. -/
theorem C3_read_ok_iff (buff : List Nat) (sector count : Nat) (s : Drv) (inp : List Event)
    (hcount : 1 ≤ count) (hinit : s.Stat &&& STA_NOINIT = 0)
    (hlen : 512 * count ≤ buff.length) :
    (∀ r b1 sE iE, disk_read 0 buff sector count s inp = some (r, b1, sE, iE) →
    (r = RES_OK ↔ ∃ s1 i1 bK sK iK,
      send_cmd (if count = 1 then CMD17 else CMD18)
        (if s.CardType &&& CT_BLOCK = 0 then sector * 512 % 4294967296 else sector) s inp
        = some (0, s1, i1) ∧
      blocks_received count buff 0 s1 i1 = some (bK, sK, iK)) ∧
    (r = RES_OK → ∃ s1 i1 payloads iK,
      send_cmd (if count = 1 then CMD17 else CMD18)
        (if s.CardType &&& CT_BLOCK = 0 then sector * 512 % 4294967296 else sector) s inp
        = some (0, s1, i1) ∧
      Blocks i1 payloads iK ∧ payloads.length = count ∧ (∀ p ∈ payloads, p.length = 512) ∧
      b1 = payloads.flatten ++ buff.drop (512 * count) ∧
      ∀ i, i < count → (b1.drop (512 * i)).take 512 = payloads.getD i [])) ∧
    (∀ s1 i1 bK sK iK sS iS sE iE,
      send_cmd (if count = 1 then CMD17 else CMD18)
        (if s.CardType &&& CT_BLOCK = 0 then sector * 512 % 4294967296 else sector) s inp
        = some (0, s1, i1) →
      blocks_received count buff 0 s1 i1 = some (bK, sK, iK) →
      (if count = 1 then some (sK, iK)
        else (send_cmd CMD12 0 sK iK).map (fun x => (x.2.1, x.2.2))) = some (sS, iS) →
      deselect sS iS = some ((), sE, iE) →
      disk_read 0 buff sector count s inp = some (RES_OK, bK, sE, iE)) := by
  refine ⟨?_, fun s1 i1 bK sK iK sS iS sE iE hs hb hstop hd =>
    disk_read_all_blocks buff bK sector count s s1 sK sS sE inp i1 iK iS iE hcount hinit hs hb
      hstop hd⟩
  intro r b1 sE iE h
  have hc0 : count ≠ 0 := by omega
  -- the data part follows from the first part
  have data : ∀ (s1 : Drv) (i1 : List Event) bK sK iK,
      blocks_received count buff 0 s1 i1 = some (bK, sK, iK) → b1 = bK →
      ∃ payloads iK,
      Blocks i1 payloads iK ∧ payloads.length = count ∧ (∀ p ∈ payloads, p.length = 512) ∧
      b1 = payloads.flatten ++ buff.drop (512 * count) ∧
      ∀ i, i < count → (b1.drop (512 * i)).take 512 = payloads.getD i [] := by
    intro s1 i1 bK sK iK hb hbb
    have hbuf : buff = [] ++ buff.take (512 * count) ++ buff.drop (512 * count) := by simp
    rw [hbuf] at hb
    obtain ⟨ps, hp1, hp2, hp3, hp4⟩ := blocks_received_payload count [] _ _ s1 i1 bK sK iK
      (by rw [List.length_take]; omega) hb
    simp only [List.nil_append] at hp4
    refine ⟨ps, iK, hp1, hp2, hp3, hbb.trans hp4, ?_⟩
    intro i hi
    rw [hbb, hp4]
    exact flatten_block ps _ i hp3 (by omega)
  unfold disk_read at h
  simp only [ne_eq, not_true_eq_false, hc0, or_self, if_false, hinit] at h
  by_cases h1 : count = 1
  · subst h1
    simp only [if_true] at h ⊢
    cases hs : send_cmd CMD17 (if s.CardType &&& CT_BLOCK = 0 then sector * 512 % 4294967296
        else sector) s inp with
    | none => rw [hs] at h; simp at h
    | some x =>
      obtain ⟨res, s1, i1⟩ := x
      rw [hs] at h
      simp only at h
      by_cases hres : res = 0
      · subst hres
        simp only [if_true] at h
        cases hb : rcvr_datablock buff 0 512 s1 i1 with
        | none => rw [hb] at h; simp at h
        | some y =>
          obtain ⟨ok, b2, s2, i2⟩ := y
          rw [hb] at h
          cases ok with
          | true =>
            simp only at h
            split at h
            · simp at h
            · simp only [if_true, Option.some.injEq, Prod.mk.injEq] at h
              obtain ⟨rfl, rfl, -, -⟩ := h
              have hbr : blocks_received 1 buff 0 s1 i1 = some (b2, s2, i2) := by
                simp [blocks_received, hb]
              exact ⟨⟨fun _ => ⟨s1, i1, b2, s2, i2, rfl, hbr⟩, fun _ => rfl⟩,
                fun _ => by
                  obtain ⟨ps, iK, hd⟩ := data s1 i1 b2 s2 i2 hbr rfl
                  exact ⟨s1, i1, ps, iK, rfl, hd⟩⟩
          | false =>
            simp only at h
            split at h
            · simp at h
            · simp only [Nat.succ_ne_zero, if_false, Option.some.injEq, Prod.mk.injEq] at h
              obtain ⟨rfl, -⟩ := h
              refine ⟨⟨fun hr => absurd hr (by decide), ?_⟩, fun hr => absurd hr (by decide)⟩
              rintro ⟨t1, j1, bK, sK, iK, ht, hbr⟩
              simp only [Option.some.injEq, Prod.mk.injEq, true_and] at ht
              obtain ⟨rfl, rfl⟩ := ht
              simp [blocks_received, hb] at hbr
      · simp only [hres, if_false] at h
        split at h
        · simp at h
        · simp only [Nat.succ_ne_zero, if_false, Option.some.injEq, Prod.mk.injEq] at h
          obtain ⟨rfl, -⟩ := h
          refine ⟨⟨fun hr => absurd hr (by decide), ?_⟩, fun hr => absurd hr (by decide)⟩
          rintro ⟨t1, j1, bK, sK, iK, ht, -⟩
          simp only [Option.some.injEq, Prod.mk.injEq] at ht
          exact (hres ht.1).elim
  · simp only [h1, if_false] at h ⊢
    cases hs : send_cmd CMD18 (if s.CardType &&& CT_BLOCK = 0 then sector * 512 % 4294967296
        else sector) s inp with
    | none => rw [hs] at h; simp at h
    | some x =>
      obtain ⟨res, s1, i1⟩ := x
      rw [hs] at h
      simp only at h
      by_cases hres : res = 0
      · subst hres
        simp only [if_true] at h
        cases hm : read_multi count buff 0 s1 i1 with
        | none => rw [hm] at h; simp at h
        | some y =>
          obtain ⟨c2, b2, s2, i2⟩ := y
          rw [hm] at h
          simp only at h
          split at h
          · simp at h
          · rename_i cE bE sE2 iE2 hE
            split at hE
            · simp at hE
            · simp only [Option.some.injEq, Prod.mk.injEq] at hE
              obtain ⟨rfl, rfl, -, -⟩ := hE
              split at h
              · simp at h
              · simp only [Option.some.injEq, Prod.mk.injEq] at h
                obtain ⟨hr, rfl, -, -⟩ := h
                by_cases hc2 : c2 = 0
                · subst hc2
                  have hbr := (read_multi_zero_iff _ _ _ _ _ _ _ _).mp hm
                  simp only [not_true_eq_false, if_false] at hr
                  subst hr
                  exact ⟨⟨fun _ => ⟨s1, i1, b2, s2, i2, rfl, hbr⟩, fun _ => rfl⟩,
                    fun _ => by
                      obtain ⟨ps, iK, hd⟩ := data s1 i1 b2 s2 i2 hbr rfl
                      exact ⟨s1, i1, ps, iK, rfl, hd⟩⟩
                · simp only [hc2, not_false_eq_true, if_true] at hr
                  subst hr
                  refine ⟨⟨fun hr => absurd hr (by decide), ?_⟩, fun hr => absurd hr (by decide)⟩
                  rintro ⟨t1, j1, bK, sK, iK, ht, hbr⟩
                  simp only [Option.some.injEq, Prod.mk.injEq, true_and] at ht
                  obtain ⟨rfl, rfl⟩ := ht
                  have := (read_multi_zero_iff _ _ _ _ _ _ _ _).mpr hbr
                  rw [hm] at this
                  simp only [Option.some.injEq, Prod.mk.injEq] at this
                  exact (hc2 this.1).elim
      · simp only [hres, if_false] at h
        split at h
        · simp at h
        · simp only [hc0, not_false_eq_true, if_true, Option.some.injEq, Prod.mk.injEq] at h
          obtain ⟨rfl, -⟩ := h
          refine ⟨⟨fun hr => absurd hr (by decide), ?_⟩, fun hr => absurd hr (by decide)⟩
          rintro ⟨t1, j1, bK, sK, iK, ht, -⟩
          simp only [Option.some.injEq, Prod.mk.injEq] at ht
          exact (hres ht.1).elim

set_option maxRecDepth 100000 in
/-- Witness of C3: a two-block read from a block-addressed card. -/
theorem C3_read_ok_iff_witness :
    1 ≤ 2 ∧ sd_card.Stat &&& STA_NOINIT = 0 ∧ 512 * 2 ≤ (List.replicate 1024 0).length ∧
    disk_read 0 (List.replicate 1024 0) 5 2 sd_card (two_block_stream 7 9)
      = some (RES_OK, two_block_end.1, two_block_end.2.1, two_block_end.2.2) ∧
    ∃ s1 i1 payloads iK,
      send_cmd CMD18 5 sd_card (two_block_stream 7 9) = some (0, s1, i1) ∧
      Blocks i1 payloads iK ∧ payloads.length = 2 ∧ (∀ p ∈ payloads, p.length = 512) ∧
      two_block_end.1 = payloads.flatten ++ (List.replicate 1024 0).drop (512 * 2) ∧
      ∀ i, i < 2 → (two_block_end.1.drop (512 * i)).take 512 = payloads.getD i [] :=
  ⟨by decide, by decide, by decide, after_data_spec _ RES_OK (by decide),
    ((C3_read_ok_iff (List.replicate 1024 0) 5 2 sd_card (two_block_stream 7 9) (by decide)
      (by decide) (by decide)).1 RES_OK two_block_end.1 two_block_end.2.1 two_block_end.2.2
      (after_data_spec _ RES_OK (by decide))).2 rfl⟩

/-- C4: a multi-block write on an initialised, writable drive 0. The block count is declared
with ACMD23 (argument `count`) before CMD25 exactly when the card type has a `CT_SDC` bit.
When CMD25 is rejected nothing else is sent and the result is `RES_ERROR`. When it is accepted,
blocks go out with token `0xFC` until one is rejected or all `count` are sent, the stop step
with token `0xFD` runs in both cases, and the result is `RES_OK` exactly when all blocks were
accepted and the stop step succeeded. -/
theorem C4_multi_write (buff : List Nat) (sector count r25 : Nat) (s s0 s1 : Drv)
    (inp i0 i1 : List Event) (hcount : 1 < count) (hinit : s.Stat &&& STA_NOINIT = 0)
    (hprot : s.Stat &&& STA_PROTECT = 0)
    (hpre : (if s.CardType &&& CT_SDC ≠ 0 then
        (send_cmd ACMD23 count s inp).map (fun x => (x.2.1, x.2.2)) else some (s, inp))
        = some (s0, i0))
    (h25 : send_cmd CMD25 (if s.CardType &&& CT_BLOCK = 0 then sector * 512 % 4294967296
      else sector) s0 i0 = some (r25, s1, i1)) :
    (r25 ≠ 0 → ∀ sE iE, deselect s1 i1 = some ((), sE, iE) →
      disk_write 0 buff sector count s inp = some (RES_ERROR, sE, iE)) ∧
    (r25 = 0 → ∀ rem sW iW okStop sS iS sE iE,
      write_multi count buff 0 s1 i1 = some (rem, sW, iW) →
      xmit_datablock [] 0 0xFD sW iW = some (okStop, sS, iS) →
      deselect sS iS = some ((), sE, iE) →
      disk_write 0 buff sector count s inp
        = some (if rem = 0 ∧ okStop = true then RES_OK else RES_ERROR, sE, iE) ∧
      (∃ k sK iK, k ≤ count ∧ rem = count - k ∧ blocks_sent k buff 0 s1 i1 = some (sK, iK) ∧
        ((k = count ∧ sW = sK ∧ iW = iK) ∨
         (k < count ∧ xmit_datablock buff (512 * k) 0xFC sK iK = some (false, sW, iW)))) ∧
      ∃ l, Dummy l ∧ 1 ≤ l.length ∧
        ((okStop = true ∧ ∃ b, sS.log = sW.log ++ l ++ [Action.xchg 0xFD b]) ∨
         (okStop = false ∧ sS.log = sW.log ++ l))) := by
  have hc0 : count ≠ 0 := by omega
  have hc1 : count ≠ 1 := by omega
  have hpre' : (if s.CardType &&& CT_SDC ≠ 0 then
        match send_cmd ACMD23 count s inp with
        | none => none
        | some (_, s, inp) => some (s, inp)
      else some (s, inp)) = some (s0, i0) := by
    rw [← hpre]
    split
    · cases send_cmd ACMD23 count s inp with
      | none => rfl
      | some x => rfl
    · rfl
  constructor
  · intro hr sE iE hd
    unfold disk_write
    simp only [ne_eq, not_true_eq_false, hc0, or_self, if_false, hinit, hprot, hc1]
    simp only [ne_eq] at hpre'
    rw [hpre']
    simp only [h25, hr, if_false, hd, hc0, not_false_eq_true, if_true]
  · intro hr rem sW iW okStop sS iS sE iE hw hx hd
    subst hr
    refine ⟨?_, ?_, xmit_stop_log hx⟩
    · unfold disk_write
      simp only [ne_eq, not_true_eq_false, hc0, or_self, if_false, hinit, hprot, hc1]
      simp only [ne_eq] at hpre'
      rw [hpre']
      simp only [h25, if_true, hw, hx]
      cases okStop with
      | true =>
        simp only [hd, and_true]
        by_cases h0 : rem = 0 <;> simp [h0]
      | false =>
        simp [hd]
    · obtain ⟨k, sK, iK, h1, h2, h3, h4⟩ := write_multi_spec _ _ _ _ _ _ _ _ hw
      exact ⟨k, sK, iK, h1, h2, h3, by simpa using h4⟩

set_option maxRecDepth 100000 in
/-- Witness of C4: a two-block write to an SD card, all accepted. -/
theorem C4_multi_write_witness :
    1 < 2 ∧ sd_card.Stat &&& STA_NOINIT = 0 ∧ sd_card.Stat &&& STA_PROTECT = 0 ∧
    disk_write 0 (List.replicate 1024 3) 5 2 sd_card two_write_stream
      = some (RES_OK, two_write_end.1, two_write_end.2) ∧
    two_write_end.2 = [] :=
  ⟨by decide, by decide, by decide,
    ((C4_multi_write (List.replicate 1024 3) 5 2 0 sd_card two_write_pre.1 two_write_cmd.1
      two_write_stream two_write_pre.2 two_write_cmd.2 (by decide) (by decide) (by decide)
      (by rw [if_pos (by decide)]
          exact after_pair (send_cmd ACMD23 2 sd_card two_write_stream) (by decide))
      (after_spec _ 0 (by decide))).2 rfl 0 two_write_blocks.1
      two_write_blocks.2 true two_write_stop.1 two_write_stop.2 two_write_end.1 two_write_end.2
      (after_spec _ 0 (by decide)) (after_spec _ true (by decide))
      (after_spec _ () (by decide))).1,
    by decide⟩

/-- C11: in every state reachable from power-up by timer interrupts (any card-detect and
write-protect signals) and calls of the public functions (any arguments, any bus events),
executed one after the other, `STA_NOINIT` is set whenever `STA_NODISK` is set; and an
operation that takes `STA_NOINIT` from set to clear is a call `disk_initialize(0)` that set a
non-zero card type. -/
theorem C11_noinit_invariant (c : IoctlCodes) :
    (∀ s, Reachable c s → s.Stat &&& STA_NODISK ≠ 0 → s.Stat &&& STA_NOINIT ≠ 0) ∧
    (∀ s op t, run_op c op s = some t → s.Stat &&& STA_NOINIT ≠ 0 → t.Stat &&& STA_NOINIT = 0 →
      ∃ inp, op = Op.init 0 inp ∧ t.CardType ≠ 0) := by
  constructor
  · intro s hs
    induction hs with
    | start => decide
    | next op _ hrun ih =>
      by_cases h1 : ∃ cd wp, op = Op.tick cd wp
      · obtain ⟨cd, wp, rfl⟩ := h1
        simp only [run_op, Option.some.injEq] at hrun
        subst hrun
        exact disk_timerproc_inv cd wp _
      by_cases h2 : ∃ drv inp, op = Op.init drv inp
      · obtain ⟨drv, inp, rfl⟩ := h2
        simp only [run_op, Option.map_eq_some'] at hrun
        obtain ⟨⟨st, t1, i⟩, hr, rfl⟩ := hrun
        rcases disk_initialize_cases hr with heq | ⟨-, hnd, -⟩
        · simp only [heq]
          exact ih
        · intro hne
          exact absurd hnd hne
      · have hb := run_op_bus c hrun (fun cd wp h => h1 ⟨cd, wp, h⟩)
          (fun drv inp h => h2 ⟨drv, inp, h⟩)
        intro hne
        exact hb.stat.1.mpr (ih (hb.stat.2 hne))
  · intro s op t hrun hs ht
    by_cases h1 : ∃ cd wp, op = Op.tick cd wp
    · obtain ⟨cd, wp, rfl⟩ := h1
      simp only [run_op, Option.some.injEq] at hrun
      subst hrun
      exact absurd ht (disk_timerproc_noinit cd wp s hs)
    by_cases h2 : ∃ drv inp, op = Op.init drv inp
    · obtain ⟨drv, inp, rfl⟩ := h2
      simp only [run_op, Option.map_eq_some'] at hrun
      obtain ⟨⟨st, t1, i⟩, hr, rfl⟩ := hrun
      rcases disk_initialize_cases hr with heq | ⟨rfl, -, hct⟩
      · simp only [heq] at ht
        exact absurd ht hs
      · exact ⟨inp, rfl, hct ht⟩
    · have hb := run_op_bus c hrun (fun cd wp h => h1 ⟨cd, wp, h⟩)
        (fun drv inp h => h2 ⟨drv, inp, h⟩)
      exact absurd ht (hb.stat.1.mpr hs)

/-- Witness of C11: the card is pulled out at power-up, which is a reachable state with both
flags set; and a successful initialisation of an SD v2 card clears `STA_NOINIT`. -/
theorem C11_noinit_invariant_witness :
    Reachable fatfsCodes (disk_timerproc false true Drv.init) ∧
    (disk_timerproc false true Drv.init).Stat &&& STA_NODISK ≠ 0 ∧
    (disk_timerproc false true Drv.init).Stat &&& STA_NOINIT ≠ 0 ∧
    ∃ t inp, run_op fatfsCodes (Op.init 0 sdv2_stream) Drv.init = some t ∧
      t.Stat &&& STA_NOINIT = 0 ∧ Op.init 0 sdv2_stream = Op.init 0 inp ∧ t.CardType ≠ 0 := by
  have hr : Reachable fatfsCodes (disk_timerproc false true Drv.init) :=
    Reachable.next (Op.tick false true) Reachable.start rfl
  refine ⟨hr, by decide, (C11_noinit_invariant fatfsCodes).1 _ hr (by decide), ?_⟩
  obtain ⟨⟨st, t, rest⟩, hres⟩ : ∃ x, disk_initialize 0 Drv.init sdv2_stream = some x :=
    Option.isSome_iff_exists.mp (by decide)
  have hst : t.Stat = 0 := by
    have h := sdv2_stream_initializes
    rw [hres] at h
    simp only [Option.map_some', Option.some.injEq, Prod.mk.injEq] at h
    exact h.2.2.1
  have hrun : run_op fatfsCodes (Op.init 0 sdv2_stream) Drv.init = some t := by
    simp only [run_op, hres, Option.map_some']
  have h0 : t.Stat &&& STA_NOINIT = 0 := by rw [hst]; decide
  obtain ⟨inp, h1, h2⟩ := (C11_noinit_invariant fatfsCodes).2 _ _ _ hrun (by decide) h0
  exact ⟨t, inp, hrun, h0, h1, h2⟩

/-- C12: after `disk_initialize(0)` has run with a card present, the card type is 0, MMC,
SD v1, SD v2 or SD v2 with block addressing; `CT_BLOCK` comes only with `CT_SD2`, and it is set
exactly when the run was `sdv2_block_run` (CMD0 answered 1, CMD8 answered 1 with echo
`0x01 0xAA`, ACMD41 answered 0 with the 1 s timer still running, CMD58 answered 0, bit 6 of the
first OCR byte set); such a run followed by one more event for the deselect does return with
that card type. An operation that changes the card type is a call `disk_initialize(0)` with a
card present. -/
theorem C12_card_type (c : IoctlCodes) (s : Drv) (inp : List Event)
    (hdisk : s.Stat &&& STA_NODISK = 0) :
    (∀ st t rest, disk_initialize 0 s inp = some (st, t, rest) →
      (t.CardType = 0 ∨ t.CardType = CT_MMC ∨ t.CardType = CT_SD1 ∨ t.CardType = CT_SD2 ∨
        t.CardType = CT_SD2 ||| CT_BLOCK) ∧
      (t.CardType &&& CT_BLOCK ≠ 0 → t.CardType &&& CT_SD2 ≠ 0) ∧
      (t.CardType &&& CT_BLOCK ≠ 0 ↔
        ∃ s1 i1 sE iE, dummy_clocks 10 s inp = some ((), s1, i1) ∧
          sdv2_block_run s1 i1 sE iE)) ∧
    (∀ s1 i1 sE e rest, dummy_clocks 10 s inp = some ((), s1, i1) →
      sdv2_block_run s1 i1 sE (e :: rest) →
      ∃ st t, disk_initialize 0 s inp = some (st, t, rest) ∧
        t.CardType = CT_SD2 ||| CT_BLOCK) ∧
    (∀ op u v, run_op c op u = some v → v.CardType ≠ u.CardType →
      ∃ i, op = Op.init 0 i ∧ u.Stat &&& STA_NODISK = 0) := by
  refine ⟨?_, ?_, ?_⟩
  · intro st t rest h
    obtain ⟨s1, i1, ty, s2, i2, s3, hd, ht, hE, hct, rfl, -⟩ := disk_initialize_some hdisk h
    obtain ⟨hty, hblk⟩ := init_card_type_spec ht
    have hc : (if ty ≠ 0 then { s3 with Stat := s3.Stat % 256 &&& (0xFF - STA_NOINIT) }
        else { s3 with Stat := STA_NOINIT }).CardType = ty := by
      split <;> exact hct
    rw [hc]
    refine ⟨hty, ?_, ?_, ?_⟩
    · intro hb
      rcases hty with rfl | rfl | rfl | rfl | rfl <;> revert hb <;> decide
    · intro hb
      exact ⟨s1, i1, s2, i2, hd, hblk hb⟩
    · rintro ⟨t1, j1, sE, iE, hd2, hrun⟩
      rw [hd] at hd2
      simp only [Option.some.injEq, Prod.mk.injEq, true_and] at hd2
      obtain ⟨rfl, rfl⟩ := hd2
      have h2 := init_card_type_block hrun
      rw [ht] at h2
      simp only [Option.some.injEq, Prod.mk.injEq] at h2
      rw [h2.1]
      decide
  · intro s1 i1 sE e rest hd hrun
    have h2 := init_card_type_block hrun
    unfold disk_initialize
    simp only [ne_eq, not_true_eq_false, if_false, hdisk, hd, h2, deselect, SPI_u8ExchangeByte]
    refine ⟨_, _, rfl, ?_⟩
    rw [if_pos (by decide)]
    simp only [exch_CardType, SPI_vDeselect]
  · intro op u v hrun hne
    by_cases h1 : ∃ cd wp, op = Op.tick cd wp
    · obtain ⟨cd, wp, rfl⟩ := h1
      simp only [run_op, Option.some.injEq] at hrun
      subst hrun
      exact absurd (disk_timerproc_CardType cd wp u) hne
    by_cases h2 : ∃ drv inp, op = Op.init drv inp
    · obtain ⟨drv, i, rfl⟩ := h2
      simp only [run_op, Option.map_eq_some'] at hrun
      obtain ⟨⟨st, t1, j⟩, hr, rfl⟩ := hrun
      by_cases hdrv : drv = 0
      · subst hdrv
        refine ⟨i, rfl, ?_⟩
        by_contra hnd
        unfold disk_initialize at hr
        simp only [ne_eq, not_true_eq_false, if_false, hnd, not_false_eq_true, if_true,
          Option.some.injEq, Prod.mk.injEq] at hr
        exact hne (by rw [← hr.2.1])
      · unfold disk_initialize at hr
        simp only [ne_eq, hdrv, not_false_eq_true, if_true, Option.some.injEq,
          Prod.mk.injEq] at hr
        exact absurd (by rw [← hr.2.1]) hne
    · have hb := run_op_bus c hrun (fun cd wp h => h1 ⟨cd, wp, h⟩)
        (fun drv i h => h2 ⟨drv, i, h⟩)
      exact absurd hb.CardType hne

/-- Witness of C12: the initialisation of a block-addressed SD v2 card from power-up. -/
theorem C12_card_type_witness :
    Drv.init.Stat &&& STA_NODISK = 0 ∧
    ∃ st t rest, disk_initialize 0 Drv.init sdv2_stream = some (st, t, rest) ∧
      t.CardType = CT_SD2 ||| CT_BLOCK ∧ t.CardType &&& CT_SD2 ≠ 0 ∧
      ∃ s1 i1 sE iE, dummy_clocks 10 Drv.init sdv2_stream = some ((), s1, i1) ∧
        sdv2_block_run s1 i1 sE iE := by
  refine ⟨by decide, ?_⟩
  obtain ⟨⟨st, t, rest⟩, hres⟩ : ∃ x, disk_initialize 0 Drv.init sdv2_stream = some x :=
    Option.isSome_iff_exists.mp (by decide)
  have hct : t.CardType = CT_SD2 ||| CT_BLOCK := by
    have h := sdv2_stream_initializes
    rw [hres] at h
    simp only [Option.map_some', Option.some.injEq, Prod.mk.injEq] at h
    exact h.2.1
  have hb : t.CardType &&& CT_BLOCK ≠ 0 := by rw [hct]; decide
  obtain ⟨-, h2, h3⟩ := (C12_card_type fatfsCodes Drv.init sdv2_stream (by decide)).1 st t rest hres
  exact ⟨st, t, rest, hres, hct, h2 hb, h3.mp hb⟩

/-- C13 as stated fails for timer values that do not fit the 16-bit local `n`: a timer at 65536
is not decreased by a call of `disk_timerproc` (and so never reaches 0), and a timer at 65537
drops to 0 in one call. -/
theorem C13_counterexample :
    (disk_timerproc true false { Drv.init with Timer1 := 65536 }).Timer1 = 65536 ∧
    (tick_seq (List.replicate 3 (true, false)) { Drv.init with Timer1 := 65536 }).Timer1
      = 65536 ∧
    (disk_timerproc true false { Drv.init with Timer2 := 65537 }).Timer2 = 0 := by
  decide

/-- C13 amended: for a timer value below 65536, one call of `disk_timerproc` leaves the timer
at 0 when it is 0 and decreases it by exactly 1 otherwise, whatever the other timer and the
signals are; hence after `k` calls a timer set to `t` reads `t - k` (0 when `k` exceeds `t`) and
it is 0 exactly from the `t`-th call on. -/
theorem C13_timers (s : Drv) :
    (s.Timer1 < 65536 →
      (∀ cd wp, (disk_timerproc cd wp s).Timer1 = (if s.Timer1 = 0 then 0 else s.Timer1 - 1)) ∧
      (∀ sigs, (tick_seq sigs s).Timer1 = s.Timer1 - sigs.length) ∧
      (∀ sigs, (tick_seq sigs s).Timer1 = 0 ↔ s.Timer1 ≤ sigs.length)) ∧
    (s.Timer2 < 65536 →
      (∀ cd wp, (disk_timerproc cd wp s).Timer2 = (if s.Timer2 = 0 then 0 else s.Timer2 - 1)) ∧
      (∀ sigs, (tick_seq sigs s).Timer2 = s.Timer2 - sigs.length) ∧
      (∀ sigs, (tick_seq sigs s).Timer2 = 0 ↔ s.Timer2 ≤ sigs.length)) := by
  constructor
  · intro h
    refine ⟨fun cd wp => ?_, fun sigs => tick_seq_Timer1 sigs s h, fun sigs => ?_⟩
    · rw [disk_timerproc_Timer1 cd wp s h]
      split <;> omega
    · rw [tick_seq_Timer1 sigs s h]
      omega
  · intro h
    refine ⟨fun cd wp => ?_, fun sigs => tick_seq_Timer2 sigs s h, fun sigs => ?_⟩
    · rw [disk_timerproc_Timer2 cd wp s h]
      split <;> omega
    · rw [tick_seq_Timer2 sigs s h]
      omega

/-- Witness of C13 amended: the 500 ms timer set next to a timer value beyond 16 bits. -/
theorem C13_timers_witness :
    (500 : Nat) < 65536 ∧
    (disk_timerproc false true { Drv.init with Timer1 := 70000, Timer2 := 500 }).Timer2 = 499 ∧
    (tick_seq (List.replicate 500 (true, false))
      { Drv.init with Timer1 := 70000, Timer2 := 500 }).Timer2 = 0 ∧
    (tick_seq (List.replicate 499 (true, false))
      { Drv.init with Timer1 := 70000, Timer2 := 500 }).Timer2 ≠ 0 := by
  have h := (C13_timers { Drv.init with Timer1 := 70000, Timer2 := 500 }).2 (by decide)
  refine ⟨by decide, h.1 false true, (h.2.2 _).mpr (by rw [List.length_replicate]),
    fun h0 => ?_⟩
  have h1 := (h.2.2 _).mp h0
  rw [List.length_replicate] at h1
  exact absurd h1 (by decide)

/-- C14: the card never sends the ready byte `0xFF` during the wait of `select()` and the
500 ms timer runs out (`busy 500 es`). Then `select()` returns 0; `send_cmd` for every command
other than CMD12 returns `0xFF` and has sent nothing but dummy `0xFF` clocks, no byte of the
command packet; `disk_read` and `disk_write` on an initialised (and writable) drive and
`disk_ioctl(CTRL_SYNC)` return `RES_ERROR`. Every one of these calls returns, and its trace
ends with a deselect and one dummy `0xFF` clock. In a multi-block write to an SD card both
ACMD23 and CMD25 run into the timeout. -/
theorem C14_select_timeout (c : IoctlCodes) (s : Drv) (eA e0 eD eE : Event)
    (es rest : List Event) (hb : busy 500 es = true) :
    (∃ sF, select s (e0 :: (es ++ eD :: rest)) = some (false, sF, rest) ∧
      sF.log = s.log ++ ([Action.sel, Action.xchg 0xFF e0.val] ++ polls es ++
        [Action.desel, Action.xchg 0xFF eD.val])) ∧
    (∀ cmd arg, cmd ≠ CMD12 →
      ∃ sF, send_cmd cmd arg s (eA :: e0 :: (es ++ eD :: rest)) = some (0xFF, sF, rest) ∧
        sF.log = s.log ++ ([Action.desel, Action.xchg 0xFF eA.val, Action.sel,
          Action.xchg 0xFF e0.val] ++ polls es ++ [Action.desel, Action.xchg 0xFF eD.val])) ∧
    (∀ buff sector count, count ≠ 0 → s.Stat &&& STA_NOINIT = 0 →
      ∃ sF, disk_read 0 buff sector count s (eA :: e0 :: (es ++ eD :: eE :: rest))
          = some (RES_ERROR, buff, sF, rest) ∧
        sF.log = s.log ++ ([Action.desel, Action.xchg 0xFF eA.val, Action.sel,
          Action.xchg 0xFF e0.val] ++ polls es ++ [Action.desel, Action.xchg 0xFF eD.val] ++
          [Action.desel, Action.xchg 0xFF eE.val])) ∧
    (∀ buff sector count, count ≠ 0 → s.Stat &&& STA_NOINIT = 0 → s.Stat &&& STA_PROTECT = 0 →
      (count = 1 ∨ s.CardType &&& CT_SDC = 0) →
      ∃ sF, disk_write 0 buff sector count s (eA :: e0 :: (es ++ eD :: eE :: rest))
          = some (RES_ERROR, sF, rest) ∧
        sF.log = s.log ++ ([Action.desel, Action.xchg 0xFF eA.val, Action.sel,
          Action.xchg 0xFF e0.val] ++ polls es ++ [Action.desel, Action.xchg 0xFF eD.val] ++
          [Action.desel, Action.xchg 0xFF eE.val])) ∧
    (∀ buff sector count (eB e1 eF : Event) (es2 : List Event), count ≠ 0 → count ≠ 1 →
      s.Stat &&& STA_NOINIT = 0 → s.Stat &&& STA_PROTECT = 0 → s.CardType &&& CT_SDC ≠ 0 →
      busy 500 es2 = true →
      ∃ sF, disk_write 0 buff sector count s
          (eA :: e0 :: (es ++ eD :: eB :: e1 :: (es2 ++ eF :: eE :: rest)))
          = some (RES_ERROR, sF, rest) ∧
        sF.log = s.log ++ ([Action.desel, Action.xchg 0xFF eA.val, Action.sel,
          Action.xchg 0xFF e0.val] ++ polls es ++ [Action.desel, Action.xchg 0xFF eD.val] ++
          ([Action.desel, Action.xchg 0xFF eB.val, Action.sel, Action.xchg 0xFF e1.val] ++
            polls es2 ++ [Action.desel, Action.xchg 0xFF eF.val]) ++
          [Action.desel, Action.xchg 0xFF eE.val])) ∧
    (∀ depth buff, s.Stat &&& STA_NOINIT = 0 →
      ∃ sF, disk_ioctl c (depth + 1) 0 c.CTRL_SYNC buff s (e0 :: (es ++ eD :: eE :: rest))
          = some (RES_ERROR, buff, sF, rest) ∧
        sF.log = s.log ++ ([Action.sel, Action.xchg 0xFF e0.val] ++ polls es ++
          [Action.desel, Action.xchg 0xFF eD.val] ++
          [Action.desel, Action.xchg 0xFF eE.val])) := by
  refine ⟨?_, ?_, ?_, ?_, ?_, ?_⟩
  · exact ⟨_, select_busy s e0 eD es rest hb, select_timeout_log s e0 eD es⟩
  · intro cmd arg hc
    refine ⟨_, send_cmd_busy cmd arg s eA e0 eD es rest hc hb, ?_⟩
    simp [select_timeout_log, exch_log, SPI_vDeselect, Event.val]
  · intro buff sector count hcount hinit
    refine ⟨exch 0xFF eE (SPI_vDeselect
      (select_timeout (exch 0xFF eA (SPI_vDeselect s)) e0 es eD)), ?_, ?_⟩
    · unfold disk_read
      by_cases h1 : count = 1
      · simp only [ne_eq, not_true_eq_false, hcount, or_self, if_false, hinit, h1, if_true,
          send_cmd_busy CMD17 _ s eA e0 eD es (eE :: rest) (by decide) hb, deselect,
          SPI_u8ExchangeByte]
        rfl
      · simp only [ne_eq, not_true_eq_false, hcount, or_self, if_false, hinit, h1,
          send_cmd_busy CMD18 _ s eA e0 eD es (eE :: rest) (by decide) hb, deselect,
          SPI_u8ExchangeByte]
        simp [hcount]
    · simp [select_timeout_log, exch_log, SPI_vDeselect, Event.val]
  · intro buff sector count hcount hinit hprot hone
    refine ⟨exch 0xFF eE (SPI_vDeselect
      (select_timeout (exch 0xFF eA (SPI_vDeselect s)) e0 es eD)), ?_, ?_⟩
    · unfold disk_write
      by_cases h1 : count = 1
      · simp only [ne_eq, not_true_eq_false, hcount, or_self, if_false, hinit, hprot, h1,
          if_true, send_cmd_busy CMD24 _ s eA e0 eD es (eE :: rest) (by decide) hb, deselect,
          SPI_u8ExchangeByte]
        rfl
      · have hsdc : s.CardType &&& CT_SDC = 0 := hone.resolve_left h1
        simp only [ne_eq, not_true_eq_false, hcount, or_self, if_false, hinit, hprot, h1, hsdc,
          send_cmd_busy CMD25 _ s eA e0 eD es (eE :: rest) (by decide) hb, deselect,
          SPI_u8ExchangeByte]
        simp [hcount]
    · simp [select_timeout_log, exch_log, SPI_vDeselect, Event.val]
  · intro buff sector count eB e1 eF es2 hcount h1 hinit hprot hsdc hb2
    refine ⟨exch 0xFF eE (SPI_vDeselect (select_timeout (exch 0xFF eB (SPI_vDeselect
      (select_timeout (exch 0xFF eA (SPI_vDeselect s)) e0 es eD))) e1 es2 eF)), ?_, ?_⟩
    · unfold disk_write
      simp only [ne_eq, not_true_eq_false, hcount, or_self, if_false, hinit, hprot, h1, hsdc,
        not_false_eq_true, if_true,
        send_cmd_busy ACMD23 count s eA e0 eD es _ (by decide) hb,
        send_cmd_busy CMD25 _ _ eB e1 eF es2 (eE :: rest) (by decide) hb2, deselect,
        SPI_u8ExchangeByte]
      simp [hcount]
    · simp [select_timeout_log, exch_log, SPI_vDeselect, Event.val]
  · intro depth buff hinit
    refine ⟨exch 0xFF eE (SPI_vDeselect (select_timeout s e0 es eD)), ?_, ?_⟩
    · rw [disk_ioctl]
      simp only [ne_eq, not_true_eq_false, if_false, hinit, if_true,
        select_busy s e0 eD es (eE :: rest) hb, deselect, SPI_u8ExchangeByte]
    · simp [select_timeout_log, exch_log, SPI_vDeselect, Event.val]

/-- Witness of C14: a single-block read from a card that answers `0x00` to two polls while
200 and then 300 timer interrupts fire. -/
theorem C14_select_timeout_witness :
    busy 500 [⟨0, 200⟩, ⟨0, 300⟩] = true ∧
    ∃ sF, disk_read 0 [7] 5 1 sd_card
        (⟨0xFF, 0⟩ :: ⟨0xFF, 0⟩ :: ([⟨0, 200⟩, ⟨0, 300⟩] ++ ⟨0xFF, 0⟩ :: ⟨0xFF, 0⟩ :: []))
        = some (RES_ERROR, [7], sF, []) ∧
      sF.log = sd_card.log ++ ([Action.desel, Action.xchg 0xFF 0xFF, Action.sel,
        Action.xchg 0xFF 0xFF] ++ polls [⟨0, 200⟩, ⟨0, 300⟩] ++
        [Action.desel, Action.xchg 0xFF 0xFF] ++ [Action.desel, Action.xchg 0xFF 0xFF]) :=
  ⟨by decide, (C14_select_timeout fatfsCodes sd_card ⟨0xFF, 0⟩ ⟨0xFF, 0⟩ ⟨0xFF, 0⟩ ⟨0xFF, 0⟩
    [⟨0, 200⟩, ⟨0, 300⟩] [] (by decide)).2.2.1 [7] 5 1 (by decide) (by decide)⟩

/-- C19: for a command index below 64 and a 32-bit argument, once the card is selected and
ready, `send_cmd` sends the six bytes `0x40|cmd`, the four argument bytes from the most
significant down, and the CRC byte (`0x95` for CMD0, `0x87` for CMD8, `0x01` otherwise, whatever
the argument), in that order; everything it sends afterwards is the dummy `0xFF` of the
response reads. With eleven more events on the stream the call returns. -/
theorem C19_command_packet (cmd arg : Nat) (s s2 : Drv) (inp rest : List Event)
    (e1 e2 e3 e4 e5 e6 : Event) (hcmd : cmd < 64) (harg : arg < 4294967296)
    (hsel : Selected cmd s inp s2 (e1 :: e2 :: e3 :: e4 :: e5 :: e6 :: rest)) :
    (∀ r sF iF, send_cmd cmd arg s inp = some (r, sF, iF) →
      ∃ tail, sF.log = s2.log ++ packet_trace cmd arg e1 e2 e3 e4 e5 e6 ++ tail ∧ Dummy tail) ∧
    (11 ≤ rest.length → ∃ r sF iF, send_cmd cmd arg s inp = some (r, sF, iF)) ∧
    sent (packet_trace cmd arg e1 e2 e3 e4 e5 e6)
      = [0x40 ||| cmd, arg / 2 ^ 24, arg / 2 ^ 16 % 256, arg / 2 ^ 8 % 256, arg % 256,
         if cmd = CMD0 then 0x95 else if cmd = CMD8 then 0x87 else 0x01] ∧
    arg / 2 ^ 24 * 2 ^ 24 + arg / 2 ^ 16 % 256 * 2 ^ 16 + arg / 2 ^ 8 % 256 * 2 ^ 8 + arg % 256
      = arg ∧
    0x40 ||| cmd = 64 + cmd := by
  have h7 : cmd &&& 0x80 = 0 := bit7_clear (by omega)
  have heq : send_cmd cmd arg s inp = send_cmd_packet cmd arg s2 _ :=
    send_cmd_selected h7 hsel
  rw [send_cmd_packet_six] at heq
  refine ⟨?_, ?_, ?_, by omega, ?_⟩
  · intro r sF iF h
    exact send_cmd_packet_trace h7 hsel h
  · intro hlen
    rw [heq]
    split
    · cases rest with
      | nil => simp at hlen
      | cons eS rest =>
        simp only [SPI_u8ExchangeByte]
        exact send_cmd_resp_total 10 _ rest (by decide) (by simp at hlen; omega)
    · exact send_cmd_resp_total 10 _ rest (by decide) (by omega)
  · have a1 : (arg >>> 24) % 256 = arg / 2 ^ 24 := by
      rw [Nat.shiftRight_eq_div_pow]
      omega
    have a2 : (arg >>> 16) % 256 = arg / 2 ^ 16 % 256 := by rw [Nat.shiftRight_eq_div_pow]
    have a3 : (arg >>> 8) % 256 = arg / 2 ^ 8 % 256 := by rw [Nat.shiftRight_eq_div_pow]
    simp only [packet_trace, sent, List.filterMap_cons, List.filterMap_nil, a1, a2, a3]
  · interval_cases cmd <;> rfl

/-- Witness of C19: CMD8 with argument `0x1AA` to a card that is ready at once and answers 1:
the packet is `48 00 00 01 AA 87`. -/
theorem C19_command_packet_witness :
    (8 : Nat) < 64 ∧ (0x1AA : Nat) < 4294967296 ∧
    (send_cmd CMD8 0x1AA Drv.init (answer 1)).map (fun x => (x.1, sent x.2.1.log, x.2.2))
      = some (1, [0xFF, 0xFF, 0xFF, 0x48, 0, 0, 0x01, 0xAA, 0x87, 0xFF], []) ∧
    sent (packet_trace CMD8 0x1AA ⟨0xFF, 0⟩ ⟨0xFF, 0⟩ ⟨0xFF, 0⟩ ⟨0xFF, 0⟩ ⟨0xFF, 0⟩ ⟨0xFF, 0⟩)
      = [0x48, 0, 0, 0x01, 0xAA, 0x87] :=
  ⟨by decide, by decide, by decide,
    (C19_command_packet CMD8 0x1AA Drv.init
      (after (select (after (deselect Drv.init (answer 1))).1
        (after (deselect Drv.init (answer 1))).2)).1 (answer 1) [⟨1, 0⟩]
      ⟨0xFF, 0⟩ ⟨0xFF, 0⟩ ⟨0xFF, 0⟩ ⟨0xFF, 0⟩ ⟨0xFF, 0⟩ ⟨0xFF, 0⟩ (by decide) (by decide)
      (Or.inr ⟨by decide, _, _, after_spec _ () (by decide),
        after_spec (select (after (deselect Drv.init (answer 1))).1
          (after (deselect Drv.init (answer 1))).2) true (by decide)⟩)).2.2.1⟩

/-- C20: after the six packet bytes `send_cmd` discards one byte when, and only when, the
command is CMD12 (`stuff`), then reads response bytes: the bytes `high` with bit 7 set, at most
nine of them, and the byte `e` it returns, which has bit 7 clear or is the tenth byte read;
nothing after `e` is read. Every stream of that shape makes the call return `e`, and every
call that returns read a stream of that shape; a returned byte with bit 7 set is the tenth of
ten bytes with bit 7 set. -/
theorem C20_response (cmd arg : Nat) (s s2 : Drv) (inp post : List Event)
    (e1 e2 e3 e4 e5 e6 : Event) (hcmd : cmd &&& 0x80 = 0)
    (hsel : Selected cmd s inp s2 (e1 :: e2 :: e3 :: e4 :: e5 :: e6 :: post)) :
    (∀ stuff high e rest, post = stuff ++ (high ++ e :: rest) →
      stuff.length = (if cmd = CMD12 then 1 else 0) → (∀ x ∈ high, x.val &&& 0x80 ≠ 0) →
      high.length ≤ 9 → (e.val &&& 0x80 = 0 ∨ high.length = 9) →
      ∃ sF, send_cmd cmd arg s inp = some (e.val, sF, rest) ∧
        sF.log = s2.log ++ packet_trace cmd arg e1 e2 e3 e4 e5 e6 ++
          polls (stuff ++ (high ++ [e]))) ∧
    (∀ r sF rest, send_cmd cmd arg s inp = some (r, sF, rest) →
      ∃ stuff high e, post = stuff ++ (high ++ e :: rest) ∧
        stuff.length = (if cmd = CMD12 then 1 else 0) ∧ (∀ x ∈ high, x.val &&& 0x80 ≠ 0) ∧
        high.length ≤ 9 ∧ r = e.val ∧ (r &&& 0x80 ≠ 0 → high.length = 9) ∧
        sF.log = s2.log ++ packet_trace cmd arg e1 e2 e3 e4 e5 e6 ++
          polls (stuff ++ (high ++ [e]))) := by
  have heq : send_cmd cmd arg s inp = send_cmd_packet cmd arg s2 _ :=
    send_cmd_selected hcmd hsel
  rw [send_cmd_packet_six] at heq
  constructor
  · intro stuff high e rest hpost hstuff hhigh hlen hend
    have hgo : ∀ t : Drv, send_cmd_resp 10 t (high ++ e :: rest)
        = some (e.val, clock t (high ++ [e]), rest) := by
      intro t
      rw [send_cmd_resp_spec]
      refine ⟨high, e, rfl, hhigh, by omega, rfl, ?_, rfl⟩
      rcases hend with h | h
      · exact Or.inl h
      · right; omega
    by_cases hc : cmd = CMD12
    · rw [if_pos hc] at hstuff heq
      obtain ⟨eS, rfl⟩ := List.length_eq_one.mp hstuff
      subst hpost
      refine ⟨clock (exch 0xFF eS (packet_state cmd arg e1 e2 e3 e4 e5 e6 s2)) (high ++ [e]),
        ?_, ?_⟩
      · rw [heq]
        simp only [List.singleton_append, SPI_u8ExchangeByte]
        exact hgo _
      · rw [clock_log, exch_log, packet_state_log]
        simp [polls, Event.val]
    · rw [if_neg hc] at hstuff heq
      obtain rfl := List.length_eq_zero.mp hstuff
      subst hpost
      refine ⟨clock (packet_state cmd arg e1 e2 e3 e4 e5 e6 s2) (high ++ [e]), ?_, ?_⟩
      · rw [heq]
        exact hgo _
      · rw [clock_log, packet_state_log]
        simp
  · intro r sF rest h
    rw [heq] at h
    by_cases hc : cmd = CMD12
    · rw [if_pos hc] at h
      split at h
      · simp at h
      · rename_i b sS iS hx
        obtain ⟨eS, rfl, -, rfl⟩ := xchg_some hx
        obtain ⟨high, e, rfl, h2, h3, h4, h5, rfl⟩ := (send_cmd_resp_spec _ _ _ _ _ _).mp h
        refine ⟨[eS], high, e, rfl, by rw [if_pos hc]; rfl, h2, by omega, h4, ?_, ?_⟩
        · intro hr
          rw [h4] at hr
          rcases h5 with h5 | h5
          · exact absurd h5 hr
          · omega
        · rw [clock_log, exch_log, packet_state_log]
          simp [polls, Event.val]
    · rw [if_neg hc] at h
      obtain ⟨high, e, rfl, h2, h3, h4, h5, rfl⟩ := (send_cmd_resp_spec _ _ _ _ _ _).mp h
      refine ⟨[], high, e, rfl, by rw [if_neg hc]; rfl, h2, by omega, h4, ?_, ?_⟩
      · intro hr
        rw [h4] at hr
        rcases h5 with h5 | h5
        · exact absurd h5 hr
        · omega
      · rw [clock_log, packet_state_log]
        simp

/-- Witness of C20: CMD12 on a stream with a stuff byte, two bytes `0xFF` and the answer 0. -/
theorem C20_response_witness :
    CMD12 &&& 0x80 = 0 ∧
    ∃ sF, send_cmd CMD12 0 sd_card (quiet [0xFF, 0xFF, 0xFF, 0xFF, 0xFF, 0xFF] ++
        ([⟨0x7F, 0⟩] ++ ([⟨0xFF, 0⟩, ⟨0xFF, 0⟩] ++ ⟨0, 0⟩ :: [⟨0x55, 0⟩])))
        = some (0, sF, [⟨0x55, 0⟩]) ∧
      sF.log = sd_card.log ++ packet_trace CMD12 0 ⟨0xFF, 0⟩ ⟨0xFF, 0⟩ ⟨0xFF, 0⟩ ⟨0xFF, 0⟩
          ⟨0xFF, 0⟩ ⟨0xFF, 0⟩ ++
        polls ([⟨0x7F, 0⟩] ++ ([⟨0xFF, 0⟩, ⟨0xFF, 0⟩] ++ [⟨0, 0⟩])) :=
  ⟨by decide, (C20_response CMD12 0 sd_card sd_card _ _ ⟨0xFF, 0⟩ ⟨0xFF, 0⟩ ⟨0xFF, 0⟩ ⟨0xFF, 0⟩
    ⟨0xFF, 0⟩ ⟨0xFF, 0⟩ (by decide) (Or.inl ⟨rfl, rfl, rfl⟩)).1 [⟨0x7F, 0⟩]
    [⟨0xFF, 0⟩, ⟨0xFF, 0⟩] ⟨0, 0⟩ [⟨0x55, 0⟩] rfl (by decide) (by decide) (by decide)
    (by decide)⟩

/-- C18 as stated fails when the CMD55 response is `0x80`: its low 7 bits are 0, which does
not exceed 1, yet `send_cmd(ACMD41, 0)` returns `0x80` at once; the events that follow are
untouched and the byte `0x40|41` is not among the bytes sent. -/
theorem C18_counterexample :
    (send_cmd CMD55 0 sd_card no_r1_stream).map (fun x => (x.1, x.2.2)) = some (0x80, []) ∧
    ¬ (1 < 0x80 &&& 0x7F) ∧
    (send_cmd ACMD41 0 sd_card (no_r1_stream ++ answer 0)).map
      (fun x => (x.1, decide (0x40 ||| 41 ∈ sent x.2.1.log), x.2.2))
      = some (0x80, false, answer 0) := by
  decide

/-- C18 amended: for a command code with bit 7 set `send_cmd` first runs CMD55 with argument 0
(its packet is the first on the wire); when the CMD55 response, the whole byte, exceeds 1 it
returns that response in the state CMD55 left, having sent nothing more; otherwise it goes on
as `send_cmd` of the command index `cmd & 0x7F` and returns that command's response. -/
theorem C18_app_command (cmd arg : Nat) (s : Drv) (inp : List Event) (h7 : cmd &&& 0x80 ≠ 0) :
    (send_cmd CMD55 0 s inp = none → send_cmd cmd arg s inp = none) ∧
    (∀ r s1 i1, send_cmd CMD55 0 s inp = some (r, s1, i1) →
      (1 < r → send_cmd cmd arg s inp = some (r, s1, i1)) ∧
      (r ≤ 1 → send_cmd cmd arg s inp = send_cmd (cmd &&& 0x7F) arg s1 i1)) ∧
    (∀ s2 e1 e2 e3 e4 e5 e6 rest r sF iF,
      Selected CMD55 s inp s2 (e1 :: e2 :: e3 :: e4 :: e5 :: e6 :: rest) →
      send_cmd cmd arg s inp = some (r, sF, iF) →
      ∃ tail, sF.log = s2.log ++ packet_trace CMD55 0 e1 e2 e3 e4 e5 e6 ++ tail) := by
  have h55 : send_cmd CMD55 0 s inp = send_cmd_body CMD55 0 s inp := by
    unfold send_cmd
    rw [if_neg (by decide)]
  have hlow : send_cmd (cmd &&& 0x7F) arg = send_cmd_body (cmd &&& 0x7F) arg := by
    funext t i
    unfold send_cmd
    rw [if_neg]
    have h0 : (0x7F &&& 0x80 : Nat) = 0 := by decide
    rw [Nat.and_assoc, h0]
    simp
  have hcmd : send_cmd cmd arg s inp = match send_cmd_body CMD55 0 s inp with
      | none => none
      | some (res, s, inp) =>
        if res > 1 then some (res, s, inp) else send_cmd_body (cmd &&& 0x7F) arg s inp := by
    conv_lhs => unfold send_cmd
    rw [if_pos h7]
  refine ⟨?_, ?_, ?_⟩
  · intro h
    rw [hcmd, ← h55, h]
  · intro r s1 i1 h
    rw [hcmd, ← h55, h, hlow]
    constructor
    · intro hr
      simp only [gt_iff_lt, hr, if_true]
    · intro hr
      simp only [gt_iff_lt, Nat.not_lt.mpr hr, if_false]
  · intro s2 e1 e2 e3 e4 e5 e6 rest r sF iF hsel h
    rw [hcmd, ← h55] at h
    split at h
    · simp at h
    · rename_i r5 s5 i5 h5
      obtain ⟨t1, ht1, -⟩ := send_cmd_packet_trace (by decide) hsel (h55.trans h5)
      split at h
      · simp only [Option.some.injEq, Prod.mk.injEq] at h
        obtain ⟨-, rfl, -⟩ := h
        exact ⟨t1, ht1⟩
      · obtain ⟨t2, ht2⟩ := send_cmd_body_ext h
        exact ⟨t1 ++ t2, by rw [ht2, ht1, List.append_assoc]⟩

/-- Witness of C18 amended: ACMD41 goes on to CMD41 after CMD55 answered 1, and stops after
CMD55 got `0x80`. -/
theorem C18_app_command_witness :
    ACMD41 &&& 0x80 ≠ 0 ∧
    send_cmd ACMD41 0 sd_card (answer 1 ++ answer 0)
      = send_cmd (ACMD41 &&& 0x7F) 0 (after (send_cmd CMD55 0 sd_card (answer 1 ++ answer 0))).1
          (after (send_cmd CMD55 0 sd_card (answer 1 ++ answer 0))).2 ∧
    send_cmd ACMD41 0 sd_card no_r1_stream
      = some (0x80, (after (send_cmd CMD55 0 sd_card no_r1_stream)).1,
          (after (send_cmd CMD55 0 sd_card no_r1_stream)).2) :=
  ⟨by decide,
    ((C18_app_command ACMD41 0 sd_card (answer 1 ++ answer 0) (by decide)).2.1 1 _ _
      (after_spec _ 1 (by decide))).2 (by decide),
    ((C18_app_command ACMD41 0 sd_card no_r1_stream (by decide)).2.1 0x80 _ _
      (after_spec _ 0x80 (by decide))).1 (by decide)⟩

/-- C16: on an initialised drive 0 with `count >= 1` and a 32-bit sector number, the packet
of the read command (CMD17 for one block, CMD18 otherwise) of `disk_read` and of the write
command (CMD24, CMD25) of `disk_write` carries the sector number itself when the card type
has `CT_BLOCK`, and `sector * 512` reduced modulo 2^32 otherwise; the four argument bytes of
the packet are the big-endian bytes of that value, and the reduced value is the true byte
address exactly when `sector < 2^23`. -/
theorem C16_sector_address (buff : List Nat) (sector count : Nat) (s : Drv) (inp : List Event)
    (hsec : sector < 4294967296) (hcount : count ≠ 0) (hinit : s.Stat &&& STA_NOINIT = 0) :
    (∀ r b sF iF, disk_read 0 buff sector count s inp = some (r, b, sF, iF) →
      ∀ s2 e1 e2 e3 e4 e5 e6 rest,
        Selected (if count = 1 then CMD17 else CMD18) s inp s2
          (e1 :: e2 :: e3 :: e4 :: e5 :: e6 :: rest) →
        ∃ tail, sF.log = s2.log ++ packet_trace (if count = 1 then CMD17 else CMD18)
          (if s.CardType &&& CT_BLOCK ≠ 0 then sector else sector * 512 % 4294967296)
          e1 e2 e3 e4 e5 e6 ++ tail) ∧
    (s.Stat &&& STA_PROTECT = 0 →
      ∀ r sF iF, disk_write 0 buff sector count s inp = some (r, sF, iF) →
      ∃ sP iP,
        (if count ≠ 1 ∧ s.CardType &&& CT_SDC ≠ 0 then
          (send_cmd ACMD23 count s inp).map (fun x => (x.2.1, x.2.2)) else some (s, inp))
          = some (sP, iP) ∧
        ∀ s2 e1 e2 e3 e4 e5 e6 rest,
          Selected (if count = 1 then CMD24 else CMD25) sP iP s2
            (e1 :: e2 :: e3 :: e4 :: e5 :: e6 :: rest) →
          ∃ tail, sF.log = s2.log ++ packet_trace (if count = 1 then CMD24 else CMD25)
            (if s.CardType &&& CT_BLOCK ≠ 0 then sector else sector * 512 % 4294967296)
            e1 e2 e3 e4 e5 e6 ++ tail) ∧
    (∀ arg, arg = (if s.CardType &&& CT_BLOCK ≠ 0 then sector else sector * 512 % 4294967296) →
      arg < 4294967296 ∧
      (arg >>> 24) % 256 * 2 ^ 24 + (arg >>> 16) % 256 * 2 ^ 16 + (arg >>> 8) % 256 * 2 ^ 8 +
        arg % 256 = arg) ∧
    (sector * 512 % 4294967296 = sector * 512 ↔ sector < 8388608) := by
  have harg : (if s.CardType &&& CT_BLOCK = 0 then sector * 512 % 4294967296 else sector)
      = (if s.CardType &&& CT_BLOCK ≠ 0 then sector else sector * 512 % 4294967296) := by
    by_cases hb : s.CardType &&& CT_BLOCK = 0 <;> simp [hb]
  refine ⟨?_, ?_, ?_, ?_⟩
  · intro r b sF iF h s2 e1 e2 e3 e4 e5 e6 rest hsel
    obtain ⟨r1, s1, i1, hs, hb⟩ := disk_read_cmd hcount hinit h
    rw [harg] at hs
    have h7 : (if count = 1 then CMD17 else CMD18) &&& 0x80 = 0 := by split <;> decide
    obtain ⟨t1, ht1, -⟩ := send_cmd_packet_trace h7 hsel hs
    obtain ⟨t2, ht2⟩ := hb.ext
    exact ⟨t1 ++ t2, by rw [ht2, ht1, List.append_assoc]⟩
  · intro hprot r sF iF h
    obtain ⟨sP, iP, r1, s1, i1, hpre, hs, hb⟩ := disk_write_cmd hcount hinit hprot h
    refine ⟨sP, iP, hpre, ?_⟩
    intro s2 e1 e2 e3 e4 e5 e6 rest hsel
    rw [harg] at hs
    have h7 : (if count = 1 then CMD24 else CMD25) &&& 0x80 = 0 := by split <;> decide
    obtain ⟨t1, ht1, -⟩ := send_cmd_packet_trace h7 hsel hs
    obtain ⟨t2, ht2⟩ := hb.ext
    exact ⟨t1 ++ t2, by rw [ht2, ht1, List.append_assoc]⟩
  · intro arg ha
    have hlt : arg < 4294967296 := by
      rw [ha]
      split
      · exact hsec
      · exact Nat.mod_lt _ (by decide)
    refine ⟨hlt, ?_⟩
    simp only [Nat.shiftRight_eq_div_pow]
    omega
  · constructor
    · intro h
      by_contra hge
      have := Nat.mod_lt (sector * 512) (by decide : 0 < 4294967296)
      omega
    · intro h
      exact Nat.mod_eq_of_lt (by omega)

/-- Witness of C16: reading sector 5 of a byte-addressed card that rejects CMD17 with the
answer 5: the packet carries the byte address 2560, `51 00 00 0A 00 01`. -/
theorem C16_sector_address_witness :
    (5 : Nat) < 4294967296 ∧
    (disk_read 0 [7] 5 1 sd_byte_card (answer 5 ++ quiet [0xFF])).map
      (fun x => (x.1, sent x.2.2.1.log))
      = some (RES_ERROR, [0xFF, 0xFF, 0xFF, 0x51, 0, 0, 0x0A, 0, 0x01, 0xFF, 0xFF]) ∧
    ∃ tail, (after_data (disk_read 0 [7] 5 1 sd_byte_card (answer 5 ++ quiet [0xFF]))).2.1.log
      = (after (select (after (deselect sd_byte_card (answer 5 ++ quiet [0xFF]))).1
          (after (deselect sd_byte_card (answer 5 ++ quiet [0xFF]))).2)).1.log ++
        packet_trace CMD17 2560 ⟨0xFF, 0⟩ ⟨0xFF, 0⟩ ⟨0xFF, 0⟩ ⟨0xFF, 0⟩ ⟨0xFF, 0⟩ ⟨0xFF, 0⟩ ++
        tail :=
  ⟨by decide, by decide,
    (C16_sector_address [7] 5 1 sd_byte_card (answer 5 ++ quiet [0xFF]) (by decide) (by decide)
      (by decide)).1 RES_ERROR _ _ _ (after_data_spec _ RES_ERROR (by decide)) _
      ⟨0xFF, 0⟩ ⟨0xFF, 0⟩ ⟨0xFF, 0⟩ ⟨0xFF, 0⟩ ⟨0xFF, 0⟩ ⟨0xFF, 0⟩ [⟨5, 0⟩, ⟨0xFF, 0⟩]
      (Or.inr ⟨by decide, _, _, after_spec _ () (by decide),
        after_spec (select (after (deselect sd_byte_card (answer 5 ++ quiet [0xFF]))).1
          (after (deselect sd_byte_card (answer 5 ++ quiet [0xFF]))).2) true (by decide)⟩)⟩

/-- C17 as stated fails for a version 1 CSD with `READ_BL_LEN = 0` and `C_SIZE_MULT = 0`: the
shift count `READ_BL_LEN + C_SIZE_MULT + 2 - 9` is -7, the shift of line 426 is undefined and
the call has no result. -/
theorem C17_counterexample :
    csd_short.getD 0 0 >>> 6 ≠ 1 ∧
    ((read_bl_len csd_short + c_size_mult csd_short + 2 : Nat) : Int) - 9 = -7 ∧
    sector_count csd_short = none ∧
    disk_ioctl fatfsCodes 1 0 fatfsCodes.GET_SECTOR_COUNT [12345] sd1_card
      (csd_stream csd_short) = none := by
  decide

/-- C17 amended: for a version 1 CSD whose shift count `READ_BL_LEN + C_SIZE_MULT + 2 - 9` is
not negative (as it is whenever `READ_BL_LEN >= 7`), returned by an initialised card that
accepts CMD9, `disk_ioctl(0, GET_SECTOR_COUNT)` returns `RES_OK` and stores
`(C_SIZE + 1) * 2^(C_SIZE_MULT + 2 + READ_BL_LEN - 9)`, a value that fits 32 bits. -/
theorem C17_sector_count_v1 (c : IoctlCodes) (depth : Nat) (buff csd : List Nat)
    (s s1 s2 sE : Drv) (inp i1 i2 iE : List Event) (hc : c.Distinct)
    (hinit : s.Stat &&& STA_NOINIT = 0)
    (h9 : send_cmd CMD9 0 s inp = some (0, s1, i1))
    (hrc : rcvr_datablock (List.replicate 16 0) 0 16 s1 i1 = some (true, csd, s2, i2))
    (hv : csd.getD 0 0 >>> 6 ≠ 1)
    (hshift : 9 ≤ read_bl_len csd + c_size_mult csd + 2)
    (hd : deselect s2 i2 = some ((), sE, iE)) :
    disk_ioctl c (depth + 1) 0 c.GET_SECTOR_COUNT buff s inp
      = some (RES_OK,
          buff.set 0 ((c_size_v1 csd + 1) * 2 ^ (c_size_mult csd + 2 + read_bl_len csd - 9)),
          sE, iE) ∧
    (c_size_v1 csd + 1) * 2 ^ (c_size_mult csd + 2 + read_bl_len csd - 9) < 4294967296 ∧
    c_size_v1 csd ≤ 4095 ∧ c_size_mult csd ≤ 7 ∧ read_bl_len csd ≤ 15 := by
  obtain ⟨hm, hm7⟩ := c_size_mult_eq (csd.getD 9 0) (csd.getD 10 0) (rcvr_csd_bytes hrc 10)
  obtain ⟨hs, hs12⟩ := c_size_v1_eq (csd.getD 6 0) (csd.getD 7 0) (csd.getD 8 0)
    (rcvr_csd_bytes hrc 7) (rcvr_csd_bytes hrc 8)
  have hr15 : read_bl_len csd ≤ 15 := Nat.and_le_right
  have hpow : 2 ^ (c_size_mult csd + 2 + read_bl_len csd - 9) ≤ 2 ^ 15 :=
    Nat.pow_le_pow_right (by decide) (by unfold c_size_mult; omega)
  have hlt : (c_size_v1 csd + 1) * 2 ^ (c_size_mult csd + 2 + read_bl_len csd - 9)
      < 4294967296 := by
    have h1 : (c_size_v1 csd + 1) * 2 ^ (c_size_mult csd + 2 + read_bl_len csd - 9)
        ≤ 4096 * 2 ^ 15 := Nat.mul_le_mul (by unfold c_size_v1; omega) hpow
    omega
  have hsc : sector_count csd
      = some ((c_size_v1 csd + 1) * 2 ^ (c_size_mult csd + 2 + read_bl_len csd - 9)) := by
    have hn : (csd.getD 5 0 &&& 15) + ((csd.getD 10 0 &&& 128) >>> 7) +
        ((csd.getD 9 0 &&& 3) <<< 1) + 2 = c_size_mult csd + 2 + read_bl_len csd := by
      unfold c_size_mult read_bl_len
      rw [hm]
      omega
    unfold sector_count
    rw [if_neg hv]
    simp only [hn]
    rw [if_neg (by omega), ← hs, Nat.shiftLeft_eq]
    rw [show ((csd.getD 6 0 &&& 3) <<< 10 ||| csd.getD 7 0 <<< 2 ||| csd.getD 8 0 >>> 6)
      = c_size_v1 csd from rfl, Nat.mod_eq_of_lt hlt]
  refine ⟨?_, hlt, hs12, hm7, hr15⟩
  rw [disk_ioctl]
  simp only [ne_eq, not_true_eq_false, if_false, hinit, hc.1.symm, if_true, h9, hrc, hsc, hd]

/-- Witness of C17 amended: a 2 GB version 1 card, `READ_BL_LEN = 10`, `C_SIZE = 0xF03`,
`C_SIZE_MULT = 7`, capacity 3844 * 1024 sectors. -/
theorem C17_sector_count_v1_witness :
    fatfsCodes.Distinct ∧ sd1_card.Stat &&& STA_NOINIT = 0 ∧ csd_2g.getD 0 0 >>> 6 ≠ 1 ∧
    9 ≤ read_bl_len csd_2g + c_size_mult csd_2g + 2 ∧
    (disk_ioctl fatfsCodes (0 + 1) 0 fatfsCodes.GET_SECTOR_COUNT [12345] sd1_card
      (csd_stream csd_2g)).map (fun x => (x.1, x.2.1)) = some (RES_OK, [3844 * 1024]) := by
  refine ⟨by decide, by decide, by decide, by decide, ?_⟩
  have h := C17_sector_count_v1 fatfsCodes 0 [12345] csd_2g sd1_card csd_2g_cmd.1 csd_2g_blk.1
    csd_2g_end.1 (csd_stream csd_2g) csd_2g_cmd.2 csd_2g_blk.2 csd_2g_end.2
    (by decide) (by decide) (by decide) (by decide) (by decide) (by decide) (by decide)
  rw [h.1]
  decide

/-- C15: a write followed by a read of the same `count >= 1` sectors against the simulated
well-behaved card. `disk_write` returns `RES_OK`; the card, fed with the bytes the driver put
on the wire, stores the blocks at the address of the write command; `disk_read`, served from
that memory at the address of the read command (which is the address the card decodes from the
bytes of the read), returns `RES_OK` and leaves the buffer byte-identical to the payload. The
card may count addresses in bytes or in blocks (`stride`). -/
theorem C15_round_trip (payload buf : List Nat) (sector count stride : Nat) (s s2 : Drv)
    (rest rest2 : List Event) (hcount : 1 ≤ count) (hsec : sector < 4294967296)
    (hlen : payload.length = 512 * count) (hbytes : ∀ b ∈ payload, b < 256)
    (hbuf : buf.length = 512 * count) (hstride : 0 < stride)
    (hinit : s.Stat &&& STA_NOINIT = 0) (hprot : s.Stat &&& STA_PROTECT = 0)
    (hinit2 : s2.Stat &&& STA_NOINIT = 0) (hct : s2.CardType = s.CardType) :
    ∃ sW bytesW,
      disk_write 0 payload sector count s
        (card_write_stream (decide (count ≠ 1 ∧ s.CardType &&& CT_SDC ≠ 0)) count ++ rest)
        = some (RES_OK, sW, rest) ∧
      sent sW.log = sent s.log ++ bytesW ∧
      ∃ addr sR bytesR,
        disk_read 0 buf sector count s2
          (card_read_stream (card_run stride Card.fresh bytesW).mem stride addr count ++ rest2)
          = some (RES_OK, payload, sR, rest2) ∧
        sent sR.log = sent s2.log ++ bytesR ∧
        (card_run stride (card_run stride Card.fresh bytesW) bytesR).reading = some addr ∧
        addr = (if s.CardType &&& CT_BLOCK ≠ 0 then sector else sector * 512 % 4294967296) := by
  have hc0 : count ≠ 0 := by omega
  have harg : (if s.CardType &&& CT_BLOCK = 0 then sector * 512 % 4294967296 else sector)
      = (if s.CardType &&& CT_BLOCK ≠ 0 then sector else sector * 512 % 4294967296) := by
    by_cases hb : s.CardType &&& CT_BLOCK = 0 <;> simp [hb]
  have haddr : (if s.CardType &&& CT_BLOCK = 0 then sector * 512 % 4294967296 else sector)
      < 4294967296 := by
    split
    · exact Nat.mod_lt _ (by decide)
    · exact hsec
  obtain ⟨sW, eW, lW⟩ := disk_write_accept payload sector count s rest hc0 hinit hprot
  refine ⟨sW, _, eW, lW, ?_⟩
  have hmem := card_run_write stride (decide (count ≠ 1 ∧ s.CardType &&& CT_SDC ≠ 0))
    (if s.CardType &&& CT_BLOCK = 0 then sector * 512 % 4294967296 else sector) payload count
    Card.fresh rfl hc0 haddr
  have hps : (List.range count).map (fun i =>
      (card_run stride Card.fresh (write_bytes (decide (count ≠ 1 ∧ s.CardType &&& CT_SDC ≠ 0))
        (if s.CardType &&& CT_BLOCK = 0 then sector * 512 % 4294967296 else sector)
        payload count)).mem
        ((if s.CardType &&& CT_BLOCK = 0 then sector * 512 % 4294967296 else sector) +
          stride * i)) = chunks payload 0 count := by
    rw [hmem]
    have h := mem_after_range stride hstride (chunks payload 0 count) Card.fresh.mem
      (if s.CardType &&& CT_BLOCK = 0 then sector * 512 % 4294967296 else sector)
    rw [chunks_length] at h
    exact h
  have hflat : (chunks payload 0 count).flatten = payload := by
    rw [chunks_flatten payload 0 count hbytes (by omega), List.drop_zero,
      List.take_of_length_le (by omega)]
  obtain ⟨sR, eR, lR⟩ := disk_read_accept buf sector count s2 (chunks payload 0 count) rest2
    hc0 hinit2 (chunks_length _ _ _) (chunks_block payload 0 count) hbuf
  rw [hflat] at eR
  rw [hct] at lR
  refine ⟨(if s.CardType &&& CT_BLOCK = 0 then sector * 512 % 4294967296 else sector), sR, _,
    ?_, lR, ?_, harg⟩
  · unfold card_read_stream
    rw [hps]
    exact eR
  · rw [card_run_read stride _ _ count _ (by rw [hmem]; rfl) haddr]

/-- Witness of C15: two sectors, one of bytes 3 and one of bytes 4, written to sector 5 of a
block-addressed SD card and read back into a zeroed buffer. -/
theorem C15_round_trip_witness :
    ∃ sW bytesW,
      disk_write 0 (List.replicate 512 3 ++ List.replicate 512 4) 5 2 sd_card
        (card_write_stream (decide (2 ≠ 1 ∧ sd_card.CardType &&& CT_SDC ≠ 0)) 2 ++ [])
        = some (RES_OK, sW, []) ∧
      sent sW.log = sent sd_card.log ++ bytesW ∧
      ∃ addr sR bytesR,
        disk_read 0 (List.replicate 1024 0) 5 2 sd_card
          (card_read_stream (card_run 1 Card.fresh bytesW).mem 1 addr 2 ++ [])
          = some (RES_OK, List.replicate 512 3 ++ List.replicate 512 4, sR, []) ∧
        sent sR.log = sent sd_card.log ++ bytesR ∧
        (card_run 1 (card_run 1 Card.fresh bytesW) bytesR).reading = some addr ∧
        addr = (if sd_card.CardType &&& CT_BLOCK ≠ 0 then 5 else 5 * 512 % 4294967296) :=
  C15_round_trip (List.replicate 512 3 ++ List.replicate 512 4) (List.replicate 1024 0) 5 2 1
    sd_card sd_card [] [] (by decide) (by decide)
    (by rw [List.length_append, List.length_replicate, List.length_replicate])
    (by
      intro b hb
      rcases List.mem_append.mp hb with h | h <;> rw [List.eq_of_mem_replicate h] <;> decide)
    (by rw [List.length_replicate]) (by decide) (by decide) (by decide) (by decide) rfl

/-- C21: for every even length `2 * (m + 1)` (a `UINT`) and every stream, `rcvr_datablock`
returns exactly when the stream begins with bytes `0xFF` read while the 200 ms timer `Timer1`
is running (`idle`) and then a byte `tok` that is not `0xFF` or during which the timer runs
out. It succeeds if and only if `tok` is `0xFE`: then the next `2 * (m + 1)` bytes (`data`) are
stored in order at `buff[off ..]`, two more bytes `c1`, `c2` are read and dropped, and nothing
else is read. Otherwise it fails, the buffer is as it was and nothing after `tok` is read. When
the buffer has room, the stored bytes replace exactly `buff[off .. off + 2 * (m + 1))`. -/
theorem C21_receive_block (buff : List Nat) (off m : Nat) (s : Drv) (inp : List Event)
    (hm : 2 * (m + 1) < 4294967296) (ok : Bool) (b1 : List Nat) (s1 : Drv)
    (rest : List Event) :
    (rcvr_datablock buff off (2 * (m + 1)) s inp = some (ok, b1, s1, rest) ↔
      ∃ idle tok, (∀ x ∈ idle, x.val = 0xFF) ∧ ticks_sum idle < 200 ∧
        (tok.val ≠ 0xFF ∨ 200 ≤ ticks_sum idle + tok.ticks) ∧
        ((tok.val = 0xFE ∧ ok = true ∧ ∃ data c1 c2, data.length = 2 * (m + 1) ∧
            inp = idle ++ tok :: (data ++ c1 :: c2 :: rest) ∧
            b1 = store buff off (data.map Event.val) ∧
            s1 = clock { s with Timer1 := 200 } (idle ++ tok :: (data ++ [c1, c2])) ∧
            s1.log = s.log ++ polls (idle ++ tok :: (data ++ [c1, c2]))) ∨
         (tok.val ≠ 0xFE ∧ ok = false ∧ inp = idle ++ tok :: rest ∧ b1 = buff ∧
            s1 = clock { s with Timer1 := 200 } (idle ++ [tok]) ∧
            s1.log = s.log ++ polls (idle ++ [tok])))) ∧
    (off + 2 * (m + 1) ≤ buff.length → ∀ data : List Nat, data.length = 2 * (m + 1) →
      store buff off data = buff.take off ++ data ++ buff.drop (off + 2 * (m + 1))) := by
  constructor
  · rw [rcvr_datablock_spec buff off m s inp hm]
    constructor
    · rintro ⟨idle, tok, h1, h2, h3, h | h⟩
      · obtain ⟨h4, h5, data, c1, c2, h6, h7, h8, h9⟩ := h
        exact ⟨idle, tok, h1, h2, h3, Or.inl ⟨h4, h5, data, c1, c2, h6, h7, h8, h9,
          by rw [h9]; exact clock_log _ _⟩⟩
      · obtain ⟨h4, h5, h6, h7, h8⟩ := h
        exact ⟨idle, tok, h1, h2, h3, Or.inr ⟨h4, h5, h6, h7, h8,
          by rw [h8]; exact clock_log _ _⟩⟩
    · rintro ⟨idle, tok, h1, h2, h3, h | h⟩
      · obtain ⟨h4, h5, data, c1, c2, h6, h7, h8, h9, -⟩ := h
        exact ⟨idle, tok, h1, h2, h3, Or.inl ⟨h4, h5, data, c1, c2, h6, h7, h8, h9⟩⟩
      · obtain ⟨h4, h5, h6, h7, h8, -⟩ := h
        exact ⟨idle, tok, h1, h2, h3, Or.inr ⟨h4, h5, h6, h7, h8⟩⟩
  · intro hl data hd
    rw [← hd]
    exact store_eq buff off data (by omega)

/-- Witness of C21: one idle byte, the token `0xFE`, the data bytes 1 and 2 stored at
`buff[1 ..]` and two CRC bytes, with one event left over; and a stream whose token wait times
out during the second idle byte, leaving the byte `0xFE` that follows unread. -/
theorem C21_receive_block_witness :
    2 * (0 + 1) < 4294967296 ∧
    (∃ s1, rcvr_datablock [0, 0, 0] 1 (2 * (0 + 1)) sd_card
        ([⟨0xFF, 0⟩] ++ ⟨0xFE, 0⟩ :: ([⟨1, 0⟩, ⟨2, 0⟩] ++ ⟨9, 0⟩ :: ⟨9, 0⟩ :: [⟨7, 0⟩]))
        = some (true, [0, 1, 2], s1, [⟨7, 0⟩])) ∧
    (∃ s1, rcvr_datablock [0, 0, 0] 1 (2 * (0 + 1)) sd_card
        ([⟨0xFF, 100⟩] ++ ⟨0xFF, 100⟩ :: [⟨0xFE, 0⟩])
        = some (false, [0, 0, 0], s1, [⟨0xFE, 0⟩])) :=
  ⟨by decide,
    ⟨_, (C21_receive_block [0, 0, 0] 1 0 sd_card _ (by decide) true [0, 1, 2] _ [⟨7, 0⟩]).1.mpr
      ⟨[⟨0xFF, 0⟩], ⟨0xFE, 0⟩, by decide, by decide, Or.inl (by decide),
        Or.inl ⟨by decide, rfl, [⟨1, 0⟩, ⟨2, 0⟩], ⟨9, 0⟩, ⟨9, 0⟩, rfl, rfl, by decide, rfl,
          clock_log _ _⟩⟩⟩,
    ⟨_, (C21_receive_block [0, 0, 0] 1 0 sd_card _ (by decide) false [0, 0, 0] _
        [⟨0xFE, 0⟩]).1.mpr
      ⟨[⟨0xFF, 100⟩], ⟨0xFF, 100⟩, by decide, by decide, Or.inr (by decide),
        Or.inr ⟨by decide, rfl, rfl, rfl, rfl, clock_log _ _⟩⟩⟩⟩

/-- C22: for every buffer, token and stream, `xmit_datablock` returns exactly when the stream
begins with bytes other than `0xFF` read while the 500 ms timer `Timer2` is running (`waits`)
and then a byte `e` that is `0xFF` (ready) or during which the timer runs out. When the card
is not ready the call fails and its whole trace is the ready polls: neither the token nor a
data byte is sent. When the card is ready the token byte is sent; for the token `0xFD` nothing
more is sent or read and the call succeeds; for any other token the 512 bytes of
`buff[off ..]` are sent in order, then two bytes `0xFF`, then one response byte `r` is read, and
the call succeeds if and only if `r & 0x1F` is 5. -/
theorem C22_send_block (buff : List Nat) (off token : Nat) (s : Drv) (inp : List Event)
    (ok : Bool) (s1 : Drv) (rest : List Event) :
    (xmit_datablock buff off token s inp = some (ok, s1, rest) ↔
      ∃ waits e, (∀ x ∈ waits, x.val ≠ 0xFF) ∧ ticks_sum waits < 500 ∧
        ((e.val ≠ 0xFF ∧ 500 ≤ ticks_sum waits + e.ticks ∧ ok = false ∧
            inp = waits ++ e :: rest ∧
            s1 = clock { s with Timer2 := 500 } (waits ++ [e]) ∧
            s1.log = s.log ++ polls (waits ++ [e])) ∨
         (e.val = 0xFF ∧ token = 0xFD ∧ ok = true ∧ ∃ eT, inp = waits ++ e :: eT :: rest ∧
            s1 = exch 0xFD eT (clock { s with Timer2 := 500 } (waits ++ [e])) ∧
            s1.log = s.log ++ polls (waits ++ [e]) ++ [Action.xchg 0xFD eT.val]) ∨
         (e.val = 0xFF ∧ token ≠ 0xFD ∧ ∃ eT data c1 c2 r, data.length = 512 ∧
            inp = waits ++ e :: eT :: (data ++ c1 :: c2 :: r :: rest) ∧
            ok = decide (r.val &&& 0x1F = 0x05) ∧
            s1 = exch 0xFF r (exch 0xFF c2 (exch 0xFF c1 (xmit_clock buff off
              (exch token eT (clock { s with Timer2 := 500 } (waits ++ [e]))) data))) ∧
            s1.log = s.log ++ polls (waits ++ [e]) ++ [Action.xchg token eT.val] ++
              data_trace buff off data ++ polls [c1, c2, r]))) ∧
    (∀ data : List Event, data.length = 512 →
      sent (data_trace buff off data) = slice buff off 512) ∧
    (off + 512 ≤ buff.length → (∀ b ∈ buff, b < 256) →
      slice buff off 512 = (buff.drop off).take 512) := by
  refine ⟨?_, ?_, ?_⟩
  · rw [xmit_datablock_spec buff off token s inp]
    constructor
    · rintro ⟨waits, e, h1, h2, h | h | h⟩
      · obtain ⟨h3, h4, h5, h6, h7⟩ := h
        exact ⟨waits, e, h1, h2, Or.inl ⟨h3, h4, h5, h6, h7, by rw [h7]; exact clock_log _ _⟩⟩
      · obtain ⟨h3, h4, h5, eT, h6, h7⟩ := h
        exact ⟨waits, e, h1, h2, Or.inr (Or.inl ⟨h3, h4, h5, eT, h6, h7,
          by rw [h7]; exact xmit_stop_token_log _ _ _⟩)⟩
      · obtain ⟨h3, h4, eT, data, c1, c2, r, h5, h6, h7, h8⟩ := h
        exact ⟨waits, e, h1, h2, Or.inr (Or.inr ⟨h3, h4, eT, data, c1, c2, r, h5, h6, h7, h8,
          by rw [h8]; exact xmit_block_log _ _ _ _ _ _ _ _ _ _⟩)⟩
    · rintro ⟨waits, e, h1, h2, h | h | h⟩
      · obtain ⟨h3, h4, h5, h6, h7, -⟩ := h
        exact ⟨waits, e, h1, h2, Or.inl ⟨h3, h4, h5, h6, h7⟩⟩
      · obtain ⟨h3, h4, h5, eT, h6, h7, -⟩ := h
        exact ⟨waits, e, h1, h2, Or.inr (Or.inl ⟨h3, h4, h5, eT, h6, h7⟩)⟩
      · obtain ⟨h3, h4, eT, data, c1, c2, r, h5, h6, h7, h8, -⟩ := h
        exact ⟨waits, e, h1, h2, Or.inr (Or.inr ⟨h3, h4, eT, data, c1, c2, r, h5, h6, h7, h8⟩)⟩
  · intro data hd
    rw [data_trace_sent, hd]
  · intro hl hb
    exact slice_eq buff off 512 hb hl

/-- Witness of C22: a card that is busy for one poll and then ready takes the token `0xFE` and
a block and answers `0xE5`, whose low five bits are 5; a card that stays busy until the timer
runs out makes the call fail after two polls; the token `0xFD` goes out alone. -/
theorem C22_send_block_witness :
    (∃ s1, xmit_datablock (List.replicate 512 0xA5) 0 0xFE sd_card
        ([⟨0, 0⟩] ++ ⟨0xFF, 0⟩ :: ⟨0xFF, 0⟩ :: (quiet (List.replicate 512 0xFF) ++
          ⟨0xFF, 0⟩ :: ⟨0xFF, 0⟩ :: ⟨0xE5, 0⟩ :: [⟨0x33, 0⟩]))
        = some (true, s1, [⟨0x33, 0⟩])) ∧
    (∃ s1, xmit_datablock (List.replicate 512 0xA5) 0 0xFE sd_card
        ([⟨0, 300⟩] ++ ⟨0, 200⟩ :: [⟨0xFF, 0⟩])
        = some (false, s1, [⟨0xFF, 0⟩]) ∧ s1.log = polls [⟨0, 300⟩, ⟨0, 200⟩]) ∧
    (∃ s1, xmit_datablock [] 0 0xFD sd_card ([] ++ ⟨0xFF, 0⟩ :: ⟨0xFF, 0⟩ :: [⟨0x33, 0⟩])
        = some (true, s1, [⟨0x33, 0⟩]) ∧ sent s1.log = [0xFF, 0xFD]) :=
  ⟨⟨_, (C22_send_block (List.replicate 512 0xA5) 0 0xFE sd_card _ true _ [⟨0x33, 0⟩]).1.mpr
      ⟨[⟨0, 0⟩], ⟨0xFF, 0⟩, by decide, by decide, Or.inr (Or.inr ⟨by decide, by decide,
        ⟨0xFF, 0⟩, quiet (List.replicate 512 0xFF), ⟨0xFF, 0⟩, ⟨0xFF, 0⟩, ⟨0xE5, 0⟩,
        by rw [quiet, List.length_map, List.length_replicate], rfl, by decide, rfl,
        xmit_block_log _ _ _ _ _ _ _ _ _ _⟩)⟩⟩,
    ⟨_, (C22_send_block (List.replicate 512 0xA5) 0 0xFE sd_card _ false _ [⟨0xFF, 0⟩]).1.mpr
      ⟨[⟨0, 300⟩], ⟨0, 200⟩, by decide, by decide, Or.inl ⟨by decide, by decide, rfl, rfl,
        rfl, clock_log _ _⟩⟩, clock_log _ _⟩,
    ⟨_, (C22_send_block [] 0 0xFD sd_card _ true _ [⟨0x33, 0⟩]).1.mpr
      ⟨[], ⟨0xFF, 0⟩, by decide, by decide, Or.inr (Or.inl ⟨by decide, rfl, rfl,
        ⟨0xFF, 0⟩, rfl, rfl, xmit_stop_token_log _ _ _⟩)⟩, by decide⟩⟩

end PortFatfs
